import Mathlib

/-!
# sdr_wallets: the transfer pipeline over an in-memory store

A shallow embedding of the Go sources

* `pkg/eth/utils.go` (`CalcGasCost`, `ToETH`, `ToWei`, `IsValidAddress`),
* `pkg/crypto/hmac.go` (`GetSHA256`),
* `app/storage/database/models.go` and `postgres.go` (the `transfers` table and the
  SQL statements that read and write it, `CreateTransaction`, `ExistingWallet`),
* `app/models/transactions.go` (`SignedTransaction.Validate`, `SignedTransfer.Validate`,
  `NewTransaction.Validate`) and `app/models/wallets.go` (`NewWallet.Validate`,
  `GetWallet.Validate`),
* `app/transaction/manager.go` (`ConfirmTransfer`, `CompleteTransfers`, `topUpEthBalance`,
  `CreateTransfer`, `createTransfer`, `estimateTax`),
* `app/scrapper/manager.go` (`CompleteTransfer`, `FailEthTransfer`, `GetPendingTopUps`,
  `GetPendingTransfers`, `CreateTransaction`, `IsWalletExist`, `RegisterWallet`),
* `app/scrapper/scrappers/eventscraper.go` (`monitorEvents`, `extractOldEvents`) and
  `txscrapper.go` (`monitorTopUpTransactions`, `makeNewTransactionFromTx`,
  `extractOldTransactions`, `deriveChainId`, `deriveSigner`),
* `app/notifier/manager.go` (`Subscribe`, `Notify`, `Start`).

Conventions of the embedding.

* The `transfers` table is a list of rows in insertion order.  An SQL `UPDATE ... WHERE c`
  is a `List.map` that rewrites the rows satisfying `c`; `SELECT ... LIMIT 1` is
  `List.find?`; `ORDER BY nonce ASC` is a stable insertion sort.  The database driver
  itself is taken to be available: a statement fails only when the Go code turns an empty
  result into an error (`sql: no rows in result set`).
* `uint64` values are naturals, `*big.Int` values are integers.  The column `gas_price`
  holds the decimal rendering of a `*big.Int`; the embedding keeps the integer it denotes.
* `time.Now()` / `NOW()` is the field `now` of the environment.
* Everything the pipeline asks of the outside world (the Ethereum node, the RLP decoder,
  the signer, the UUID generator) is a field of `Env`; an `error` is the Go error's text.
* Calls that move funds on chain are appended to the `calls` log of the `World`, so that
  "nothing was broadcast" is the statement that the log did not grow.
* A `decimal.Decimal` is kept as the number it stands for, `coeff / 10 ^ scale`; a `float64`
  is kept as its bit pattern, and the conversions between the two are fields of `Env`.
* The goroutines a scraper starts in one pass of its loop are run one after the other.
* A loop that need not end takes a number of iterations it may run, and reports whether it
  has ended within them.
* A channel without buffer is the list of what its receiver has taken from it; a send that
  no goroutine receives is a state of the sender.
-/

namespace SdrWallets

/-! ## Data model (`database/models.go`) -/

/-- Transfer statuses: the constants `TransferStatusNew` .. `TransferStatusConfirming`. -/
inductive TransferStatus
  | new
  | queued
  | pending
  | failed
  | completed
  | processing
  | confirming
  deriving DecidableEq, Repr

/-- The string each status constant stands for. -/
def TransferStatus.toString : TransferStatus → String
  | .new => "new"
  | .queued => "queued"
  | .pending => "pending"
  | .failed => "failed"
  | .completed => "completed"
  | .processing => "processing"
  | .confirming => "confirming"

/-- Transfer types: `TransferTypeTransferToken`, `TransferTypeTxETH`, `TransferTypeTax`,
`TransferTypeEthTopUp`. -/
inductive TransferType
  | TransferToken
  | TxETH
  | Tax
  | EthTopUp
  deriving DecidableEq, Repr

/-- The string each transfer type constant stands for. -/
def TransferType.toString : TransferType → String
  | .TransferToken => "transfer_token"
  | .TxETH => "ethereum_tx"
  | .Tax => "tax"
  | .EthTopUp => "ethtopup"

/-- Go struct `Base`. -/
structure Base where
  ID : String
  CreatedAt : Nat
  UpdatedAt : Option Nat
  DeletedAt : Option Nat
  deriving DecidableEq, Repr

/-- Go struct `NewTransfer` (database package). -/
structure NewTransfer where
  TransferType : TransferType
  FromAddress : String
  Nonce : Nat
  GasPrice : Int
  GasLimit : Nat
  Amount : String
  ToAddress : String
  TaxAmount : String
  deriving DecidableEq, Repr

/-- Go struct `Transfer`: one row of the `transfers` table. -/
structure Transfer extends Base, NewTransfer where
  EthTransferID : Option String
  TxHash : Option String
  RawTx : Option String
  Status : TransferStatus
  Message : String
  deriving DecidableEq, Repr

/-- `Transfer.IsProcessing`. -/
def Transfer.IsProcessing (t : Transfer) : Bool :=
  !(t.Status = TransferStatus.new || t.Status = TransferStatus.confirming)

/-- SQL `LOWER(..)` on a text value. -/
def lower (s : String) : String := ⟨s.data.map Char.toLower⟩

/-- `errors.Wrap(err, msg).Error()`. -/
def Wrap (err msg : String) : String := msg ++ ": " ++ err

/-- The text of `sql.ErrNoRows`. -/
def ErrNoRows : String := "sql: no rows in result set"

/-! ## `pkg/eth/utils.go` -/

/-- Go conversion `int64(x)` of a `uint64`: two's complement reinterpretation. -/
def int64OfUint64 (x : Nat) : Int :=
  if x % 2 ^ 64 < 2 ^ 63 then ((x % 2 ^ 64 : Nat) : Int) else ((x % 2 ^ 64 : Nat) : Int) - 2 ^ 64

/-- `CalcGasCost`: `big.NewInt(int64(gasLimit))` multiplied by `gasPrice`. -/
def CalcGasCost (gasLimit : Nat) (gasPrice : Int) : Int :=
  int64OfUint64 gasLimit * gasPrice

/-- The constant `ethTxGasLimit` of `transaction/manager.go`. -/
def ethTxGasLimit : Nat := 21000

/-- A Go `float64`, kept as its IEEE-754 bit pattern.  Floating-point arithmetic and the
conversions between `float64` and `decimal.Decimal` are answers of the environment. -/
structure Float64 where
  bits : Nat
  deriving DecidableEq, Repr

/-- A `decimal.Decimal` (shopspring), kept as the number `coeff / 10 ^ scale`. -/
structure Decimal where
  coeff : Int
  scale : Nat
  deriving DecidableEq, Repr

namespace Decimal

/-- `decimal.NewFromString` of the decimal rendering of a `*big.Int`. -/
def ofBigInt (i : Int) : Decimal := { coeff := i, scale := 0 }

/-- `Decimal.Mul`: exact. -/
def Mul (a b : Decimal) : Decimal :=
  { coeff := a.coeff * b.coeff, scale := a.scale + b.scale }

/-- `Decimal.Add`: exact. -/
def Add (a b : Decimal) : Decimal :=
  { coeff := a.coeff * 10 ^ b.scale + b.coeff * 10 ^ a.scale, scale := a.scale + b.scale }

/-- `decimal.DivisionPrecision`. -/
def DivisionPrecision : Nat := 16

/-- `d.Div(10 ^ decimals)`: the quotient rounded to `DivisionPrecision` digits after the
decimal point, half away from zero (`DivRound`). -/
def DivPow10 (d : Decimal) (decimals : Nat) : Decimal :=
  let num := d.coeff.natAbs * 10 ^ DivisionPrecision
  let den := 10 ^ (d.scale + decimals)
  let q := (2 * num + den) / (2 * den)
  { coeff := if d.coeff < 0 then -(q : Int) else (q : Int), scale := DivisionPrecision }

/-- The integer `new(big.Int).SetString(d.String(), 10)` leaves in its receiver: the digits
before the decimal point, that is `d` truncated toward zero. -/
def IntPart (d : Decimal) : Int := d.coeff.tdiv (10 ^ d.scale)

end Decimal

/-- `ToETH` on a `*big.Int` (or on the decimal string of one): `value / 10 ^ decimals` as a
decimal with at most 16 digits after the point. -/
def ToETH (value : Int) (decimals : Nat) : Decimal :=
  (Decimal.ofBigInt value).DivPow10 decimals

/-- `ToWei` on an amount already converted to a decimal: the amount times `10 ^ decimals`,
read back into a `*big.Int`. -/
def ToWei (amount : Decimal) (decimals : Nat) : Int :=
  (amount.Mul { coeff := 10 ^ decimals, scale := 0 }).IntPart

/-! ## `hexutil` of go-ethereum, as used by `createTransfer` and `NewTransferFromPublic` -/

namespace hexutil

/-- `hexutil.EncodeUint64`. -/
def EncodeUint64 (i : Nat) : String := "0x" ++ String.mk (Nat.toDigits 16 i)

/-- `hexutil.EncodeBig`. -/
def EncodeBig (i : Int) : String :=
  if i = 0 then "0x0"
  else if 0 < i then "0x" ++ String.mk (Nat.toDigits 16 i.natAbs)
  else "-0x" ++ String.mk (Nat.toDigits 16 i.natAbs)

/-- The value of a hexadecimal digit. -/
def hexValue (c : Char) : Option Nat :=
  if '0' ≤ c ∧ c ≤ '9' then some (c.toNat - 48)
  else if 'a' ≤ c ∧ c ≤ 'f' then some (c.toNat - 87)
  else if 'A' ≤ c ∧ c ≤ 'F' then some (c.toNat - 55)
  else none

/-- The number written by a list of hexadecimal digits, most significant first. -/
def parseHex : List Char → Nat → Option Nat
  | [], acc => some acc
  | c :: cs, acc =>
    match hexValue c with
    | none => none
    | some v => parseHex cs (16 * acc + v)

/-- `checkNumber`: the digits after the `0x` prefix, when there is a prefix, at least one
digit and no leading zero. -/
def checkNumber (input : String) : Option (List Char) :=
  match input.data with
  | '0' :: x :: raw =>
    if (x = 'x' ∨ x = 'X') ∧ raw ≠ [] ∧ ¬ (1 < raw.length ∧ raw.head? = some '0') then some raw
    else none
  | _ => none

/-- The value `hexutil.DecodeUint64` returns (its error is ignored by the caller): the
number, `2 ^ 64 - 1` when it does not fit 64 bits, and 0 on any other error. -/
def DecodeUint64 (input : String) : Nat :=
  match checkNumber input with
  | none => 0
  | some raw =>
    match parseHex raw 0 with
    | none => 0
    | some n => if n < 2 ^ 64 then n else 2 ^ 64 - 1

/-- `hexutil.DecodeBig`: `none` stands for the nil result returned with an error. -/
def DecodeBig (input : String) : Option Int :=
  match checkNumber input with
  | none => none
  | some raw =>
    if 64 < raw.length then none
    else (parseHex raw 0).map fun n => (n : Int)

/-- `hexutil.Encode` of a byte string. -/
def Encode (b : List Nat) : String :=
  "0x" ++ String.mk (b.flatMap fun x => [Nat.digitChar (x / 16 % 16), Nat.digitChar (x % 16)])

end hexutil

/-- The bytes of a natural number, most significant first, none for zero: `big.Int.Bytes`. -/
def bytesOfNat : Nat → Nat → List Nat → List Nat
  | 0, _, acc => acc
  | fuel + 1, n, acc => if n = 0 then acc else bytesOfNat fuel (n / 256) (n % 256 :: acc)

/-- `common.LeftPadBytes`: a slice of at least `l` bytes is returned as it is. -/
def LeftPadBytes (slice : List Nat) (l : Nat) : List Nat :=
  if l ≤ slice.length then slice else List.replicate (l - slice.length) 0 ++ slice

/-- `IsValidAddress` on a string: the regular expression `^0x[0-9a-fA-F]{40}$`. -/
def IsValidAddress (address : String) : Bool :=
  match address.data with
  | '0' :: 'x' :: digits =>
    decide (digits.length = 40) && digits.all fun c => (hexutil.hexValue c).isSome
  | _ => false

/-- `transferMethodID`: the first four bytes of the Keccak-256 hash of
`transfer(address,uint256)`, computed once by `init`. -/
def transferMethodID : List Nat := [0xa9, 0x05, 0x9c, 0xbb]

/-! ## The store (`database/postgres.go`) -/

namespace Postgres

/-- The effect of `WriteTransferError` on one row. -/
def writeErrorRow (now : Nat) (id msg : String) (r : Transfer) : Transfer :=
  if r.ID = id ∧ r.DeletedAt = none then
    { r with Message := msg, Status := TransferStatus.failed, UpdatedAt := some now }
  else r

/-- `WriteTransferError`:
`UPDATE transfers SET message = $1, status = failed, updated_at = $3 WHERE id = $4 AND deleted_at IS NULL`. -/
def WriteTransferError (now : Nat) (rows : List Transfer) (id msg : String) : List Transfer :=
  rows.map (writeErrorRow now id msg)

/-- The `WHERE` clause shared by the two statements of `GetAndConfirmTransferByID`. -/
def ownedBy (id frm : String) (r : Transfer) : Prop :=
  r.ID = id ∧ lower r.FromAddress = lower frm ∧ r.DeletedAt = none

instance (id frm : String) (r : Transfer) : Decidable (ownedBy id frm r) := by
  unfold ownedBy
  exact inferInstance

/-- The effect of the `UPDATE` of `GetAndConfirmTransferByID` on one row. -/
def confirmRow (id frm : String) (r : Transfer) : Transfer :=
  if ownedBy id frm r then { r with Status := TransferStatus.confirming } else r

/-- `GetAndConfirmTransferByID`: first the `UPDATE` that sets `status = confirming`, then the
`SELECT ... LIMIT 1` of the same row; no row is an error. -/
def GetAndConfirmTransferByID (rows : List Transfer) (id frm : String) :
    List Transfer × Except String Transfer :=
  let rows1 := rows.map (confirmRow id frm)
  match rows1.find? fun r => decide (ownedBy id frm r) with
  | none => (rows1, .error (Wrap ErrNoRows "failed to select a transfer by id"))
  | some r => (rows1, .ok r)

/-- The effect of one statement of `UpdateTransfers` on one row. -/
def updateRow (now : Nat) (t r : Transfer) : Transfer :=
  if r.ID = t.ID ∧ r.DeletedAt = none then
    { r with TxHash := t.TxHash, RawTx := t.RawTx, Status := t.Status,
             EthTransferID := t.EthTransferID, UpdatedAt := some now }
  else r

/-- One statement of `UpdateTransfers`:
`UPDATE transfers SET tx_hash, raw_tx, status, eth_transfer_id, updated_at WHERE id = :id AND deleted_at IS NULL`. -/
def updateTransfer (now : Nat) (rows : List Transfer) (t : Transfer) : List Transfer :=
  rows.map (updateRow now t)

/-- `UpdateTransfers`: the statements run in the order of the slice, inside one database
transaction; the slice is returned with `UpdatedAt` set. -/
def UpdateTransfers (now : Nat) (rows : List Transfer) (transfers : List Transfer) :
    List Transfer × List Transfer :=
  (transfers.foldl (updateTransfer now) rows,
   transfers.map fun t => { t with UpdatedAt := some now })

/-- `CreateEthTransfer`: the `INSERT` names the columns id, transfer_type, from_address,
nonce, gas_price, gas_limit, status, tx_hash and created_at; the text columns it leaves out
(amount, to_address, tax_amount, message) take the empty default.  The returned struct is
the Go value, which keeps every field of `transfer`. -/
def CreateEthTransfer (now : Nat) (id : String) (rows : List Transfer) (transfer : NewTransfer)
    (txHash : String) : List Transfer × Transfer :=
  let result : Transfer :=
    { ID := id, CreatedAt := now, UpdatedAt := none, DeletedAt := none,
      toNewTransfer := transfer,
      EthTransferID := none, TxHash := some txHash, RawTx := none,
      Status := TransferStatus.pending, Message := "" }
  (rows ++ [{ result with Amount := "", ToAddress := "", TaxAmount := "" }], result)

/-- The effect of `CompleteTransfer` on one row. -/
def completeRow (now : Nat) (id hash : String) (r : Transfer) : Transfer :=
  if (r.ID = id ∨ r.TxHash.map lower = some (lower hash)) ∧ r.DeletedAt = none then
    { r with Status := TransferStatus.completed, UpdatedAt := some now }
  else r

/-- `CompleteTransfer`:
`UPDATE transfers SET status = completed, updated_at WHERE (id = $2 OR LOWER(tx_hash) = LOWER($3)) AND deleted_at IS NULL`.
A `NULL` tx_hash compares unequal to everything. -/
def CompleteTransfer (now : Nat) (rows : List Transfer) (id hash : String) : List Transfer :=
  rows.map (completeRow now id hash)

/-- The effect of `StartEthTransferProcessing` on one row. -/
def processingRow (now : Nat) (id : String) (r : Transfer) : Transfer :=
  if r.ID = id ∧ r.DeletedAt = none then
    { r with Status := TransferStatus.processing, UpdatedAt := some now }
  else r

/-- `StartEthTransferProcessing`:
`UPDATE transfers SET status = processing, updated_at WHERE id = $3 AND deleted_at IS NULL`. -/
def StartEthTransferProcessing (now : Nat) (rows : List Transfer) (id : String) : List Transfer :=
  rows.map (processingRow now id)

/-- The effect of the second statement of `FailEthTransfer` on one row. -/
def failLinkedRow (now : Nat) (id msg : String) (r : Transfer) : Transfer :=
  if r.EthTransferID = some id ∧ r.DeletedAt = none then
    { r with Message := msg, Status := TransferStatus.failed, UpdatedAt := some now }
  else r

/-- `FailEthTransfer`: `WriteTransferError` on the row itself, then
`UPDATE transfers SET message, status = failed, updated_at WHERE eth_transfer_id = $4 AND deleted_at IS NULL`. -/
def FailEthTransfer (now : Nat) (rows : List Transfer) (id msg : String) : List Transfer :=
  (WriteTransferError now rows id msg).map (failLinkedRow now id msg)

/-- The `WHERE` clause of `GetQueuedTransfersFor`. -/
def queuedFor (ethTransferID : String) (r : Transfer) : Bool :=
  decide (r.EthTransferID = some ethTransferID ∧ r.Status = TransferStatus.queued
    ∧ r.DeletedAt = none)

/-- `GetQueuedTransfersFor`:
`SELECT * FROM transfers WHERE eth_transfer_id = $1 AND status = queued AND deleted_at IS NULL ORDER BY nonce ASC`. -/
def GetQueuedTransfersFor (rows : List Transfer) (ethTransferID : String) : List Transfer :=
  (rows.filter (queuedFor ethTransferID)).insertionSort fun a b => a.Nonce ≤ b.Nonce

/-- `IsNoncePending`: whether
`SELECT nonce FROM transfers WHERE nonce = $1 AND LOWER(from_address) = LOWER($2) AND (status = queued OR status = pending) AND deleted_at IS NULL LIMIT 1`
finds a row. -/
def IsNoncePending (rows : List Transfer) (nonce : Nat) (address : String) : Bool :=
  rows.any fun r =>
    decide (r.Nonce = nonce ∧ lower r.FromAddress = lower address
      ∧ (r.Status = TransferStatus.queued ∨ r.Status = TransferStatus.pending)
      ∧ r.DeletedAt = none)

/-- The effect of `ClearUnsignedTransfers` on one row. -/
def clearRow (now : Nat) (address : String) (r : Transfer) : Transfer :=
  if lower r.FromAddress = lower address ∧ r.Status = TransferStatus.new then
    { r with DeletedAt := some now }
  else r

/-- `ClearUnsignedTransfers`:
`UPDATE transfers SET deleted_at = NOW() WHERE LOWER(from_address) = LOWER($1) AND status = new`. -/
def ClearUnsignedTransfers (now : Nat) (rows : List Transfer) (address : String) : List Transfer :=
  rows.map (clearRow now address)

/-- `CreateTransfers`: every new transfer becomes a row with a fresh id and status `new`;
the `INSERT` names every column of `NewTransfer`. -/
def CreateTransfers (now : Nat) (ids : Nat → String) (rows : List Transfer)
    (transfers : List NewTransfer) : List Transfer × List Transfer :=
  let result : List Transfer := transfers.enum.map fun p =>
    { ID := ids p.1, CreatedAt := now, UpdatedAt := none, DeletedAt := none,
      toNewTransfer := p.2,
      EthTransferID := none, TxHash := none, RawTx := none,
      Status := TransferStatus.new, Message := "" }
  (rows ++ result, result)

end Postgres

/-! ## The outside world -/

/-- A call that moves funds on chain. -/
inductive Call
  | SendTransaction (txHash toAddress : String) (value : Int)
  | sendRawTransaction (rawTx : String)
  deriving DecidableEq, Repr

/-- The state the pipeline acts on: the `transfers` table and the log of on-chain calls
made so far. -/
structure World where
  transfers : List Transfer
  calls : List Call
  deriving DecidableEq, Repr

/-- Configuration read by the transaction manager (`config.Transaction`, `config.Ethereum`). -/
structure Config where
  TransferGas : Nat
  TaxGas : Nat
  Surcharge : Float64
  TokenAddress : String
  BankAddress : String
  BankPrivateKey : String

/-- What the collaborators answer during one operation of the manager.

* `PendingNonceAt`, `SuggestGasPrice`, `BalanceAt`, `NetworkID`, `SendTransaction`: the
  methods of `ethclient.Client` with those names.
* `hexDecode` is `hexutil.Decode`; `rlpNonce` is `rlp.DecodeBytes` into a
  `types.Transaction` followed by `tx.Nonce()`.
* `bankAddressOf` is `crypto.HexToECDSA` followed by `crypto.PubkeyToAddress(..).String()`.
* `SignTx` yields `signedTx.Hash().String()` for the value transfer described by its
  arguments (nonce, recipient, value, gas price, chain id).
* `sendRawTransaction k raw` is the answer of `eth_sendRawTransaction` to the raw
  transaction `raw` when `k` on-chain calls have been made before it.
* `uuid k` is the result of the `k`-th call of `uuid.NewUUID()` in the operation.
* `EthToSdr` is the rate oracle, `BalanceOf` and `Decimals` the token contract.
* `NewFromFloat`, `toFloat64` and `addFloat64` are `decimal.NewFromFloat`,
  `Decimal.Float64()` and the addition of two `float64`.
* `addressBytes s` is `common.HexToAddress(s).Bytes()` and `addressString s` is
  `common.HexToAddress(s).String()`. -/
structure Env where
  now : Nat
  EthToSdr : Except String Float64
  BalanceOf : String → Except String Int
  Decimals : Except String Nat
  NewFromFloat : Float64 → Decimal
  toFloat64 : Decimal → Float64
  addFloat64 : Float64 → Float64 → Float64
  addressBytes : String → List Nat
  addressString : String → String
  PendingNonceAt : String → Except String Nat
  hexDecode : String → Except String (List Nat)
  rlpNonce : List Nat → Except String Nat
  SuggestGasPrice : Except String Nat
  BalanceAt : String → Except String Int
  NetworkID : Except String Nat
  bankAddressOf : String → Except String String
  SignTx : Nat → String → Int → Int → Nat → Except String String
  SendTransaction : String → Except String Unit
  sendRawTransaction : Nat → String → Except String String
  uuid : Nat → String

/-! ## Request models (`models/transactions.go`) -/

namespace Models

/-- Go struct `NewTransfer` of package `models`: the request of `/transfer`. -/
structure NewTransfer where
  FromAddress : String
  ToAddress : String
  Amount : Float64
  deriving DecidableEq, Repr

/-- `NewTransfer.Validate`. -/
def NewTransfer.Validate (t : NewTransfer) : Except String Unit :=
  if t.FromAddress = "" then
    .error "empty from address; it must be set on server during the processing, contact the support"
  else if t.ToAddress = "" then .error "empty destination address provided"
  else if !IsValidAddress t.ToAddress then .error "invalid destination address provided"
  else .ok ()

end Models

/-- Go struct `UnsignedTransaction`. -/
structure UnsignedTransaction where
  Nonce : String
  GasPrice : String
  GasLimit : String
  To : String
  Value : String
  ChainID : String
  Data : String
  deriving DecidableEq, Repr

/-- Go struct `UnsignedTransfer`. -/
structure UnsignedTransfer where
  ID : String
  TransferType : TransferType
  Amount : String
  ToAddress : String
  TxData : UnsignedTransaction
  deriving DecidableEq, Repr

/-- `NewTransferFromPublic`.  A nil result of `DecodeBig` (for which the column would hold
the text `<nil>`) is written as 0; it does not arise for the output of `EncodeBig` on a gas
price below `2 ^ 256`. -/
def NewTransferFromPublic (transfer : UnsignedTransfer) (fromAddress taxAmount : String) :
    NewTransfer :=
  { TransferType := transfer.TransferType
    FromAddress := fromAddress
    Nonce := hexutil.DecodeUint64 transfer.TxData.Nonce
    GasPrice := (hexutil.DecodeBig transfer.TxData.GasPrice).getD 0
    GasLimit := hexutil.DecodeUint64 transfer.TxData.GasLimit
    Amount := transfer.Amount
    ToAddress := transfer.ToAddress
    TaxAmount := taxAmount }

/-- Go struct `SignedTransaction`. -/
structure SignedTransaction where
  ID : String
  RawTx : String
  deriving DecidableEq, Repr

/-- Go struct `SignedTransfer`. -/
structure SignedTransfer where
  FromAddress : String
  Transactions : List SignedTransaction
  deriving DecidableEq, Repr

/-- Go struct `QueuedTransaction`. -/
structure QueuedTransaction where
  ID : String
  Status : TransferStatus
  deriving DecidableEq, Repr

/-- `SignedTransaction.Validate`. -/
def SignedTransaction.Validate (env : Env) (validateNonce : Nat → Except String Unit)
    (t : SignedTransaction) : Except String Unit :=
  if t.ID = "" then .error "empty id provided"
  else if t.RawTx = "" then .error "empty raw transaction is provided"
  else
    match env.hexDecode t.RawTx with
    | .error e => .error (Wrap e "failed to decode raw tx into bytes")
    | .ok rawTxBytes =>
      match env.rlpNonce rawTxBytes with
      | .error e => .error (Wrap e "failed to decode raw tx into a transaction")
      | .ok nonce =>
        match validateNonce nonce with
        | .error e => .error (Wrap e "invalid nonce is provided")
        | .ok _ => .ok ()

/-- The loop of `SignedTransfer.Validate`: the first failing item decides. -/
def validateEach (env : Env) (validateNonce : Nat → Except String Unit) :
    List SignedTransaction → Except String Unit
  | [] => .ok ()
  | t :: ts =>
    match t.Validate env validateNonce with
    | .error e => .error e
    | .ok _ => validateEach env validateNonce ts

/-- `SignedTransfer.Validate`. -/
def SignedTransfer.Validate (env : Env) (validateNonce : Nat → Except String Unit)
    (t : SignedTransfer) : Except String Unit :=
  if t.Transactions.length ≠ 2 then .error "exactly two transactions are expected"
  else validateEach env validateNonce t.Transactions

/-! ## The transaction manager (`transaction/manager.go`) -/

namespace Manager

/-- The loop `for _, t := range transfers.Transactions { _ = m.DB.WriteTransferError(ctx, t.ID, msg) }`. -/
def failTransfers (now : Nat) (rows : List Transfer) (ts : List SignedTransaction)
    (msg : String) : List Transfer :=
  ts.foldl (fun acc t => Postgres.WriteTransferError now acc t.ID msg) rows

/-- The nonce validator closure built by `ConfirmTransfer`. -/
def nonceValidator (rows : List Transfer) (fromAddress : String) (accNonce : Nat)
    (nonce : Nat) : Except String Unit :=
  if accNonce > nonce then
    .error "account nonce is already greater than nonce for the current transfer, you need to create a new transfer"
  else if Postgres.IsNoncePending rows nonce fromAddress then
    .error "nonce is already used by queued or pending transfer, you need to create a new transfer"
  else .ok ()

/-- The loop of `ConfirmTransfer` over the submitted transactions (manager.go 187-207):
each row is set to confirming and re-read, rejected when `IsProcessing`, and otherwise
collected with the submitted raw transaction and status queued while the gas fee is summed. -/
def confirmEach (fromAddress : String) :
    List Transfer → List SignedTransaction → List Transfer → Int →
      List Transfer × Except String (List Transfer × Int)
  | rows, [], dbTransfers, gasFee => (rows, .ok (dbTransfers, gasFee))
  | rows, t :: ts, dbTransfers, gasFee =>
    match Postgres.GetAndConfirmTransferByID rows t.ID fromAddress with
    | (rows1, .error e) => (rows1, .error (Wrap e "failed to get a db transfer"))
    | (rows1, .ok dbt) =>
      if dbt.IsProcessing then (rows1, .error "you have already confirmed this transfer")
      else
        confirmEach fromAddress rows1 ts
          (dbTransfers ++ [{ dbt with RawTx := some t.RawTx, Status := TransferStatus.queued }])
          (gasFee + CalcGasCost dbt.GasLimit dbt.GasPrice)

/-- `topUpEthBalance`: the bank sends `amount` wei to `toAddress` and the `ethtopup` row is
inserted.  (The type assertion on the public key cannot fail for a key produced by
`HexToECDSA`.) -/
def topUpEthBalance (cfg : Config) (env : Env) (w : World) (toAddress : String) (amount : Int) :
    World × Except String Transfer :=
  match env.bankAddressOf cfg.BankPrivateKey with
  | .error e => (w, .error (Wrap e "failed to convert private key to ecdsa"))
  | .ok fromAddress =>
    match env.PendingNonceAt fromAddress with
    | .error e => (w, .error (Wrap e "failed to retrieve service wallet nonce"))
    | .ok nonce =>
      match env.SuggestGasPrice with
      | .error e =>
        (w, .error (Wrap e "failed to estimate gas needed to top up the account balance"))
      | .ok gasPrice =>
        let gasLimit := ethTxGasLimit
        let gasFee := CalcGasCost gasLimit gasPrice
        let totalExpenses := amount + gasFee
        match env.BalanceAt fromAddress with
        | .error e => (w, .error (Wrap e "failed to retrieve service wallet balance"))
        | .ok balance =>
          if balance < totalExpenses then
            (w, .error "service wallet balance is not enough to complete the ETH transaction, contact the support")
          else
            match env.NetworkID with
            | .error e => (w, .error (Wrap e "failed to get chain id"))
            | .ok chainID =>
              match env.SignTx nonce toAddress amount gasPrice chainID with
              | .error e => (w, .error (Wrap e "failed to sign an ETH transaction"))
              | .ok txHash =>
                let calls1 := w.calls ++ [Call.SendTransaction txHash toAddress amount]
                match env.SendTransaction txHash with
                | .error e =>
                  ({ w with calls := calls1 }, .error (Wrap e "failed to send an ETH transaction"))
                | .ok _ =>
                  let created := Postgres.CreateEthTransfer env.now (env.uuid 0) w.transfers
                    { FromAddress := fromAddress, Nonce := nonce, GasPrice := gasPrice,
                      GasLimit := gasLimit, TransferType := TransferType.EthTopUp,
                      Amount := toString amount, ToAddress := toAddress, TaxAmount := "" }
                    txHash
                  ({ transfers := created.1, calls := calls1 }, .ok created.2)

/-- `Manager.ConfirmTransfer`. -/
def ConfirmTransfer (cfg : Config) (env : Env) (w : World) (transfers : SignedTransfer) :
    World × Except String (List QueuedTransaction) :=
  match env.PendingNonceAt transfers.FromAddress with
  | .error e =>
    ({ w with transfers := failTransfers env.now w.transfers transfers.Transactions e },
     .error (Wrap e "failed to retrieve account nonce"))
  | .ok accNonce =>
    match transfers.Validate env (nonceValidator w.transfers transfers.FromAddress accNonce) with
    | .error e =>
      ({ w with transfers := failTransfers env.now w.transfers transfers.Transactions e },
       .error e)
    | .ok _ =>
      match confirmEach transfers.FromAddress w.transfers transfers.Transactions [] 0 with
      | (rows1, .error e) => ({ w with transfers := rows1 }, .error e)
      | (rows1, .ok (dbTransfers, gasFee)) =>
        match topUpEthBalance cfg env { w with transfers := rows1 } transfers.FromAddress gasFee with
        | (w2, .error e) =>
          let msg := "failed to send an eth transaction to top up the wallet balance"
          ({ w2 with transfers := failTransfers env.now w2.transfers transfers.Transactions msg },
           .error (Wrap e msg))
        | (w2, .ok dbEthTransfer) =>
          let linked := dbTransfers.map fun dbt =>
            { dbt with EthTransferID := some dbEthTransfer.ID }
          let updated := Postgres.UpdateTransfers env.now w2.transfers linked
          ({ w2 with transfers := updated.1 },
           .ok (updated.2.map fun dbt => { ID := dbt.ID, Status := dbt.Status }))

/-- The loop `for _, dbt := range dbTransfers { _ = m.DB.WriteTransferError(ctx, dbt.ID, msg) }`
of `CompleteTransfers`. -/
def stampTransfers (now : Nat) (rows : List Transfer) (dbTransfers : List Transfer)
    (msg : String) : List Transfer :=
  dbTransfers.foldl (fun acc dbt => Postgres.WriteTransferError now acc dbt.ID msg) rows

/-- The text of the run-time panic raised by dereferencing a nil `*string`. -/
def nilDereference : String :=
  "panic: runtime error: invalid memory address or nil pointer dereference"

/-- The broadcasting loop of `CompleteTransfers` (manager.go 287-301).  Each raw transaction
is sent in turn; the first failure stamps that transfer and ends the operation, the rows sent
before it having been changed in memory only.  `*dbt.RawTx` on a row without raw_tx panics. -/
def sendEach (env : Env) :
    World → List Transfer → List Transfer → World × Except String (List Transfer)
  | w, [], sent => (w, .ok sent)
  | w, dbt :: rest, sent =>
    match dbt.RawTx with
    | none => (w, .error nilDereference)
    | some rawTx =>
      let w1 : World := { w with calls := w.calls ++ [Call.sendRawTransaction rawTx] }
      match env.sendRawTransaction w.calls.length rawTx with
      | .error e =>
        let err := Wrap e "failed to send a raw transaction"
        ({ w1 with transfers := Postgres.WriteTransferError env.now w1.transfers dbt.ID err },
         .error err)
      | .ok txHash =>
        sendEach env w1 rest
          (sent ++ [{ dbt with Status := TransferStatus.pending, TxHash := some txHash }])

/-- The gas fee summed by `CompleteTransfers` (manager.go 257-265). -/
def totalGasFee (dbTransfers : List Transfer) : Int :=
  dbTransfers.foldl (fun gasFee dbt => gasFee + CalcGasCost dbt.GasLimit dbt.GasPrice) 0

/-- The `fromAddress` left by the loop of manager.go 257-265: that of the last transfer. -/
def lastFromAddress (dbTransfers : List Transfer) : String :=
  dbTransfers.foldl (fun _ dbt => dbt.FromAddress) ""

/-- `Manager.CompleteTransfers`. -/
def CompleteTransfers (env : Env) (w : World) (ethTransferID : String) :
    World × Except String Unit :=
  let dbTransfers := Postgres.GetQueuedTransfersFor w.transfers ethTransferID
  if dbTransfers = [] then (w, .error "empty transfers array received from the db")
  else
    let w1 : World :=
      { w with transfers := Postgres.StartEthTransferProcessing env.now w.transfers ethTransferID }
    let fromAddress := lastFromAddress dbTransfers
    let gasFee := totalGasFee dbTransfers
    match env.BalanceAt fromAddress with
    | .error e =>
      let err := Wrap e "failed to retrieve account balance"
      ({ w1 with transfers := stampTransfers env.now w1.transfers dbTransfers err }, .error err)
    | .ok balance =>
      if balance < gasFee then
        let err := "there are no enough ETH on the wallet " ++ fromAddress ++ " to pay the gas fee"
        ({ w1 with transfers := stampTransfers env.now w1.transfers dbTransfers err }, .error err)
      else
        match sendEach env w1 dbTransfers [] with
        | (w2, .error e) => (w2, .error e)
        | (w2, .ok sent) =>
          let rows3 := Postgres.CompleteTransfer env.now w2.transfers ethTransferID ""
          ({ w2 with transfers := (Postgres.UpdateTransfers env.now rows3 sent).1 }, .ok ())

/-- `estimateTotalGasLimit`: a `uint64` sum. -/
def estimateTotalGasLimit (cfg : Config) : Nat :=
  (cfg.TransferGas + cfg.TaxGas + ethTxGasLimit) % 2 ^ 64

/-- The decimal `estimateTax` converts to `float64` at its end: the gas fee in ETH times the
rate, plus the surcharge on it. -/
def taxDecimal (cfg : Config) (env : Env) (gasPrice : Nat) (sdrRate : Float64) : Decimal :=
  let gasFee := CalcGasCost (estimateTotalGasLimit cfg) gasPrice
  let gasFeeETH := ToETH gasFee 18
  let gasFeeSDR := gasFeeETH.Mul (env.NewFromFloat sdrRate)
  let addend := gasFeeSDR.Mul (env.NewFromFloat cfg.Surcharge)
  gasFeeSDR.Add addend

/-- `estimateTax`: the tax as a `float64`, and the suggested gas price. -/
def estimateTax (cfg : Config) (env : Env) : Except String (Float64 × Nat) :=
  match env.SuggestGasPrice with
  | .error e => .error (Wrap e "failed to suggest gas price")
  | .ok gasPrice =>
    match env.EthToSdr with
    | .error e => .error (Wrap e "failed to get ETH to SDR rate")
    | .ok sdrRate => .ok (env.toFloat64 (taxDecimal cfg env gasPrice sdrRate), gasPrice)

/-- `getTokenDecimals`: the cached value when it is not 0, else the answer of the token
contract, which is then cached.  The result pairs the new cache with the outcome. -/
def getTokenDecimals (env : Env) (tokenDecimals : Nat) : Nat × Except String Nat :=
  if tokenDecimals ≠ 0 then (tokenDecimals, .ok tokenDecimals)
  else
    match env.Decimals with
    | .error e => (tokenDecimals, .error (Wrap e "failed to get token's decimals"))
    | .ok decimals => (decimals, .ok decimals)

/-- `createTransfer`: the unsigned token transfer and the nonce it uses. -/
def createTransfer (env : Env) (tokenDecimals : Nat) (transferType : TransferType)
    (amount : Float64) (fromAddress toAddress tokenAddress : String) (suggestNonce : Option Nat)
    (gasPrice : Nat) (gasLimit : Nat) (chainID : String) :
    Nat × Except String (UnsignedTransfer × Nat) :=
  match getTokenDecimals env tokenDecimals with
  | (cache, .error e) => (cache, .error e)
  | (cache, .ok decimals) =>
    let wei := ToWei (env.NewFromFloat amount) decimals
    let nonceResult : Except String Nat :=
      match suggestNonce with
      | none =>
        match env.PendingNonceAt fromAddress with
        | .error e => .error (Wrap e "failed to retrieve account nonce")
        | .ok nonce => .ok nonce
      | some nonce => .ok nonce
    match nonceResult with
    | .error e => (cache, .error e)
    | .ok nonce =>
      let paddedAddress := LeftPadBytes (env.addressBytes toAddress) 32
      let paddedAmount := LeftPadBytes (bytesOfNat wei.natAbs wei.natAbs []) 32
      let input := transferMethodID ++ paddedAddress ++ paddedAmount
      (cache, .ok
        ({ ID := ""
           TransferType := transferType
           Amount := toString wei
           ToAddress := toAddress
           TxData :=
             { Nonce := hexutil.EncodeUint64 nonce
               GasPrice := hexutil.EncodeBig gasPrice
               GasLimit := hexutil.EncodeUint64 gasLimit
               To := env.addressString tokenAddress
               Value := hexutil.EncodeBig 0
               ChainID := chainID
               Data := hexutil.Encode input } }, nonce))

/-- `Manager.CreateTransfer`.  The manager's cached token decimals are threaded through:
the result pairs the world and the new cache with the outcome. -/
def CreateTransfer (cfg : Config) (env : Env) (tokenDecimals : Nat) (w : World)
    (tx : Models.NewTransfer) : (World × Nat) × Except String (List UnsignedTransfer) :=
  match tx.Validate with
  | .error e => ((w, tokenDecimals), .error e)
  | .ok _ =>
    let w1 : World :=
      { w with transfers := Postgres.ClearUnsignedTransfers env.now w.transfers tx.FromAddress }
    match estimateTax cfg env with
    | .error e => ((w1, tokenDecimals), .error (Wrap e "failed to calculate a tax"))
    | .ok (tax, gasPrice) =>
      match env.BalanceOf tx.FromAddress with
      | .error e => ((w1, tokenDecimals), .error (Wrap e "failed to check token balance"))
      | .ok balance =>
        match getTokenDecimals env tokenDecimals with
        | (cache, .error e) => ((w1, cache), .error e)
        | (cache, .ok decimals) =>
          let expenses := ToWei (env.NewFromFloat (env.addFloat64 tx.Amount tax)) decimals
          if balance < expenses then
            ((w1, cache), .error "you have no enough tokens to complete the transfer")
          else
            match env.NetworkID with
            | .error e => ((w1, cache), .error (Wrap e "failed to retrieve chain id"))
            | .ok chainID =>
              match createTransfer env cache TransferType.TransferToken tx.Amount tx.FromAddress
                  tx.ToAddress cfg.TokenAddress none gasPrice cfg.TransferGas (toString chainID) with
              | (cache1, .error e) =>
                ((w1, cache1), .error (Wrap e "failed to create a transfer transaction"))
              | (cache1, .ok (transferTx, nonce)) =>
                let taxNonce := (nonce + 1) % 2 ^ 64
                match createTransfer env cache1 TransferType.Tax tax tx.FromAddress
                    cfg.BankAddress cfg.TokenAddress (some taxNonce) gasPrice cfg.TaxGas
                    (toString chainID) with
                | (cache2, .error e) =>
                  ((w1, cache2), .error (Wrap e "failed to create a tax transaction"))
                | (cache2, .ok (taxTx, _)) =>
                  let created := Postgres.CreateTransfers env.now env.uuid w1.transfers
                    [NewTransferFromPublic transferTx tx.FromAddress taxTx.Amount,
                     NewTransferFromPublic taxTx tx.FromAddress ""]
                  (({ w1 with transfers := created.1 }, cache2),
                   .ok (List.zipWith (fun (u : UnsignedTransfer) (dbt : Transfer) =>
                      { u with ID := dbt.ID }) [transferTx, taxTx] created.2))

end Manager

/-! ## The scrapper manager (`scrapper/manager.go`) -/

namespace Scrapper

/-- `Manager.CompleteTransfer` of the scrapper: `m.DB.CompleteTransfer(ctx, "", transferHash)`. -/
def CompleteTransfer (env : Env) (w : World) (transferHash : String) : World :=
  { w with transfers := Postgres.CompleteTransfer env.now w.transfers "" transferHash }

/-- `Manager.FailEthTransfer` of the scrapper. -/
def FailEthTransfer (env : Env) (w : World) (id msg : String) : World :=
  { w with transfers := Postgres.FailEthTransfer env.now w.transfers id msg }

end Scrapper

/-! ## The scrapers (`scrapper/scrappers/eventscraper.go`, `txscrapper.go`) -/

/-- Go struct `DBTransfer` of package `models`. -/
structure DBTransfer where
  ID : String
  TxHash : String
  FromAddress : String
  ToAddress : String
  Amount : String
  deriving DecidableEq, Repr

/-- Go struct `NewTransaction` of package `models` and of package `database`, which have the
same fields (`TxType` is the field `Type`).  A field that a literal leaves out has the zero
value, as in Go. -/
structure NewTransaction where
  Hash : String
  BlockNumber : Nat := 0
  TxType : TransferType
  Status : TransferStatus
  Value : String
  From : String
  To : String
  Time : Nat := 0
  deriving DecidableEq, Repr

/-- What a scraper does besides writing the `transfers` table and calling the chain: it
stores a transaction in the `transactions` table (`CreateTransaction`) and notifies the two
parties (`NotifyClients`). -/
inductive Effect
  | CreateTransaction (tx : NewTransaction)
  | NotifyClients (tx : NewTransaction)
  deriving DecidableEq, Repr

/-- What the Ethereum node answers a scraper, by transaction hash: `TransactionByHash` gives
the `isPending` flag, `TransactionReceipt` the status of the receipt (`none` for a nil
receipt). -/
structure Node where
  TransactionByHash : String → Except String Bool
  TransactionReceipt : String → Except String (Option Nat)

namespace Postgres

/-- `GetPendingTransfers`:
`SELECT * FROM transfers WHERE transfer_type <> ethtopup AND status = pending AND deleted_at IS NULL`. -/
def GetPendingTransfers (rows : List Transfer) : List Transfer :=
  rows.filter fun r =>
    decide (r.TransferType ≠ TransferType.EthTopUp ∧ r.Status = TransferStatus.pending
      ∧ r.DeletedAt = none)

/-- `GetPendingTopUps`:
`SELECT * FROM transfers WHERE transfer_type = ethtopup AND status = pending AND deleted_at IS NULL`. -/
def GetPendingTopUps (rows : List Transfer) : List Transfer :=
  rows.filter fun r =>
    decide (r.TransferType = TransferType.EthTopUp ∧ r.Status = TransferStatus.pending
      ∧ r.DeletedAt = none)

/-- `TxHasQueuedTransfers`:
`SELECT id FROM transfers WHERE LOWER(tx_hash) = LOWER($1) AND transfer_type = ethtopup AND status = pending AND deleted_at IS NULL LIMIT 1`;
no row is an error. -/
def TxHasQueuedTransfers (rows : List Transfer) (txHash : String) : Except String String :=
  match rows.find? fun r =>
      decide (r.TxHash.map lower = some (lower txHash)
        ∧ r.TransferType = TransferType.EthTopUp ∧ r.Status = TransferStatus.pending
        ∧ r.DeletedAt = none) with
  | none => .error (Wrap ErrNoRows "failed to find an eth transfer by hash")
  | some r => .ok r.ID

end Postgres

/-- `Transfer.GetTxHash`. -/
def Transfer.GetTxHash (t : Transfer) : String := t.TxHash.getD ""

namespace Scrapper

/-- The `models.DBTransfer` built from a row by `GetPendingTopUps` and `GetPendingTransfers`. -/
def toDBTransfer (dbt : Transfer) : DBTransfer :=
  { ID := dbt.ID, TxHash := dbt.GetTxHash, FromAddress := dbt.FromAddress,
    ToAddress := dbt.ToAddress, Amount := dbt.Amount }

/-- `Manager.GetPendingTopUps` of the scrapper. -/
def GetPendingTopUps (w : World) : List DBTransfer :=
  (Postgres.GetPendingTopUps w.transfers).map toDBTransfer

/-- `Manager.GetPendingTransfers` of the scrapper. -/
def GetPendingTransfers (w : World) : List DBTransfer :=
  (Postgres.GetPendingTransfers w.transfers).map toDBTransfer

end Scrapper

namespace EventsScraper

/-- The body run by `monitorEvents` for one pending transfer (eventscraper.go 117-149): when
the node knows the transaction and it is no longer pending, the transaction is stored as a
completed `transfer_token` transaction, the transfer is completed by hash, and the parties
are notified.  The receipt is not read. -/
def monitorEvent (env : Env) (node : Node) (w : World) (pendingTransfer : DBTransfer) :
    World × List Effect :=
  match node.TransactionByHash pendingTransfer.TxHash with
  | .error _ => (w, [])
  | .ok isPending =>
    if isPending then (w, [])
    else
      let newTx : NewTransaction :=
        { Hash := pendingTransfer.TxHash, TxType := TransferType.TransferToken,
          Status := TransferStatus.completed, Value := pendingTransfer.Amount,
          From := pendingTransfer.FromAddress, To := pendingTransfer.ToAddress }
      (Scrapper.CompleteTransfer env w newTx.Hash,
       [Effect.CreateTransaction newTx, Effect.NotifyClients newTx])

/-- One pass of the loop of `monitorEvents`: the pending transfers are fetched and the body
is run for each; the goroutines are taken one after the other, in the order of the result. -/
def monitorEvents (env : Env) (node : Node) (w : World) : World × List Effect :=
  (Scrapper.GetPendingTransfers w).foldl
    (fun (acc : World × List Effect) pt =>
      ((monitorEvent env node acc.1 pt).1, acc.2 ++ (monitorEvent env node acc.1 pt).2))
    (w, [])

end EventsScraper

namespace TxScraper

/-- `TxScraper.completeTransfer`: the error of `CompleteTransfers` is only logged. -/
def completeTransfer (env : Env) (w : World) (ethTransferID : String) : World :=
  (Manager.CompleteTransfers env w ethTransferID).1

/-- `TxScraper.failTransfer`. -/
def failTransfer (env : Env) (w : World) (ethTransferID message : String) : World :=
  Scrapper.FailEthTransfer env w ethTransferID message

/-- The body run by `monitorTopUpTransactions` for one pending top-up (txscrapper.go 92-135):
nothing is done while the transaction is unknown or pending or its receipt cannot be read;
otherwise the transfers are completed when the receipt status is above 0 and failed when it is
0, and the transaction is stored. -/
def monitorTopUp (env : Env) (node : Node) (w : World) (pendingTopUp : DBTransfer) :
    World × List Effect :=
  match node.TransactionByHash pendingTopUp.TxHash with
  | .error _ => (w, [])
  | .ok isPending =>
    if isPending then (w, [])
    else
      match node.TransactionReceipt pendingTopUp.TxHash with
      | .error _ => (w, [])
      | .ok none => (w, [])
      | .ok (some status) =>
        let w1 :=
          if status > 0 then completeTransfer env w pendingTopUp.ID
          else failTransfer env w pendingTopUp.ID "ETH top-up transaction failed"
        (w1, [Effect.CreateTransaction
          { Hash := pendingTopUp.TxHash, TxType := TransferType.TxETH,
            Status := TransferStatus.completed, Value := pendingTopUp.Amount,
            From := pendingTopUp.FromAddress, To := pendingTopUp.ToAddress }])

/-- One pass of the loop of `monitorTopUpTransactions`, the goroutines taken one after the
other in the order of the result. -/
def monitorTopUpTransactions (env : Env) (node : Node) (w : World) : World × List Effect :=
  (Scrapper.GetPendingTopUps w).foldl
    (fun (acc : World × List Effect) pt =>
      ((monitorTopUp env node acc.1 pt).1, acc.2 ++ (monitorTopUp env node acc.1 pt).2))
    (w, [])

/-- The effect on the pipeline of `makeNewTransactionFromTx` for a transaction of a new block
with hash `txHash` (txscrapper.go 204-229), `needToSave` being the answer of `IsWalletExist`:
when the hash is that of a pending top-up, the goroutine fails the transfers if a receipt is
read and its status is below 1, and completes them in every other case.  The transaction
value returned for the `transactions` table is left out. -/
def makeNewTransactionFromTx (env : Env) (node : Node) (w : World) (needToSave : Bool)
    (txHash : String) : World :=
  if !needToSave then w
  else
    match Postgres.TxHasQueuedTransfers w.transfers txHash with
    | .error _ => w
    | .ok transferID =>
      match node.TransactionReceipt txHash with
      | .ok (some status) =>
        if status < 1 then failTransfer env w transferID "ETH top-up transaction failed"
        else completeTransfer env w transferID
      | _ => completeTransfer env w transferID

end TxScraper

namespace TxScraper

/-- `deriveChainId`: for a `v` of at most 64 bits the `uint64` computation (27 and 28 give 0,
else `(v - 35) / 2` in `uint64` arithmetic); for a larger `v` the `big.Int` computation
`(v - 35) / 2`. -/
def deriveChainId (v : Int) : Int :=
  if v.natAbs < 2 ^ 64 then
    if v.natAbs = 27 ∨ v.natAbs = 28 then 0
    else (((v.natAbs + 2 ^ 64 - 35) % 2 ^ 64 / 2 : Nat) : Int)
  else (v - 35) / 2

/-- The signers `deriveSigner` chooses between. -/
inductive Signer
  | EIP155Signer (chainId : Int)
  | HomesteadSigner
  deriving DecidableEq, Repr

/-- `deriveSigner`. -/
def deriveSigner (V : Int) (isProtected : Bool) : Signer :=
  if V.sign ≠ 0 ∧ isProtected = true then Signer.EIP155Signer (deriveChainId V)
  else Signer.HomesteadSigner

end TxScraper

namespace Postgres

/-- `GetTransferByIDOrHash`:
`SELECT * FROM transfers WHERE id = $1 OR LOWER(tx_hash) = LOWER($2) AND deleted_at IS NULL LIMIT 1`,
in which `AND` binds before `OR`; no row is an error. -/
def GetTransferByIDOrHash (rows : List Transfer) (id hash : String) : Except String Transfer :=
  match rows.find? fun r =>
      decide (r.ID = id ∨ (r.TxHash.map lower = some (lower hash) ∧ r.DeletedAt = none)) with
  | none => .error (Wrap ErrNoRows "failed to select a transfer by id or hash")
  | some r => .ok r

end Postgres

namespace TxScraper

/-- The loop `for i := endBlockNumber; i >= 0; i--` of `extractOldTransactions` on the `uint64`
counter `i`, run for at most `fuel` iterations: the block numbers passed to `BlockByNumber` so
far, in order, and whether the loop has ended, after which "Extract old transactions... Done"
is logged.  A block whose fetch fails is skipped, so the answers of the node do not bear on
the counter. -/
def extractOldTransactionsLoop : Nat → Nat → List Nat → List Nat × Bool
  | 0, _, requested => (requested, false)
  | fuel + 1, i, requested =>
    if i ≥ 0 then
      extractOldTransactionsLoop fuel ((i + 2 ^ 64 - 1) % 2 ^ 64) (requested ++ [i])
    else (requested, true)

/-- `extractOldTransactions`, run for at most `fuel` iterations of its loop. -/
def extractOldTransactions (fuel : Nat) (endBlockNumber : Nat) : List Nat × Bool :=
  extractOldTransactionsLoop fuel endBlockNumber []

end TxScraper

namespace EventsScraper

/-- The loop of `extractOldEvents` run for at most `fuel` iterations, on the `uint64`
variables `start` and `end`: the windows `(start, end)` passed to `FilterTransfer`, in order,
each with the outcome `filterOk start end` of the call; `none` when the fuel runs out before
the loop ends.  Whether the call fails or not, the next window ends at this window's start. -/
def extractOldEventsLoop (packetSize : Nat) (filterOk : Nat → Nat → Bool) :
    Nat → Nat → Nat → List (Nat × Nat × Bool) → Option (List (Nat × Nat × Bool))
  | 0, _, _, _ => none
  | fuel + 1, start, end_, windows =>
    if start > 0 then
      let start1 := (end_ + 2 ^ 64 - packetSize) % 2 ^ 64
      let start2 := if start1 > end_ then 0 else start1
      extractOldEventsLoop packetSize filterOk fuel start2 start2
        (windows ++ [(start2, end_, filterOk start2 end_)])
    else some windows

/-- `extractOldEvents`, run for at most `fuel` iterations of its loop: `end := endBlockNumber`,
`start := end`, then the loop. -/
def extractOldEvents (packetSize : Nat) (filterOk : Nat → Nat → Bool) (fuel : Nat)
    (endBlockNumber : Nat) : Option (List (Nat × Nat × Bool)) :=
  extractOldEventsLoop packetSize filterOk fuel endBlockNumber endBlockNumber []

end EventsScraper

/-! ## `pkg/crypto/hmac.go`, with `crypto/sha256`, `crypto/hmac` and `encoding/hex` of the Go
standard library -/

namespace sha256

/-- The block size of SHA-256 in bytes. -/
def BlockSize : Nat := 64

/-- The round constants `_K`. -/
def K : List Nat :=
  [0x428a2f98, 0x71374491, 0xb5c0fbcf, 0xe9b5dba5, 0x3956c25b, 0x59f111f1, 0x923f82a4, 0xab1c5ed5,
   0xd807aa98, 0x12835b01, 0x243185be, 0x550c7dc3, 0x72be5d74, 0x80deb1fe, 0x9bdc06a7, 0xc19bf174,
   0xe49b69c1, 0xefbe4786, 0x0fc19dc6, 0x240ca1cc, 0x2de92c6f, 0x4a7484aa, 0x5cb0a9dc, 0x76f988da,
   0x983e5152, 0xa831c66d, 0xb00327c8, 0xbf597fc7, 0xc6e00bf3, 0xd5a79147, 0x06ca6351, 0x14292967,
   0x27b70a85, 0x2e1b2138, 0x4d2c6dfc, 0x53380d13, 0x650a7354, 0x766a0abb, 0x81c2c92e, 0x92722c85,
   0xa2bfe8a1, 0xa81a664b, 0xc24b8b70, 0xc76c51a3, 0xd192e819, 0xd6990624, 0xf40e3585, 0x106aa070,
   0x19a4c116, 0x1e376c08, 0x2748774c, 0x34b0bcb5, 0x391c0cb3, 0x4ed8aa4a, 0x5b9cca4f, 0x682e6ff3,
   0x748f82ee, 0x78a5636f, 0x84c87814, 0x8cc70208, 0x90befffa, 0xa4506ceb, 0xbef9a3f7, 0xc67178f2]

/-- The eight 32-bit words `h[0..7]` of a digest in progress. -/
structure digest where
  h0 : Nat
  h1 : Nat
  h2 : Nat
  h3 : Nat
  h4 : Nat
  h5 : Nat
  h6 : Nat
  h7 : Nat
  deriving DecidableEq, Repr

/-- The initial value of the digest (`init0` .. `init7`). -/
def init : digest :=
  { h0 := 0x6a09e667, h1 := 0xbb67ae85, h2 := 0x3c6ef372, h3 := 0xa54ff53a,
    h4 := 0x510e527f, h5 := 0x9b05688c, h6 := 0x1f83d9ab, h7 := 0x5be0cd19 }

/-- Addition of `uint32` values. -/
def add32 (a b : Nat) : Nat := (a + b) % 4294967296

/-- `bits.RotateLeft32(x, -n)` on a `uint32`. -/
def rotr (x n : Nat) : Nat := (x >>> n ||| x <<< (32 - n)) % 4294967296

/-- `^x` on a `uint32`. -/
def not32 (x : Nat) : Nat := 4294967295 - x % 4294967296

/-- The word `w[i]` for `16 ≤ i`, from the words before it, most recent first. -/
def nextWord (ws : List Nat) : Nat :=
  let v1 := ws.getD 1 0
  let t1 := rotr v1 17 ^^^ rotr v1 19 ^^^ v1 >>> 10
  let v2 := ws.getD 14 0
  let t2 := rotr v2 7 ^^^ rotr v2 18 ^^^ v2 >>> 3
  add32 (add32 (add32 t1 (ws.getD 6 0)) t2) (ws.getD 15 0)

/-- The message schedule, most recent word first: `n` further words after `ws`. -/
def extend : Nat → List Nat → List Nat
  | 0, ws => ws
  | n + 1, ws => extend n (nextWord ws :: ws)

/-- The 16 big-endian words of a 64-byte block. -/
def blockWords : List Nat → List Nat
  | b0 :: b1 :: b2 :: b3 :: rest => (b0 * 16777216 + b1 * 65536 + b2 * 256 + b3) :: blockWords rest
  | _ => []

/-- One round of the compression loop, with round constant `k` and schedule word `w`. -/
def round (s : digest) (k w : Nat) : digest :=
  let t1 := add32 (add32 (add32 (add32 s.h7
    (rotr s.h4 6 ^^^ rotr s.h4 11 ^^^ rotr s.h4 25))
    (s.h4 &&& s.h5 ^^^ not32 s.h4 &&& s.h6)) k) w
  let t2 := add32 (rotr s.h0 2 ^^^ rotr s.h0 13 ^^^ rotr s.h0 22)
    (s.h0 &&& s.h1 ^^^ s.h0 &&& s.h2 ^^^ s.h1 &&& s.h2)
  { h0 := add32 t1 t2, h1 := s.h0, h2 := s.h1, h3 := s.h2,
    h4 := add32 s.h3 t1, h5 := s.h4, h6 := s.h5, h7 := s.h6 }

/-- The 64 rounds over the round constants and the schedule. -/
def rounds (s : digest) : List Nat → List Nat → digest
  | k :: ks, w :: ws => rounds (round s k w) ks ws
  | _, _ => s

/-- `blockGeneric` on one 64-byte block. -/
def block (dig : digest) (p : List Nat) : digest :=
  let w := (extend 48 (blockWords p).reverse).reverse
  let s := rounds dig K w
  { h0 := add32 dig.h0 s.h0, h1 := add32 dig.h1 s.h1, h2 := add32 dig.h2 s.h2,
    h3 := add32 dig.h3 s.h3, h4 := add32 dig.h4 s.h4, h5 := add32 dig.h5 s.h5,
    h6 := add32 dig.h6 s.h6, h7 := add32 dig.h7 s.h7 }

/-- `blockGeneric` on a whole number of blocks: `n` blocks of `p`. -/
def blocks : Nat → digest → List Nat → digest
  | 0, dig, _ => dig
  | n + 1, dig, p => blocks n (block dig (p.take 64)) (p.drop 64)

/-- The bytes of `x`, most significant first, on `n` bytes. -/
def bigEndian : Nat → Nat → List Nat
  | 0, _ => []
  | n + 1, x => x / 256 ^ n % 256 :: bigEndian n x

/-- The padding `checkSum` appends: the byte `0x80`, zero bytes up to 56 modulo 64, and the
length of the message in bits on 8 bytes. -/
def padding (len : Nat) : List Nat :=
  0x80 :: List.replicate ((119 - len % 64) % 64) 0 ++ bigEndian 8 (len * 8 % 2 ^ 64)

/-- The digest `Sum(nil)` returns for a hash to which the bytes `data` have been written. -/
def Sum (data : List Nat) : List Nat :=
  let p := data ++ padding data.length
  let d := blocks (p.length / 64) init p
  bigEndian 4 d.h0 ++ bigEndian 4 d.h1 ++ bigEndian 4 d.h2 ++ bigEndian 4 d.h3
    ++ bigEndian 4 d.h4 ++ bigEndian 4 d.h5 ++ bigEndian 4 d.h6 ++ bigEndian 4 d.h7

end sha256

namespace hmac

/-- Go struct `hmac`: the two pads and the inner hash, kept as the bytes written to it. -/
structure state where
  opad : List Nat
  ipad : List Nat
  inner : List Nat
  deriving DecidableEq, Repr

/-- `hmac.New(sha256.New, key)`: a key longer than the block size is hashed; the key is copied
into two blocks of zero bytes, which are xor-ed with `0x36` and `0x5c`; `ipad` is written to
the inner hash. -/
def New (key : List Nat) : state :=
  let key1 := if sha256.BlockSize < key.length then sha256.Sum key else key
  let block := key1 ++ List.replicate (sha256.BlockSize - key1.length) 0
  { opad := block.map fun b => b ^^^ 0x5c
    ipad := block.map fun b => b ^^^ 0x36
    inner := block.map fun b => b ^^^ 0x36 }

/-- `hmac.Write`. -/
def Write (h : state) (p : List Nat) : state := { h with inner := h.inner ++ p }

/-- `hmac.Sum(nil)`: the outer hash receives `opad` and the digest of the inner hash. -/
def Sum (h : state) : List Nat := sha256.Sum (h.opad ++ sha256.Sum h.inner)

end hmac

/-- The UTF-8 encoding of a character (`[]byte(string)` on one rune). -/
def utf8EncodeChar (c : Char) : List Nat :=
  let n := c.toNat
  if n < 0x80 then [n]
  else if n < 0x800 then [0xc0 + n / 64, 0x80 + n % 64]
  else if n < 0x10000 then [0xe0 + n / 4096, 0x80 + n / 64 % 64, 0x80 + n % 64]
  else [0xf0 + n / 262144, 0x80 + n / 4096 % 64, 0x80 + n / 64 % 64, 0x80 + n % 64]

/-- The bytes of a Go string: `[]byte(s)`. -/
def bytesOfString (s : String) : List Nat := s.data.flatMap utf8EncodeChar

namespace hex

/-- `hex.EncodeToString`: two lower-case hexadecimal digits per byte. -/
def EncodeToString (b : List Nat) : String :=
  String.mk (b.flatMap fun x => [Nat.digitChar (x / 16 % 16), Nat.digitChar (x % 16)])

end hex

/-- `GetSHA256` of `pkg/crypto/hmac.go`. -/
def GetSHA256 (data secret : String) : String :=
  let h := hmac.New (bytesOfString secret)
  let h1 := hmac.Write h (bytesOfString data)
  hex.EncodeToString (hmac.Sum h1)

/-! ## Wallet requests (`models/wallets.go`) -/

namespace Models

/-- Go struct `NewWallet`. -/
structure NewWallet where
  Address : String
  GeneratedAt : Int
  Signature : String
  deriving DecidableEq, Repr

/-- `NewWallet.Validate`. -/
def NewWallet.Validate (w : NewWallet) (apiSecret : String) : Except String Unit :=
  if w.Address = "" then .error "empty wallet address provided"
  else if w.GeneratedAt = 0 then .error "empty wallet creation date provided"
  else if w.Signature = "" then .error "empty signature provided"
  else if GetSHA256 w.Address apiSecret ≠ w.Signature then .error "invalid signature provided"
  else .ok ()

/-- Go struct `GetWallet`. -/
structure GetWallet where
  Address : String
  Signature : String
  deriving DecidableEq, Repr

/-- `GetWallet.Validate`. -/
def GetWallet.Validate (w : GetWallet) (apiSecret : String) : Except String Unit :=
  if w.Address = "" then .error "empty wallet address provided"
  else if w.Signature = "" then .error "empty signature provided"
  else if GetSHA256 w.Address apiSecret ≠ w.Signature then .error "invalid signature provided"
  else .ok ()

end Models

/-! ## The `transactions` and `wallets` tables and the wallet cache -/

/-- `NewTransaction.Validate` of package `models`. -/
def NewTransaction.Validate (t : NewTransaction) : Except String Unit :=
  if t.Hash = "" then .error "empty transaction hash provided" else .ok ()

/-- Go struct `Transaction` of package `database`: one row of the `transactions` table. -/
structure Transaction extends Base, NewTransaction where
  deriving DecidableEq, Repr

/-- A row of the `wallets` table, with the columns `ExistingWallet` reads. -/
structure Wallet where
  Address : String
  DeletedAt : Option Nat
  deriving DecidableEq, Repr

namespace Postgres

/-- `CreateTransaction`: `INSERT INTO transactions ... ON CONFLICT (hash)`, followed by
`DO UPDATE SET time = EXCLUDED.time, updated_at = NOW()` when the time of the new transaction
is not 0 and by `DO NOTHING` when it is 0.  `ON CONFLICT (hash)` names the unique index on
`hash`: the row conflicts when a row of the table has its hash, and is appended otherwise.
The function returns `result`, the row it has built, in both cases. -/
def CreateTransaction (now : Nat) (id : String) (rows : List Transaction)
    (transaction : NewTransaction) : List Transaction × Transaction :=
  let result : Transaction :=
    { ID := id, CreatedAt := now, UpdatedAt := none, DeletedAt := none,
      toNewTransaction := transaction }
  if rows.any fun r => decide (r.Hash = transaction.Hash) then
    if result.Time ≠ 0 then
      (rows.map fun r =>
        if r.Hash = transaction.Hash then { r with Time := result.Time, UpdatedAt := some now }
        else r, result)
    else (rows, result)
  else (rows ++ [result], result)

/-- `ExistingWallet`:
`SELECT address FROM wallets WHERE (LOWER(address) = LOWER($1) OR LOWER(address) = LOWER($2)) AND deleted_at IS NULL LIMIT 1`;
the empty string when no row is found. -/
def ExistingWallet (wallets : List Wallet) (fromAddress toAddress : String) : String :=
  match wallets.find? fun w =>
      decide ((lower w.Address = lower fromAddress ∨ lower w.Address = lower toAddress)
        ∧ w.DeletedAt = none) with
  | none => ""
  | some w => w.Address

end Postgres

/-- The entries of the `go-cache` of the scrapper manager, none of them expired: the key
and the `bool` stored under it. -/
structure Cache where
  items : List (String × Bool)
  deriving DecidableEq, Repr

/-- `cache.Get`: the value stored under the key, when there is one. -/
def Cache.Get (c : Cache) (k : String) : Option Bool :=
  (c.items.find? fun p => decide (p.1 = k)).map fun p => p.2

/-- `cache.Set`: the value replaces what was stored under the key. -/
def Cache.Set (c : Cache) (k : String) (x : Bool) : Cache :=
  { items := (k, x) :: c.items.filter fun p => decide (p.1 ≠ k) }

namespace Scrapper

/-- `Manager.CreateTransaction` of the scrapper: `Validate` rejects an empty hash; the
stored row is returned. -/
def CreateTransaction (now : Nat) (id : String) (rows : List Transaction)
    (transaction : NewTransaction) : List Transaction × Except String Transaction :=
  match transaction.Validate with
  | .error err => (rows, .error err)
  | .ok _ =>
    ((Postgres.CreateTransaction now id rows transaction).1,
     .ok (Postgres.CreateTransaction now id rows transaction).2)

/-- `Manager.IsWalletExist`: the cache after the call and the answer. -/
def IsWalletExist (cache : Cache) (wallets : List Wallet) (fromAddress toAddress : String) : Cache × Bool :=
  match cache.Get fromAddress, cache.Get toAddress with
  | some bcachedFrom, some bcachedTo => (cache, bcachedFrom || bcachedTo)
  | _, _ =>
    let existingWallet := Postgres.ExistingWallet wallets fromAddress toAddress
    if existingWallet = "" then ((cache.Set fromAddress false).Set toAddress false, false)
    else
      let cache1 :=
        if existingWallet = fromAddress then cache.Set toAddress false
        else cache.Set fromAddress false
      (cache1.Set existingWallet true, true)

/-- `Manager.RegisterWallet`. -/
def RegisterWallet (cache : Cache) (address : String) : Cache := cache.Set address true

end Scrapper

/-! ## The notifier (`app/notifier/manager.go`) -/

namespace Notifier

/-- Go struct `subscription`: the id and the client id; the connection and the channel `send`
belong to the subscription with this id. -/
structure subscription where
  id : String
  clientID : String
  deriving DecidableEq, Repr

/-- What the goroutine of `Manager.Start` is doing: it waits in its `select`, it waits in a
send `s.send <- notification.Message` that no goroutine receives, or it has panicked. -/
inductive Activity
  | selecting
  | sending (id message : String)
  | panicked
  deriving DecidableEq, Repr

/-- Go struct `Manager` with the goroutines and channels of its subscriptions.
`clients` is the map from a client id to the map of its subscriptions, in the order of
insertion; `writers` holds the ids of the subscriptions whose `write` goroutine is in its
loop, where it receives from `send`; `closed` holds one entry for each `close(sub.send)`;
`received` holds what the `write` goroutines have received from their channels. -/
structure Manager where
  clients : List (String × List subscription)
  writers : List String
  closed : List String
  received : List (String × String)
  activity : Activity
  deriving DecidableEq, Repr

/-- `NewManager`. -/
def NewManager : Manager :=
  { clients := [], writers := [], closed := [], received := [], activity := Activity.selecting }

/-- The map lookup `m.clients[clientID]`. -/
def Manager.subs (m : Manager) (clientID : String) : Option (List subscription) :=
  (m.clients.find? fun p => decide (p.1 = clientID)).map fun p => p.2

/-- What reaches the channels `register`, `unregister` and `notifications` of the manager,
and the end of a `write` goroutine: `write` returns when `WriteJSON` or the ping fails. -/
inductive Event
  | register (sub : subscription)
  | unregister (sub : subscription)
  | notification (clientID message : String)
  | writeFailed (id : String)
  deriving DecidableEq, Repr

/-- `Manager.Subscribe`: the subscription with the lower-case client id goes to `register`. -/
def Subscribe (clientID id : String) : Event :=
  Event.register { id := id, clientID := lower clientID }

/-- `Manager.Notify`: the notification with the lower-case client id goes to
`notifications`. -/
def Notify (clientID message : String) : Event :=
  Event.notification (lower clientID) message

/-- `case sub := <-m.register`: the subscription is stored under its client id and its id,
and its `read` and `write` goroutines start. -/
def onRegister (m : Manager) (sub : subscription) : Manager :=
  let store (subs : List subscription) : List subscription :=
    if subs.any fun s => decide (s.id = sub.id) then
      subs.map fun s => if s.id = sub.id then sub else s
    else subs ++ [sub]
  { m with
    clients :=
      if m.clients.any fun p => decide (p.1 = sub.clientID) then
        m.clients.map fun p => if p.1 = sub.clientID then (p.1, store p.2) else p
      else m.clients ++ [(sub.clientID, [sub])]
    writers := m.writers ++ [sub.id] }

/-- `case sub := <-m.unregister`: a subscription that is stored is deleted and its channel is
closed, which ends its `write` goroutine; closing a closed channel panics. -/
def onUnregister (m : Manager) (sub : subscription) : Manager :=
  match m.subs sub.clientID with
  | none => m
  | some subs =>
    if subs.any fun s => decide (s.id = sub.id) then
      if sub.id ∈ m.closed then { m with activity := Activity.panicked }
      else
        { m with
          clients := m.clients.map fun p =>
            if p.1 = sub.clientID then (p.1, p.2.filter fun s => decide (s.id ≠ sub.id)) else p
          closed := m.closed ++ [sub.id]
          writers := m.writers.filter fun id => decide (id ≠ sub.id) }
    else m

/-- `for _, s := range subs { s.send <- notification.Message }`: the channel has no buffer,
so a send ends when the `write` goroutine of the subscription receives the message, and
does not end when that goroutine has returned; a send on a closed channel panics. -/
def sendEachSub (message : String) : Manager → List subscription → Manager
  | m, [] => m
  | m, s :: subs =>
    if s.id ∈ m.closed then { m with activity := Activity.panicked }
    else if s.id ∈ m.writers then
      sendEachSub message { m with received := m.received ++ [(s.id, message)] } subs
    else { m with activity := Activity.sending s.id message }

/-- `case notification := <-m.notifications`. -/
def onNotification (m : Manager) (clientID message : String) : Manager :=
  match m.subs clientID with
  | none => m
  | some subs => sendEachSub message m subs

/-- One event: the goroutine of `Manager.Start` takes an event from its channels only while
it waits in its `select`; a `write` goroutine returns by itself. -/
def step (m : Manager) (e : Event) : Manager :=
  match e with
  | Event.writeFailed id => { m with writers := m.writers.filter fun i => decide (i ≠ id) }
  | Event.register sub => if m.activity = Activity.selecting then onRegister m sub else m
  | Event.unregister sub => if m.activity = Activity.selecting then onUnregister m sub else m
  | Event.notification clientID message =>
    if m.activity = Activity.selecting then onNotification m clientID message else m

/-- `Manager.Start` on the events in the order in which they happen. -/
def Start (m : Manager) (events : List Event) : Manager := events.foldl step m

end Notifier

/-! ## Vocabulary of the properties -/

/-- The status graph of the specification (section 4.1): new → confirming → queued →
pending → completed, queued → failed, pending → failed, and for an `ethtopup` transfer
pending → processing → completed. -/
def specEdge (ty : TransferType) : TransferStatus → TransferStatus → Bool
  | .new, .confirming => true
  | .confirming, .queued => true
  | .queued, .pending => true
  | .pending, .completed => true
  | .queued, .failed => true
  | .pending, .failed => true
  | .pending, .processing => decide (ty = TransferType.EthTopUp)
  | .processing, .completed => decide (ty = TransferType.EthTopUp)
  | _, _ => false

/-- Whether a row occupies its nonce: it is live and queued or pending. -/
def occupiesNonce (r : Transfer) : Bool :=
  decide ((r.Status = TransferStatus.queued ∨ r.Status = TransferStatus.pending)
    ∧ r.DeletedAt = none)

/-- Whether two rows occupy the same `(from_address, nonce)`, addresses compared without
regard to case. -/
def nonceClash (a b : Transfer) : Bool :=
  occupiesNonce a && occupiesNonce b
    && decide (lower a.FromAddress = lower b.FromAddress ∧ a.Nonce = b.Nonce)

/-- The nonce invariant of the specification: for every `(from_address, nonce)` at most one
live row is queued or pending, that is, no two rows of the table clash. -/
def nonceInvariant (rows : List Transfer) : Prop :=
  rows.Pairwise fun a b => nonceClash a b = false

instance (rows : List Transfer) : Decidable (nonceInvariant rows) := by
  unfold nonceInvariant
  exact inferInstance

/-- The top-up invariant in the words of the specification, on one row `t` of the table:
when `t` is queued, pending or completed, its eth_transfer_id is the id of an `ethtopup`
row with the same from_address (compared without regard to case) and a status among
pending, processing and completed. -/
def specTopUpLinked (rows : List Transfer) (t : Transfer) : Bool :=
  !decide (t.Status = TransferStatus.queued ∨ t.Status = TransferStatus.pending
      ∨ t.Status = TransferStatus.completed) ||
    rows.any fun e =>
      decide (t.EthTransferID = some e.ID ∧ e.TransferType = TransferType.EthTopUp
        ∧ lower e.FromAddress = lower t.FromAddress
        ∧ (e.Status = TransferStatus.pending ∨ e.Status = TransferStatus.processing
          ∨ e.Status = TransferStatus.completed))

/-- The top-up invariant in the words of the specification, on a table. -/
def specTopUpInvariant (rows : List Transfer) : Bool :=
  rows.all (specTopUpLinked rows)

/-- An id `uuid.NewUUID()` may return for a table: not empty and not in use. -/
def freshId (rows : List Transfer) (id : String) : Prop :=
  id ≠ "" ∧ ∀ r ∈ rows, r.ID ≠ id

/-- The worlds reachable from the empty one through `CreateTransfer`, `ConfirmTransfer`,
`CompleteTransfers` and the scrapper's `CompleteTransfer` and `FailEthTransfer`, with any
arguments and any answers of the collaborators, provided the ids drawn are fresh and the
configured bank key always derives the address `bank`. -/
inductive Reachable (cfg : Config) (bank : String) : World → Prop
  | init : Reachable cfg bank { transfers := [], calls := [] }
  | CreateTransfer {w : World} (env : Env) (tokenDecimals : Nat) (tx : Models.NewTransfer) :
      Reachable cfg bank w → freshId w.transfers (env.uuid 0) → freshId w.transfers (env.uuid 1) →
      env.uuid 0 ≠ env.uuid 1 →
      Reachable cfg bank (Manager.CreateTransfer cfg env tokenDecimals w tx).1.1
  | ConfirmTransfer {w : World} (env : Env) (transfers : SignedTransfer) :
      Reachable cfg bank w → freshId w.transfers (env.uuid 0) →
      (∀ b, env.bankAddressOf cfg.BankPrivateKey = .ok b → b = bank) →
      Reachable cfg bank (Manager.ConfirmTransfer cfg env w transfers).1
  | CompleteTransfers {w : World} (env : Env) (ethTransferID : String) :
      Reachable cfg bank w → Reachable cfg bank (Manager.CompleteTransfers env w ethTransferID).1
  | CompleteTransfer {w : World} (env : Env) (transferHash : String) :
      Reachable cfg bank w → Reachable cfg bank (Scrapper.CompleteTransfer env w transferHash)
  | FailEthTransfer {w : World} (env : Env) (id msg : String) :
      Reachable cfg bank w → Reachable cfg bank (Scrapper.FailEthTransfer env w id msg)

/-- Whether the pipeline must have linked row `r` to a top-up: `r` is queued, or `r` is not
itself a top-up and is pending, completed or has a transaction hash. -/
def mustLink (r : Transfer) : Prop :=
  r.Status = TransferStatus.queued
    ∨ (r.TransferType ≠ TransferType.EthTopUp
      ∧ (r.Status = TransferStatus.pending ∨ r.Status = TransferStatus.completed
        ∨ r.TxHash ≠ none))

/-- Whether `x` is the id of an `ethtopup` row of the table. -/
def isTopUpId (rows : List Transfer) (x : Option String) : Prop :=
  ∃ e ∈ rows, x = some e.ID ∧ e.TransferType = TransferType.EthTopUp

/-- The invariant of the reachable tables: ids are unique and not empty, every row that
must be linked is linked to a top-up of the table, and every top-up was sent by the bank. -/
def linkInvariant (bank : String) (rows : List Transfer) : Prop :=
  (rows.map fun r => r.ID).Nodup
    ∧ (∀ r ∈ rows, r.ID ≠ "")
    ∧ (∀ r ∈ rows, mustLink r → isTopUpId rows r.EthTransferID)
    ∧ (∀ e ∈ rows, e.TransferType = TransferType.EthTopUp → e.FromAddress = bank)

/-- What the pipeline keeps true of every row: it is not linked to itself, and when it is
queued it carries a raw transaction. -/
def rowInvariant (r : Transfer) : Prop :=
  r.EthTransferID ≠ some r.ID ∧ (r.Status = TransferStatus.queued → r.RawTx ≠ none)

/-- The Store operations that write the `status` column. -/
inductive StoreOp
  | GetAndConfirmTransferByID (id frm : String)
  | UpdateTransfers (now : Nat) (transfers : List Transfer)
  | StartEthTransferProcessing (now : Nat) (id : String)
  | CompleteTransfer (now : Nat) (id hash : String)
  | FailEthTransfer (now : Nat) (id msg : String)
  | WriteTransferError (now : Nat) (id msg : String)

/-- The table after a Store operation. -/
def StoreOp.run : StoreOp → List Transfer → List Transfer
  | .GetAndConfirmTransferByID id frm, rows => (Postgres.GetAndConfirmTransferByID rows id frm).1
  | .UpdateTransfers now transfers, rows => (Postgres.UpdateTransfers now rows transfers).1
  | .StartEthTransferProcessing now id, rows => Postgres.StartEthTransferProcessing now rows id
  | .CompleteTransfer now id hash, rows => Postgres.CompleteTransfer now rows id hash
  | .FailEthTransfer now id msg, rows => Postgres.FailEthTransfer now rows id msg
  | .WriteTransferError now id msg, rows => Postgres.WriteTransferError now rows id msg

/-- The effect of a Store operation on one row. -/
def StoreOp.onRow : StoreOp → Transfer → Transfer
  | .GetAndConfirmTransferByID id frm, r => Postgres.confirmRow id frm r
  | .UpdateTransfers now transfers, r =>
    transfers.foldl (fun r1 t => Postgres.updateRow now t r1) r
  | .StartEthTransferProcessing now id, r => Postgres.processingRow now id r
  | .CompleteTransfer now id hash, r => Postgres.completeRow now id hash r
  | .FailEthTransfer now id msg, r =>
    Postgres.failLinkedRow now id msg (Postgres.writeErrorRow now id msg r)
  | .WriteTransferError now id msg, r => Postgres.writeErrorRow now id msg r

/-- The status an operation writes to row `r` when its `WHERE` clause (the `deleted_at`
test apart) selects `r`, and `none` when it does not select `r`.  For `UpdateTransfers`
the last statement naming the row decides. -/
def StoreOp.target : StoreOp → Transfer → Option TransferStatus
  | .GetAndConfirmTransferByID id frm, r =>
    if r.ID = id ∧ lower r.FromAddress = lower frm then some TransferStatus.confirming else none
  | .UpdateTransfers _ transfers, r =>
    (transfers.reverse.find? fun t => decide (r.ID = t.ID)).map fun t => t.Status
  | .StartEthTransferProcessing _ id, r =>
    if r.ID = id then some TransferStatus.processing else none
  | .CompleteTransfer _ id hash, r =>
    if r.ID = id ∨ r.TxHash.map lower = some (lower hash) then some TransferStatus.completed
    else none
  | .FailEthTransfer _ id _, r =>
    if r.ID = id ∨ r.EthTransferID = some id then some TransferStatus.failed else none
  | .WriteTransferError _ id _, r =>
    if r.ID = id then some TransferStatus.failed else none

/-- The rows an operation is meant for: `GetAndConfirmTransferByID` serves the first
confirmation of a transfer (status new or confirming); the other operations carry no
restriction. -/
def StoreOp.intended : StoreOp → Transfer → Prop
  | .GetAndConfirmTransferByID _ _, r =>
    r.Status = TransferStatus.new ∨ r.Status = TransferStatus.confirming
  | _, _ => True

/-- The rows `CompleteTransfers` hands to `UpdateTransfers` when every broadcast of the batch
`dbTransfers` succeeds, the first of them being the on-chain call number `k`: each row with
status pending and the hash its own broadcast returned. -/
def broadcastRows (env : Env) : Nat → List Transfer → List Transfer
  | _, [] => []
  | k, dbt :: rest =>
    { dbt with Status := TransferStatus.pending,
               TxHash := (env.sendRawTransaction k (dbt.RawTx.getD "")).toOption }
      :: broadcastRows env (k + 1) rest

/-- The on-chain calls made by broadcasting the batch `dbTransfers`, in order. -/
def broadcastCalls (dbTransfers : List Transfer) : List Call :=
  dbTransfers.map fun dbt => Call.sendRawTransaction (dbt.RawTx.getD "")

/-- The row `topUpEthBalance` inserts through `CreateEthTransfer`. -/
def topUpRow (env : Env) (bank : String) (nonce gasPrice : Nat) (txHash : String) : Transfer :=
  { ID := env.uuid 0, CreatedAt := env.now, UpdatedAt := none, DeletedAt := none,
    TransferType := TransferType.EthTopUp, FromAddress := bank, Nonce := nonce,
    GasPrice := gasPrice, GasLimit := ethTxGasLimit, Amount := "", ToAddress := "",
    TaxAmount := "", EthTransferID := none, TxHash := some txHash, RawTx := none,
    Status := TransferStatus.pending, Message := "" }

/-- The value `ConfirmTransfer` hands to `UpdateTransfers` for a row `dbt` it has read:
the submitted raw transaction, status queued and the link to the top-up. -/
def queuedUpdate (dbt : Transfer) (rawTx ethTransferID : String) : Transfer :=
  { dbt with RawTx := some rawTx, Status := TransferStatus.queued,
             EthTransferID := some ethTransferID }

/-- The effect on one row of the loop that fails the submitted transfers:
`WriteTransferError(t.ID, msg)` for each submitted `t` in turn. -/
def failRow (now : Nat) (ts : List SignedTransaction) (msg : String) (r : Transfer) : Transfer :=
  ts.foldl (fun r1 t => Postgres.writeErrorRow now t.ID msg r1) r

/-- The effect of a successful `CompleteTransfers(eid)` on one row: the statements of
`StartEthTransferProcessing`, `CompleteTransfer(eid, "")` and `UpdateTransfers` in turn, for
the queued batch `batch` whose first broadcast is the on-chain call number `k`. -/
def completedRow (env : Env) (k : Nat) (batch : List Transfer) (eid : String) (r : Transfer) :
    Transfer :=
  (broadcastRows env k batch).foldl (fun r1 t => Postgres.updateRow env.now t r1)
    (Postgres.completeRow env.now eid "" (Postgres.processingRow env.now eid r))

/-- The rational number a decimal stands for. -/
def Decimal.toRat (d : Decimal) : ℚ := (d.coeff : ℚ) / 10 ^ d.scale

/-- The quotient `a / 10 ^ (d - 16)` rounded half up: the number of units of `10 ^ (d - 16)`
that `ToETH` keeps of `a` when `d` exceeds the division precision. -/
def keptUnits (a d : Nat) : Nat := (2 * a + 10 ^ (d - 16)) / (2 * 10 ^ (d - 16))

/-- What is said of an unsigned transaction `u` returned by `CreateTransfer` and of the row
`r` persisted for it: `u` has the given type, nonce, gas limit and gas price (in the
hexadecimal form of the response), value 0 and the token contract as its `to`; `r` is a live
row with the id of `u`, status new, the sender's address and the same type, nonce, gas price
and gas limit as numbers. -/
def returnedWith (cfg : Config) (env : Env) (u : UnsignedTransfer) (r : Transfer)
    (ty : TransferType) (fromAddress : String) (nonce gasPrice gasLimit : Nat) : Prop :=
  u.TransferType = ty
    ∧ u.TxData.Nonce = hexutil.EncodeUint64 nonce
    ∧ u.TxData.GasLimit = hexutil.EncodeUint64 gasLimit
    ∧ u.TxData.GasPrice = hexutil.EncodeBig gasPrice
    ∧ u.TxData.Value = "0x0"
    ∧ u.TxData.To = env.addressString cfg.TokenAddress
    ∧ r.ID = u.ID
    ∧ r.TransferType = ty
    ∧ r.Status = TransferStatus.new
    ∧ r.DeletedAt = none
    ∧ r.FromAddress = fromAddress
    ∧ r.Nonce = nonce
    ∧ r.GasPrice = (gasPrice : Int)
    ∧ r.GasLimit = gasLimit

/-- The bytes `createTransfer` collects as the `input` of the unsigned transaction for the
recipient `toAddress` and the amount `wei` in base units: the selector, the padded address
and the padded bytes of the amount. -/
def transferInput (env : Env) (toAddress : String) (wei : Int) : List Nat :=
  transferMethodID ++ LeftPadBytes (env.addressBytes toAddress) 32
    ++ LeftPadBytes (bytesOfNat wei.natAbs wei.natAbs []) 32

/-- The number written by a list of bytes, most significant first. -/
def natOfBytes (bytes : List Nat) : Nat := bytes.foldl (fun acc b => 256 * acc + b) 0

/-- The action the specification prescribes for a pending top-up, by receipt outcome:
`CompleteTransfers` exactly for status 1, `FailEthTransfer` exactly for status 0, and nothing
otherwise. -/
def specTopUpAction (env : Env) (w : World) (id : String) :
    Except String (Option Nat) → World
  | .ok (some 1) => (Manager.CompleteTransfers env w id).1
  | .ok (some 0) => Scrapper.FailEthTransfer env w id "ETH top-up transaction failed"
  | _ => w

/-- HMAC-SHA256 in the words of RFC 2104: `H((K ⊕ opad) ‖ H((K ⊕ ipad) ‖ message))`, where `K`
is the key, replaced by its hash when it is longer than a block, padded with zero bytes to
the block size of 64, `ipad` is the byte `0x36` and `opad` the byte `0x5c` repeated. -/
def specHMACSHA256 (key message : List Nat) : List Nat :=
  let k0 := if 64 < key.length then sha256.Sum key else key
  let k := k0 ++ List.replicate (64 - k0.length) 0
  sha256.Sum (k.map (fun b => b ^^^ 0x5c) ++ sha256.Sum (k.map (fun b => b ^^^ 0x36) ++ message))

/-- The address equals, case-insensitively, the address of a wallet that is not deleted. -/
def isKnownWallet (wallets : List Wallet) (address : String) : Bool :=
  wallets.any fun w => decide (lower w.Address = lower address ∧ w.DeletedAt = none)

/-! ## Sample data -/

/-- A token transfer row of address `0xA1` with nonce 5 and status new: 1000 base units to
`0xb2..b2`, with a tax of 2 base units. -/
def sampleRow : Transfer :=
  { ID := "t1", CreatedAt := 1, UpdatedAt := none, DeletedAt := none,
    TransferType := TransferType.TransferToken, FromAddress := "0xA1", Nonce := 5,
    GasPrice := 10, GasLimit := 80000, Amount := "1000",
    ToAddress := "0xb2b2b2b2b2b2b2b2b2b2b2b2b2b2b2b2b2b2b2b2", TaxAmount := "2",
    EthTransferID := none, TxHash := none, RawTx := none,
    Status := TransferStatus.new, Message := "" }

/-- Collaborators that always answer: the account nonce is 5, the raw transactions
`0xraw5` .. `0xraw8` decode to the nonces 5 .. 8 and `0xraw5b` to the nonce 5 as well, the
gas price is 10, every balance is 10^8,
every send succeeds, and the first fresh id is `e2`.  The token has 2 decimals and the
sender holds 2000 base units; the rate is the `float64` 1e10; the float conversions are
given on the values that occur: 10.0, 0.2, 1e10, the tax 0.02172 and the sum 10.02172. -/
def sampleEnv : Env :=
  { now := 100
    EthToSdr := .ok { bits := 0x4202a05f20000000 }
    BalanceOf := fun _ => .ok 2000
    Decimals := .ok 2
    NewFromFloat := fun f =>
      if f.bits = 0x4024000000000000 then { coeff := 10, scale := 0 }
      else if f.bits = 0x3f963dc486ad2dcb then { coeff := 2172, scale := 5 }
      else if f.bits = 0x40240b1ee2435697 then { coeff := 1002172, scale := 5 }
      else if f.bits = 0x4202a05f20000000 then { coeff := 10000000000, scale := 0 }
      else if f.bits = 0x3fc999999999999a then { coeff := 2, scale := 1 }
      else { coeff := 0, scale := 0 }
    toFloat64 := fun d =>
      if d.coeff * 10 ^ 5 = 2172 * 10 ^ d.scale then { bits := 0x3f963dc486ad2dcb }
      else { bits := 0 }
    addFloat64 := fun a b =>
      if a.bits = 0x4024000000000000 ∧ b.bits = 0x3f963dc486ad2dcb then
        { bits := 0x40240b1ee2435697 }
      else { bits := 0 }
    addressBytes := fun _ => List.replicate 20 0xb2
    addressString := fun s => s
    PendingNonceAt := fun _ => .ok 5
    hexDecode := fun s =>
      if s = "0xraw5" then .ok [5] else if s = "0xraw5b" then .ok [5]
      else if s = "0xraw6" then .ok [6]
      else if s = "0xraw7" then .ok [7] else if s = "0xraw8" then .ok [8]
      else .error "invalid hex string"
    rlpNonce := fun b => match b with
      | [n] => .ok n
      | _ => .error "rlp: expected input list"
    SuggestGasPrice := .ok 10
    BalanceAt := fun _ => .ok 100000000
    NetworkID := .ok 1
    bankAddressOf := fun _ => .ok "0xBA"
    SignTx := fun _ _ _ _ _ => .ok "0xtopup"
    SendTransaction := fun _ => .ok ()
    sendRawTransaction := fun _ rawTx => .ok ("0xhash" ++ rawTx)
    uuid := fun k => if k = 0 then "e2" else "e3" }

/-- A configuration with the gas limits of the specification's first scenario. -/
def sampleConfig : Config :=
  { TransferGas := 80000, TaxGas := 80000, Surcharge := { bits := 0x3fc999999999999a },
    TokenAddress := "0xC0", BankAddress := "0xBA", BankPrivateKey := "bank-key" }

/-- The tax transfer paired with `sampleRow`: nonce 6, status new. -/
def sampleTaxRow : Transfer :=
  { sampleRow with ID := "t2", TransferType := TransferType.Tax, Nonce := 6, ToAddress := "0xBA",
                   Amount := "2", TaxAmount := "" }

/-- The top-up `e1` of the bank `0xBA`, pending. -/
def sampleTopUp : Transfer :=
  { ID := "e1", CreatedAt := 2, UpdatedAt := none, DeletedAt := none,
    TransferType := TransferType.EthTopUp, FromAddress := "0xBA", Nonce := 0,
    GasPrice := 10, GasLimit := 21000, Amount := "", ToAddress := "", TaxAmount := "",
    EthTransferID := none, TxHash := some "0xtopup", RawTx := none,
    Status := TransferStatus.pending, Message := "" }

/-- `sampleRow` once confirmed: queued under the top-up `e1` with raw transaction `0xraw5`. -/
def sampleQueued : Transfer :=
  { sampleRow with EthTransferID := some "e1", RawTx := some "0xraw5",
                   Status := TransferStatus.queued }

/-- `sampleTaxRow` once confirmed: queued under the top-up `e1` with raw transaction `0xraw6`. -/
def sampleTaxQueued : Transfer :=
  { sampleTaxRow with EthTransferID := some "e1", RawTx := some "0xraw6",
                      Status := TransferStatus.queued }

/-- A world after a successful confirmation: the tax row is stored before the token row, so
that the nonce order differs from the table order; nothing has been sent yet. -/
def sampleQueuedWorld : World :=
  { transfers := [sampleTaxQueued, sampleQueued, sampleTopUp], calls := [] }

/-- A pending token transfer of `0xA1` that already occupies nonce 5. -/
def samplePending : Transfer :=
  { sampleRow with ID := "t0", EthTransferID := some "e1", RawTx := some "0xraw5",
                   TxHash := some "0xhash0xraw5", Status := TransferStatus.pending }

/-- The second scenario of the specification: nonce 5 is taken by a pending transfer of the
same address when the new pair `t1`, `t2` (nonces 5 and 6) is about to be confirmed. -/
def sampleConflictWorld : World :=
  { transfers := [samplePending, sampleTopUp, sampleRow, sampleTaxRow], calls := [] }

/-- The confirmation request for the pair `t1`, `t2` with raw transactions of nonces 5 and 6. -/
def sampleRequest : SignedTransfer :=
  { FromAddress := "0xa1",
    Transactions := [{ ID := "t1", RawTx := "0xraw5" }, { ID := "t2", RawTx := "0xraw6" }] }

/-- A world in which the pair `t1`, `t2` has just been created. -/
def sampleNewWorld : World :=
  { transfers := [sampleRow, sampleTaxRow], calls := [] }

/-- The row `t1` after the confirmation: queued under the top-up `e2` with its raw
transaction. -/
def sampleConfirmedRow : Transfer :=
  { sampleRow with RawTx := some "0xraw5", Status := TransferStatus.queued,
                   EthTransferID := some "e2", UpdatedAt := some 100 }

/-- The world `ConfirmTransfer` leaves from `sampleNewWorld` on `sampleRequest`: both rows
queued with their raw transactions under the new top-up `e2`, which the bank has sent. -/
def sampleConfirmedWorld : World :=
  { transfers :=
      [sampleConfirmedRow,
       { sampleTaxRow with RawTx := some "0xraw6", Status := TransferStatus.queued,
                           EthTransferID := some "e2", UpdatedAt := some 100 },
       topUpRow sampleEnv "0xBA" 5 10 "0xtopup"],
    calls := [Call.SendTransaction "0xtopup" "0xa1" 1600000] }

/-- A second confirmation of the queued pair `t1`, `t2`, with raw transactions whose nonces
7 and 8 are not in use. -/
def sampleReconfirmRequest : SignedTransfer :=
  { FromAddress := "0xa1",
    Transactions := [{ ID := "t1", RawTx := "0xraw7" }, { ID := "t2", RawTx := "0xraw8" }] }

/-- A confirmation naming the transfer `t1` and an id `t9` that no row has. -/
def sampleMissingRequest : SignedTransfer :=
  { FromAddress := "0xa1",
    Transactions := [{ ID := "t1", RawTx := "0xraw5" }, { ID := "t9", RawTx := "0xraw6" }] }

/-- The collaborators at the time of a second `/transfer` request of `0xA1`: as `sampleEnv`,
at time 3 and with the fresh ids `t3` and `t4`.  The account nonce is still 5. -/
def sampleCreateAgainEnv : Env :=
  { sampleEnv with now := 3, uuid := fun k => if k = 0 then "t3" else "t4" }

/-- The world after: the pair `t1`, `t2` is created; a confirmation naming `t1` and a
missing id leaves `t1` confirming; a second `/transfer` request soft-deletes `t2`, still new,
and creates the pair `t3`, `t4`, again with the nonces 5 and 6. -/
def sampleMixedWorld : World :=
  { transfers :=
      [{ sampleRow with Status := TransferStatus.confirming },
       { sampleTaxRow with DeletedAt := some 3 },
       { sampleRow with ID := "t3", CreatedAt := 3 },
       { sampleTaxRow with ID := "t4", CreatedAt := 3 }],
    calls := [] }

/-- A confirmation naming the token transfers `t1` and `t3` of the two pairs, with two raw
transactions that both decode to the nonce 5. -/
def sampleMixedRequest : SignedTransfer :=
  { FromAddress := "0xA1",
    Transactions := [{ ID := "t1", RawTx := "0xraw5" }, { ID := "t3", RawTx := "0xraw5b" }] }

/-- The request of the first scenario: 10 tokens (the `float64` 10.0) from `0xA1`. -/
def sampleNewTransfer : Models.NewTransfer :=
  { FromAddress := "0xA1", ToAddress := "0xb2b2b2b2b2b2b2b2b2b2b2b2b2b2b2b2b2b2b2b2",
    Amount := { bits := 0x4024000000000000 } }

/-- The collaborators at the time of the `/transfer` request: as `sampleEnv`, at time 1 and
with the fresh ids `t1` and `t2`. -/
def sampleCreateEnv : Env :=
  { sampleEnv with now := 1, uuid := fun k => if k = 0 then "t1" else "t2" }

/-- The collaborators of `sampleEnv`, except that the node rejects the raw transaction
`0xraw6`. -/
def sampleSecondFailsEnv : Env :=
  { sampleEnv with
    sendRawTransaction := fun _ rawTx =>
      if rawTx = "0xraw6" then .error "nonce too low" else .ok ("0xhash" ++ rawTx) }

/-- The collaborators of `sampleEnv`, except that the node rejects the raw transaction
`0xraw5`. -/
def sampleFirstFailsEnv : Env :=
  { sampleEnv with
    sendRawTransaction := fun _ rawTx =>
      if rawTx = "0xraw5" then .error "nonce too low" else .ok ("0xhash" ++ rawTx) }

/-- The configuration `sampleConfig` with a transfer gas limit of 80001, so that the total
gas limit 181001 is not a multiple of 100. -/
def sampleOddGasConfig : Config := { sampleConfig with TransferGas := 80001 }

/-- The collaborators of `sampleCreateEnv`, except that the sender holds 1000 base units of
the token, less than the 1002 needed for 10 tokens and the tax. -/
def samplePoorEnv : Env := { sampleCreateEnv with BalanceOf := fun _ => .ok 1000 }

/-- The collaborators of `sampleCreateEnv`, with the float conversions also given on the
`float64` values -1e76 (bit pattern `0xcfb61bcca7119916`) and 1e76 (`0x4fb61bcca7119916`):
their decimals are `-10 ^ 76` and `10 ^ 76`, and adding the tax 0.02172 to -1e76 gives -1e76
again. -/
def sampleHugeEnv : Env :=
  { sampleCreateEnv with
    NewFromFloat := fun f =>
      if f.bits = 0xcfb61bcca7119916 then { coeff := -(10 ^ 76), scale := 0 }
      else if f.bits = 0x4fb61bcca7119916 then { coeff := 10 ^ 76, scale := 0 }
      else sampleEnv.NewFromFloat f
    addFloat64 := fun a b =>
      if a.bits = 0xcfb61bcca7119916 ∧ b.bits = 0x3f963dc486ad2dcb then
        { bits := 0xcfb61bcca7119916 }
      else sampleEnv.addFloat64 a b }

/-- A `/transfer` request of `0xA1` with the amount -1e76. -/
def sampleHugeTransfer : Models.NewTransfer :=
  { sampleNewTransfer with Amount := { bits := 0xcfb61bcca7119916 } }

/-- The world after `CompleteTransfers` has broadcast the pair of `sampleConfirmedWorld`: `t1`
and `t2` are pending with the hashes `0xhash0xraw5` and `0xhash0xraw6`. -/
def samplePendingWorld : World :=
  (Manager.CompleteTransfers sampleEnv sampleConfirmedWorld "e2").1

/-- A node on which every transaction is mined; the receipt of `0xhash0xraw5` has status 0
(the token transfer was reverted), every other receipt has status 1. -/
def sampleRevertedNode : Node :=
  { TransactionByHash := fun _ => .ok false
    TransactionReceipt := fun h => if h = "0xhash0xraw5" then .ok (some 0) else .ok (some 1) }

/-- A node on which every transaction is mined and no receipt can be read. -/
def sampleNoReceiptNode : Node :=
  { TransactionByHash := fun _ => .ok false
    TransactionReceipt := fun _ => .error "not found" }

/-- A confirmation sent on behalf of `0xB2` that names the transfers `t1` and `t2` of `0xA1`,
with raw transactions that are not hexadecimal. -/
def sampleForeignRequest : SignedTransfer :=
  { FromAddress := "0xB2",
    Transactions := [{ ID := "t1", RawTx := "junk" }, { ID := "t2", RawTx := "junk" }] }

/-- A row of the `transactions` table: the transaction `0xh1` seen by the live subscription,
without a time. -/
def sampleTransaction : Transaction :=
  { ID := "x1", CreatedAt := 10, UpdatedAt := none, DeletedAt := none,
    Hash := "0xh1", BlockNumber := 7, TxType := TransferType.TransferToken,
    Status := TransferStatus.completed, Value := "1000", From := "0xA1", To := "0xB2", Time := 0 }

/-- The transaction `0xh1` as the backfill sees it: with the block time 1700000000, and with
other values in the other fields. -/
def sampleObserved : NewTransaction :=
  { Hash := "0xh1", BlockNumber := 8, TxType := TransferType.TxETH,
    Status := TransferStatus.completed, Value := "5", From := "0xC3", To := "0xD4",
    Time := 1700000000 }

/-- A `wallets` table with the two live wallets `0xA1` and `0xB2`. -/
def sampleWallets : List Wallet :=
  [{ Address := "0xA1", DeletedAt := none }, { Address := "0xB2", DeletedAt := none }]

/-- Two clients subscribe and each of them is notified once. -/
def sampleNotifierEvents : List Notifier.Event :=
  [Notifier.Subscribe "0xA1" "s1", Notifier.Subscribe "0xB2" "s2",
   Notifier.Notify "0xA1" "m1", Notifier.Notify "0xB2" "m2"]

/-- The same events, but the connection of the first subscription breaks before the
notifications: its `write` goroutine returns, and its `read` goroutine asks for the
unregistration while the manager handles the first notification. -/
def sampleBrokenWriterEvents : List Notifier.Event :=
  [Notifier.Subscribe "0xA1" "s1", Notifier.Subscribe "0xB2" "s2",
   Notifier.Event.writeFailed "s1",
   Notifier.Notify "0xA1" "m1",
   Notifier.Event.unregister { id := "s1", clientID := "0xa1" },
   Notifier.Notify "0xB2" "m2"]

/-- The collaborators when the confirmation is sent a second time: as `sampleEnv`, with the
fresh id `e3`. -/
def sampleResendEnv : Env :=
  { sampleEnv with uuid := fun _ => "e3" }

/-- The world after the confirmation `sampleRequest` is sent a second time, to
`sampleConfirmedWorld`: the nonces 5 and 6 are taken by the queued rows `t1` and `t2`
themselves, validation fails, and both rows are set to failed; the top-up `e2` stays
pending. -/
def sampleResentWorld : World :=
  (Manager.ConfirmTransfer sampleConfig sampleResendEnv sampleConfirmedWorld sampleRequest).1

/-! ## Theorems -/

/-! ### `CalcGasCost` -/

theorem int64OfUint64_of_lt (x : Nat) (h : x < 2 ^ 63) : int64OfUint64 x = (x : Int) := by
  have h1 : x % 2 ^ 64 = x := Nat.mod_eq_of_lt (by omega)
  unfold int64OfUint64
  rw [h1, if_pos h]

theorem CalcGasCost_of_lt (gasLimit : Nat) (gasPrice : Int) (h : gasLimit < 2 ^ 63) :
    CalcGasCost gasLimit gasPrice = (gasLimit : Int) * gasPrice := by
  unfold CalcGasCost
  rw [int64OfUint64_of_lt gasLimit h]

/-- C8 (evaluation at the failing input): for the unsigned 64-bit gas limit 2^63 and gas
price 1, `CalcGasCost` returns -2^63 and not 2^63·1, because `int64(gasLimit)` wraps. -/
theorem C8_CalcGasCost_wraps_at_two_pow_63 :
    CalcGasCost (2 ^ 63) 1 = -(2 ^ 63 : Int) ∧ CalcGasCost (2 ^ 63) 1 ≠ ((2 ^ 63 : Nat) : Int) * 1 := by
  constructor <;> decide

/-! ### Row-wise form of the Store operations -/

theorem foldl_map_rows {α : Type} (g : α → Transfer → Transfer) (ts : List α)
    (rows : List Transfer) :
    ts.foldl (fun acc t => acc.map (g t)) rows
      = rows.map fun r => ts.foldl (fun r1 t => g t r1) r := by
  induction ts generalizing rows with
  | nil => simp
  | cons t ts ih => simp [List.foldl_cons, ih, List.map_map, Function.comp_def]

theorem UpdateTransfers_rows (now : Nat) (rows transfers : List Transfer) :
    (Postgres.UpdateTransfers now rows transfers).1
      = rows.map fun r => transfers.foldl (fun r1 t => Postgres.updateRow now t r1) r := by
  unfold Postgres.UpdateTransfers
  exact foldl_map_rows (Postgres.updateRow now) transfers rows

theorem GetAndConfirmTransferByID_rows (rows : List Transfer) (id frm : String) :
    (Postgres.GetAndConfirmTransferByID rows id frm).1 = rows.map (Postgres.confirmRow id frm) := by
  unfold Postgres.GetAndConfirmTransferByID
  dsimp only
  split <;> rfl

theorem updateRow_ID (now : Nat) (t r : Transfer) : (Postgres.updateRow now t r).ID = r.ID := by
  unfold Postgres.updateRow
  split <;> rfl

theorem updateRow_DeletedAt (now : Nat) (t r : Transfer) :
    (Postgres.updateRow now t r).DeletedAt = r.DeletedAt := by
  unfold Postgres.updateRow
  split <;> rfl

theorem updateRow_of_deleted (now : Nat) (t r : Transfer) (h : r.DeletedAt ≠ none) :
    Postgres.updateRow now t r = r := by
  unfold Postgres.updateRow
  rw [if_neg]
  exact fun hc => h hc.2

theorem foldl_updateRow_ID (now : Nat) (ts : List Transfer) (r : Transfer) :
    (ts.foldl (fun r1 t => Postgres.updateRow now t r1) r).ID = r.ID := by
  induction ts generalizing r with
  | nil => rfl
  | cons t ts ih => rw [List.foldl_cons, ih, updateRow_ID]

theorem foldl_updateRow_DeletedAt (now : Nat) (ts : List Transfer) (r : Transfer) :
    (ts.foldl (fun r1 t => Postgres.updateRow now t r1) r).DeletedAt = r.DeletedAt := by
  induction ts generalizing r with
  | nil => rfl
  | cons t ts ih => rw [List.foldl_cons, ih, updateRow_DeletedAt]

theorem foldl_updateRow_of_deleted (now : Nat) (ts : List Transfer) (r : Transfer)
    (h : r.DeletedAt ≠ none) :
    ts.foldl (fun r1 t => Postgres.updateRow now t r1) r = r := by
  induction ts with
  | nil => rfl
  | cons t ts ih => rw [List.foldl_cons, updateRow_of_deleted now t r h, ih]

/-- The status left by the statements of `UpdateTransfers` on a live row: that of the last
passed transfer with the row's id, or the old one when there is none. -/
theorem foldl_updateRow_Status (now : Nat) (ts : List Transfer) (r : Transfer)
    (h : r.DeletedAt = none) :
    (ts.foldl (fun r1 t => Postgres.updateRow now t r1) r).Status
      = ((ts.reverse.find? fun t => decide (r.ID = t.ID)).map fun t => t.Status).getD r.Status := by
  induction ts generalizing r with
  | nil => rfl
  | cons t ts ih =>
    rw [List.foldl_cons, ih _ (by rw [updateRow_DeletedAt]; exact h), updateRow_ID,
      List.reverse_cons, List.find?_append]
    cases hf : ts.reverse.find? fun t => decide (r.ID = t.ID) with
    | some x => simp
    | none =>
      by_cases hid : r.ID = t.ID
      · simp [Postgres.updateRow, hid, h]
      · simp [Postgres.updateRow, hid]

theorem StoreOp.run_eq_map (op : StoreOp) (rows : List Transfer) :
    op.run rows = rows.map op.onRow := by
  cases op with
  | GetAndConfirmTransferByID id frm => exact GetAndConfirmTransferByID_rows rows id frm
  | UpdateTransfers now transfers => exact UpdateTransfers_rows now rows transfers
  | StartEthTransferProcessing now id => rfl
  | CompleteTransfer now id hash => rfl
  | FailEthTransfer now id msg =>
    simp only [StoreOp.run, Postgres.FailEthTransfer, Postgres.WriteTransferError,
      List.map_map, Function.comp_def]
    rfl
  | WriteTransferError now id msg => rfl

theorem StoreOp.onRow_ID (op : StoreOp) (r : Transfer) : (op.onRow r).ID = r.ID := by
  cases op with
  | UpdateTransfers now transfers => exact foldl_updateRow_ID now transfers r
  | GetAndConfirmTransferByID id frm =>
    simp only [StoreOp.onRow, Postgres.confirmRow]
    split_ifs <;> rfl
  | StartEthTransferProcessing now id =>
    simp only [StoreOp.onRow, Postgres.processingRow]
    split_ifs <;> rfl
  | CompleteTransfer now id hash =>
    simp only [StoreOp.onRow, Postgres.completeRow]
    split_ifs <;> rfl
  | FailEthTransfer now id msg =>
    simp only [StoreOp.onRow, Postgres.failLinkedRow, Postgres.writeErrorRow]
    split_ifs <;> rfl
  | WriteTransferError now id msg =>
    simp only [StoreOp.onRow, Postgres.writeErrorRow]
    split_ifs <;> rfl

theorem StoreOp.onRow_Status_of_unselected (op : StoreOp) (r : Transfer)
    (h : r.DeletedAt ≠ none ∨ op.target r = none) : (op.onRow r).Status = r.Status := by
  cases op with
  | UpdateTransfers now transfers =>
    by_cases hd : r.DeletedAt = none
    · rcases h with h | h
      · exact absurd hd h
      · simp only [StoreOp.onRow]
        rw [foldl_updateRow_Status now transfers r hd]
        simp only [StoreOp.target] at h
        rw [h]
        rfl
    · simp only [StoreOp.onRow]
      rw [foldl_updateRow_of_deleted now transfers r hd]
  | GetAndConfirmTransferByID id frm =>
    simp only [StoreOp.onRow, Postgres.confirmRow, Postgres.ownedBy, StoreOp.target] at h ⊢
    split_ifs at h ⊢ <;> simp_all
  | StartEthTransferProcessing now id =>
    simp only [StoreOp.onRow, Postgres.processingRow, StoreOp.target] at h ⊢
    split_ifs at h ⊢ <;> simp_all
  | CompleteTransfer now id hash =>
    simp only [StoreOp.onRow, Postgres.completeRow]
    rw [if_neg]
    intro hc
    rcases h with h | h
    · exact h hc.2
    · simp only [StoreOp.target, if_pos hc.1] at h
      exact absurd h (by simp)
  | FailEthTransfer now id msg =>
    simp only [StoreOp.onRow, Postgres.failLinkedRow, Postgres.writeErrorRow, StoreOp.target] at h ⊢
    split_ifs at h ⊢ <;> simp_all
  | WriteTransferError now id msg =>
    simp only [StoreOp.onRow, Postgres.writeErrorRow, StoreOp.target] at h ⊢
    split_ifs at h ⊢ <;> simp_all

theorem StoreOp.onRow_Status_of_selected (op : StoreOp) (r : Transfer) (s : TransferStatus)
    (hlive : r.DeletedAt = none) (ht : op.target r = some s) : (op.onRow r).Status = s := by
  cases op with
  | UpdateTransfers now transfers =>
    simp only [StoreOp.onRow]
    rw [foldl_updateRow_Status now transfers r hlive]
    simp only [StoreOp.target] at ht
    rw [ht]
    rfl
  | GetAndConfirmTransferByID id frm =>
    simp only [StoreOp.onRow, Postgres.confirmRow, Postgres.ownedBy, StoreOp.target] at ht ⊢
    split_ifs at ht ⊢ <;> simp_all
  | StartEthTransferProcessing now id =>
    simp only [StoreOp.onRow, Postgres.processingRow, StoreOp.target] at ht ⊢
    split_ifs at ht ⊢ <;> simp_all
  | CompleteTransfer now id hash =>
    by_cases hc : r.ID = id ∨ r.TxHash.map lower = some (lower hash)
    · simp only [StoreOp.target, if_pos hc] at ht
      simp only [StoreOp.onRow, Postgres.completeRow, if_pos (And.intro hc hlive)]
      exact Option.some.inj ht
    · simp only [StoreOp.target, if_neg hc] at ht
      exact absurd ht (by simp)
  | FailEthTransfer now id msg =>
    simp only [StoreOp.onRow, Postgres.failLinkedRow, Postgres.writeErrorRow, StoreOp.target] at ht ⊢
    split_ifs at ht ⊢ <;> simp_all
  | WriteTransferError now id msg =>
    simp only [StoreOp.onRow, Postgres.writeErrorRow, StoreOp.target] at ht ⊢
    split_ifs at ht ⊢ <;> simp_all

/-- C1 (amended): every Store operation that writes `status` acts row by row and keeps the
id; a soft-deleted row and a row its WHERE clause does not select keep their status; a
selected live row gets the operation's own target status, which does not depend on the
status the row had (for GetAndConfirmTransferByID this is stated for rows that are new or
confirming). -/
theorem C1_store_op_writes_fixed_status (op : StoreOp) (rows : List Transfer) :
    op.run rows = rows.map op.onRow ∧
      ∀ r : Transfer, (op.onRow r).ID = r.ID ∧
        ((r.DeletedAt ≠ none ∨ op.target r = none) → (op.onRow r).Status = r.Status) ∧
        (∀ s, r.DeletedAt = none → op.target r = some s → op.intended r →
          (op.onRow r).Status = s) :=
  ⟨op.run_eq_map rows, fun r => ⟨op.onRow_ID r, op.onRow_Status_of_unselected r,
    fun s hlive ht _ => op.onRow_Status_of_selected r s hlive ht⟩⟩

/-- C1 (counterexample): `WriteTransferError`, as `ConfirmTransfer` calls it on a validation
failure, takes a row from new to failed, and new → failed is not an edge of the graph. -/
theorem C1_counterexample_new_to_failed :
    sampleRow.Status = TransferStatus.new
      ∧ ((StoreOp.WriteTransferError 9 "t1" "exactly two transactions are expected").run
          [sampleRow]).map (fun r => r.Status) = [TransferStatus.failed]
      ∧ specEdge sampleRow.TransferType TransferStatus.new TransferStatus.failed = false := by
  decide

/-! ### `CompleteTransfers` -/

theorem broadcastRows_map_ID (env : Env) (k : Nat) (l : List Transfer) :
    (broadcastRows env k l).map (fun t => t.ID) = l.map fun t => t.ID := by
  induction l generalizing k with
  | nil => rfl
  | cons d rest ih => simp [broadcastRows, ih]

theorem broadcastRows_Status (env : Env) (k : Nat) (l : List Transfer) :
    ∀ t ∈ broadcastRows env k l, t.Status = TransferStatus.pending := by
  induction l generalizing k with
  | nil => simp [broadcastRows]
  | cons d rest ih =>
    intro t ht
    simp only [broadcastRows, List.mem_cons] at ht
    rcases ht with ht | ht
    · rw [ht]
    · exact ih (k + 1) t ht

/-- When the broadcasting loop ends without error, it has left the table alone, logged one
call per transfer of the batch in order, and produced `broadcastRows`. -/
theorem sendEach_ok (env : Env) (l : List Transfer) (w w2 : World) (sent out : List Transfer)
    (h : Manager.sendEach env w l sent = (w2, .ok out)) :
    w2 = { w with calls := w.calls ++ broadcastCalls l }
      ∧ out = sent ++ broadcastRows env w.calls.length l := by
  induction l generalizing w sent with
  | nil =>
    simp only [Manager.sendEach, Prod.mk.injEq, Except.ok.injEq] at h
    simp [broadcastCalls, broadcastRows, h.1.symm, h.2.symm]
  | cons d rest ih =>
    unfold Manager.sendEach at h
    split at h
    · simp at h
    · rename_i rawTx hraw
      dsimp only at h
      split at h
      · simp at h
      · rename_i txHash hsend
        obtain ⟨h1, h2⟩ := ih _ _ h
        constructor
        · rw [h1]
          simp [broadcastCalls, hraw]
        · rw [h2]
          simp [broadcastRows, hraw, hsend, Except.toOption, Nat.add_comm]

theorem mem_GetQueuedTransfersFor (rows : List Transfer) (eid : String) (r : Transfer) :
    r ∈ Postgres.GetQueuedTransfersFor rows eid ↔ r ∈ rows ∧ Postgres.queuedFor eid r = true := by
  unfold Postgres.GetQueuedTransfersFor
  rw [(List.perm_insertionSort _ _).mem_iff, List.mem_filter]

/-- What a successful run of `CompleteTransfers` has done. -/
theorem CompleteTransfers_ok (env : Env) (w w1 : World) (eid : String)
    (h : Manager.CompleteTransfers env w eid = (w1, .ok ())) :
    Postgres.GetQueuedTransfersFor w.transfers eid ≠ []
      ∧ (∃ balance, env.BalanceAt
            (Manager.lastFromAddress (Postgres.GetQueuedTransfersFor w.transfers eid)) = .ok balance
          ∧ ¬ balance < Manager.totalGasFee (Postgres.GetQueuedTransfersFor w.transfers eid))
      ∧ w1.calls = w.calls ++ broadcastCalls (Postgres.GetQueuedTransfersFor w.transfers eid)
      ∧ w1.transfers = w.transfers.map
          (completedRow env w.calls.length (Postgres.GetQueuedTransfersFor w.transfers eid) eid) := by
  unfold Manager.CompleteTransfers at h
  dsimp only at h
  split at h
  · simp at h
  · rename_i hne
    refine ⟨hne, ?_⟩
    split at h
    · simp at h
    · rename_i balance hbal
      split at h
      · simp at h
      · rename_i hge
        refine ⟨⟨balance, hbal, hge⟩, ?_⟩
        split at h
        · simp at h
        · rename_i w2 sent hsend
          obtain ⟨h1, h2⟩ := sendEach_ok env _ _ _ _ _ hsend
          simp only [Prod.mk.injEq, and_true] at h
          subst h
          subst h1
          subst h2
          refine ⟨rfl, ?_⟩
          dsimp only
          rw [UpdateTransfers_rows]
          simp only [Postgres.CompleteTransfer, Postgres.StartEthTransferProcessing, List.map_map,
            List.nil_append]
          rfl

theorem foldl_updateRow_of_no_match (now : Nat) (ts : List Transfer) (r : Transfer)
    (h : ∀ t ∈ ts, r.ID ≠ t.ID) :
    ts.foldl (fun r1 t => Postgres.updateRow now t r1) r = r := by
  induction ts with
  | nil => rfl
  | cons t ts ih =>
    have h1 : Postgres.updateRow now t r = r := by
      unfold Postgres.updateRow
      rw [if_neg]
      exact fun hc => h t (List.mem_cons_self t ts) hc.1
    rw [List.foldl_cons, h1]
    exact ih fun t1 ht1 => h t1 (List.mem_cons_of_mem t ht1)

/-- After a successful `CompleteTransfers(eid)` no live row is queued under `eid`. -/
theorem completedRow_not_queuedFor (env : Env) (k : Nat) (rows : List Transfer) (eid : String)
    (r : Transfer) (hr : r ∈ rows) :
    Postgres.queuedFor eid
      (completedRow env k (Postgres.GetQueuedTransfersFor rows eid) eid r) = false := by
  by_contra hq
  have hq : Postgres.queuedFor eid
      (completedRow env k (Postgres.GetQueuedTransfersFor rows eid) eid r) = true := by
    simpa using hq
  simp only [Postgres.queuedFor, decide_eq_true_eq] at hq
  obtain ⟨hlink, hstatus, hlive⟩ := hq
  have hid2 : (Postgres.completeRow env.now eid "" (Postgres.processingRow env.now eid r)).ID
      = r.ID := by
    simp only [Postgres.completeRow, Postgres.processingRow]
    split_ifs <;> rfl
  have hdel2 : (Postgres.completeRow env.now eid "" (Postgres.processingRow env.now eid r)).DeletedAt
      = r.DeletedAt := by
    simp only [Postgres.completeRow, Postgres.processingRow]
    split_ifs <;> rfl
  have hlive2 : (Postgres.completeRow env.now eid "" (Postgres.processingRow env.now eid r)).DeletedAt
      = none := by
    unfold completedRow at hlive
    rw [foldl_updateRow_DeletedAt] at hlive
    exact hlive
  have hst := foldl_updateRow_Status env.now
    (broadcastRows env k (Postgres.GetQueuedTransfersFor rows eid)) _ hlive2
  unfold completedRow at hstatus hlink
  rw [hst] at hstatus
  cases hf : (broadcastRows env k (Postgres.GetQueuedTransfersFor rows eid)).reverse.find?
      fun t => decide ((Postgres.completeRow env.now eid ""
        (Postgres.processingRow env.now eid r)).ID = t.ID) with
  | some t =>
    rw [hf] at hstatus
    have ht : t ∈ broadcastRows env k (Postgres.GetQueuedTransfersFor rows eid) :=
      List.mem_reverse.mp (List.mem_of_find?_eq_some hf)
    have := broadcastRows_Status env k _ t ht
    simp only [Option.map_some', Option.getD_some] at hstatus
    rw [this] at hstatus
    exact absurd hstatus (by decide)
  | none =>
    rw [hf] at hstatus
    simp only [Option.map_none', Option.getD_none] at hstatus
    have hno : ∀ t ∈ broadcastRows env k (Postgres.GetQueuedTransfersFor rows eid),
        (Postgres.completeRow env.now eid "" (Postgres.processingRow env.now eid r)).ID ≠ t.ID := by
      intro t ht
      have := List.find?_eq_none.mp hf t (List.mem_reverse.mpr ht)
      simpa using this
    rw [foldl_updateRow_of_no_match env.now _ _ hno] at hlink
    have hsame : Postgres.completeRow env.now eid "" (Postgres.processingRow env.now eid r) = r := by
      simp only [Postgres.completeRow, Postgres.processingRow] at hstatus ⊢
      split_ifs at hstatus ⊢
      rfl
    rw [hsame] at hlink hstatus hlive2 hno
    have hmem : r ∈ Postgres.GetQueuedTransfersFor rows eid := by
      rw [mem_GetQueuedTransfersFor]
      refine ⟨hr, ?_⟩
      simp only [Postgres.queuedFor, decide_eq_true_eq]
      exact ⟨hlink, hstatus, hlive2⟩
    have hidmem : r.ID ∈ (broadcastRows env k (Postgres.GetQueuedTransfersFor rows eid)).map
        fun t => t.ID := by
      rw [broadcastRows_map_ID]
      exact List.mem_map_of_mem _ hmem
    obtain ⟨t, ht, hte⟩ := List.mem_map.mp hidmem
    exact hno t ht hte.symm

/-- C10: after a first successful run of `CompleteTransfers(ethTransferID)`, a second run
(whatever the collaborators answer) fails because the queued set is empty, broadcasts
nothing and leaves every transfer row as the first run left it: the world is unchanged. -/
theorem C10_CompleteTransfers_second_run_is_noop (env1 env2 : Env) (w w1 : World)
    (ethTransferID : String)
    (h : Manager.CompleteTransfers env1 w ethTransferID = (w1, .ok ())) :
    Manager.CompleteTransfers env2 w1 ethTransferID
      = (w1, .error "empty transfers array received from the db") := by
  obtain ⟨_, _, _, hrows⟩ := CompleteTransfers_ok env1 w w1 ethTransferID h
  have hempty : Postgres.GetQueuedTransfersFor w1.transfers ethTransferID = [] := by
    unfold Postgres.GetQueuedTransfersFor
    have hf : w1.transfers.filter (Postgres.queuedFor ethTransferID) = [] := by
      rw [List.filter_eq_nil_iff]
      intro r1 hr1
      rw [hrows] at hr1
      obtain ⟨r, hr, rfl⟩ := List.mem_map.mp hr1
      rw [completedRow_not_queuedFor env1 w.calls.length w.transfers ethTransferID r hr]
      simp
    rw [hf]
    rfl
  unfold Manager.CompleteTransfers
  dsimp only
  rw [if_pos hempty]

theorem sendEach_of_success (env : Env) (l : List Transfer) (w : World) (sent : List Transfer)
    (hraw : ∀ d ∈ l, d.RawTx ≠ none)
    (hsend : ∀ k rawTx, ∃ txHash, env.sendRawTransaction k rawTx = .ok txHash) :
    Manager.sendEach env w l sent
      = ({ w with calls := w.calls ++ broadcastCalls l },
         .ok (sent ++ broadcastRows env w.calls.length l)) := by
  induction l generalizing w sent with
  | nil => simp [Manager.sendEach, broadcastCalls, broadcastRows]
  | cons d rest ih =>
    obtain ⟨rawTx, hr⟩ := Option.ne_none_iff_exists'.mp (hraw d (List.mem_cons_self d rest))
    obtain ⟨txHash, hs⟩ := hsend w.calls.length rawTx
    unfold Manager.sendEach
    simp only [hr, hs]
    rw [ih _ _ fun d1 hd1 => hraw d1 (List.mem_cons_of_mem d hd1)]
    simp [broadcastCalls, broadcastRows, hr, hs, Except.toOption, Nat.add_comm]

theorem CompleteTransfers_of_success (env : Env) (w : World) (eid : String) (balance : Int)
    (hne : Postgres.GetQueuedTransfersFor w.transfers eid ≠ [])
    (hraw : ∀ d ∈ Postgres.GetQueuedTransfersFor w.transfers eid, d.RawTx ≠ none)
    (hbal : env.BalanceAt
      (Manager.lastFromAddress (Postgres.GetQueuedTransfersFor w.transfers eid)) = .ok balance)
    (hge : Manager.totalGasFee (Postgres.GetQueuedTransfersFor w.transfers eid) ≤ balance)
    (hsend : ∀ k rawTx, ∃ txHash, env.sendRawTransaction k rawTx = .ok txHash) :
    Manager.CompleteTransfers env w eid
      = ({ transfers := w.transfers.map
            (completedRow env w.calls.length (Postgres.GetQueuedTransfersFor w.transfers eid) eid),
           calls := w.calls ++ broadcastCalls (Postgres.GetQueuedTransfersFor w.transfers eid) },
         .ok ()) := by
  unfold Manager.CompleteTransfers
  dsimp only
  rw [if_neg hne]
  simp only [hbal]
  rw [if_neg (not_lt.mpr hge), sendEach_of_success env _ _ _ hraw hsend]
  dsimp only
  rw [UpdateTransfers_rows]
  simp only [Postgres.CompleteTransfer, Postgres.StartEthTransferProcessing, List.map_map,
    List.nil_append]
  rfl

theorem foldl_updateRow_of_unique (now : Nat) (ts : List Transfer) (t r : Transfer)
    (hnodup : (ts.map fun t => t.ID).Nodup) (ht : t ∈ ts) (hid : r.ID = t.ID) :
    ts.foldl (fun r1 t => Postgres.updateRow now t r1) r = Postgres.updateRow now t r := by
  induction ts generalizing r with
  | nil => cases ht
  | cons t0 ts ih =>
    rw [List.map_cons, List.nodup_cons] at hnodup
    rw [List.foldl_cons]
    rcases List.mem_cons.mp ht with h | h
    · subst h
      apply foldl_updateRow_of_no_match
      intro t1 ht1 hc
      rw [updateRow_ID, hid] at hc
      exact hnodup.1 (hc ▸ List.mem_map_of_mem (fun t => t.ID) ht1)
    · have h0 : r.ID ≠ t0.ID := by
        intro hc
        apply hnodup.1
        rw [← hc, hid]
        exact List.mem_map_of_mem (fun t => t.ID) h
      have h1 : Postgres.updateRow now t0 r = r := by
        unfold Postgres.updateRow
        rw [if_neg]
        exact fun hc => h0 hc.1
      rw [h1]
      exact ih r hnodup.2 h hid

theorem broadcastRows_mem (env : Env) (k : Nat) (l : List Transfer) (i : Nat) (hi : i < l.length) :
    ({ l[i] with Status := TransferStatus.pending,
                 TxHash := (env.sendRawTransaction (k + i) (l[i].RawTx.getD "")).toOption }
      : Transfer) ∈ broadcastRows env k l := by
  induction l generalizing k i with
  | nil => simp at hi
  | cons d rest ih =>
    cases i with
    | zero => simp [broadcastRows]
    | succ j =>
      simp only [broadcastRows, List.mem_cons, List.getElem_cons_succ]
      right
      have := ih (k + 1) j (by simpa using hi)
      rw [Nat.add_assoc, Nat.add_comm 1 j] at this
      exact this

theorem eq_of_mem_of_ID_eq (rows : List Transfer) (hkey : (rows.map fun r => r.ID).Nodup)
    (a b : Transfer) (ha : a ∈ rows) (hb : b ∈ rows) (h : a.ID = b.ID) : a = b :=
  List.inj_on_of_nodup_map hkey ha hb h

theorem completedRow_ID (env : Env) (k : Nat) (batch : List Transfer) (eid : String)
    (r : Transfer) : (completedRow env k batch eid r).ID = r.ID := by
  unfold completedRow
  rw [foldl_updateRow_ID]
  simp only [Postgres.completeRow, Postgres.processingRow]
  split_ifs <;> rfl

theorem completedRow_DeletedAt (env : Env) (k : Nat) (batch : List Transfer) (eid : String)
    (r : Transfer) : (completedRow env k batch eid r).DeletedAt = r.DeletedAt := by
  unfold completedRow
  rw [foldl_updateRow_DeletedAt]
  simp only [Postgres.completeRow, Postgres.processingRow]
  split_ifs <;> rfl

theorem GetQueuedTransfersFor_nodup (rows : List Transfer) (eid : String)
    (hkey : (rows.map fun r => r.ID).Nodup) :
    ((Postgres.GetQueuedTransfersFor rows eid).map fun r => r.ID).Nodup := by
  unfold Postgres.GetQueuedTransfersFor
  have hp := (List.perm_insertionSort (fun a b : Transfer => a.Nonce ≤ b.Nonce)
    (rows.filter (Postgres.queuedFor eid))).map fun r => r.ID
  rw [hp.nodup_iff]
  exact (List.filter_sublist rows).map (fun r => r.ID) |>.nodup hkey

theorem GetQueuedTransfersFor_sorted (rows : List Transfer) (eid : String) :
    (Postgres.GetQueuedTransfersFor rows eid).Sorted fun a b => a.Nonce ≤ b.Nonce := by
  haveI : IsTotal Transfer (fun a b => a.Nonce ≤ b.Nonce) :=
    ⟨fun a b => Nat.le_total a.Nonce b.Nonce⟩
  haveI : IsTrans Transfer (fun a b => a.Nonce ≤ b.Nonce) :=
    ⟨fun _ _ _ h1 h2 => Nat.le_trans h1 h2⟩
  exact List.sorted_insertionSort _ _

/-- C9 (amended): when at least one queued transfer is linked to `ethTransferID`, the sender's
balance covers the recomputed gas fee and every broadcast succeeds, in a table where ids are
unique, each queued transfer of the batch has a raw_tx and the top-up is not linked to
itself (as in every reachable table), then `CompleteTransfers` succeeds; the batch is the set of queued linked rows in ascending nonce
order; exactly one broadcast per transfer of the batch is logged, in that order; each
transfer of the batch is stored with status pending and the hash its own broadcast
returned; and the live row `ethTransferID` is left completed. -/
theorem C9_CompleteTransfers_broadcasts_in_nonce_order (env : Env) (w : World)
    (ethTransferID : String) (balance : Int)
    (hkey : (w.transfers.map fun r => r.ID).Nodup)
    (hne : Postgres.GetQueuedTransfersFor w.transfers ethTransferID ≠ [])
    (hraw : ∀ d ∈ Postgres.GetQueuedTransfersFor w.transfers ethTransferID, d.RawTx ≠ none)
    (hself : ∀ d ∈ Postgres.GetQueuedTransfersFor w.transfers ethTransferID, d.ID ≠ ethTransferID)
    (hbal : env.BalanceAt
      (Manager.lastFromAddress (Postgres.GetQueuedTransfersFor w.transfers ethTransferID))
        = .ok balance)
    (hge : Manager.totalGasFee (Postgres.GetQueuedTransfersFor w.transfers ethTransferID) ≤ balance)
    (hsend : ∀ k rawTx, ∃ txHash, env.sendRawTransaction k rawTx = .ok txHash) :
    ∃ w1 batch, Manager.CompleteTransfers env w ethTransferID = (w1, .ok ())
      ∧ batch = Postgres.GetQueuedTransfersFor w.transfers ethTransferID
      ∧ batch.Perm (w.transfers.filter (Postgres.queuedFor ethTransferID))
      ∧ batch.Sorted (fun a b => a.Nonce ≤ b.Nonce)
      ∧ w1.calls = w.calls ++ batch.map (fun d => Call.sendRawTransaction (d.RawTx.getD ""))
      ∧ (∀ (i : Nat) (hi : i < batch.length), ∃ rawTx txHash,
          batch[i].RawTx = some rawTx
          ∧ env.sendRawTransaction (w.calls.length + i) rawTx = .ok txHash
          ∧ (∃ r1 ∈ w1.transfers, r1.ID = batch[i].ID)
          ∧ ∀ r1 ∈ w1.transfers, r1.ID = batch[i].ID →
              r1.Status = TransferStatus.pending ∧ r1.TxHash = some txHash)
      ∧ (∀ r1 ∈ w1.transfers, r1.ID = ethTransferID → r1.DeletedAt = none →
          r1.Status = TransferStatus.completed) := by
  refine ⟨_, _, CompleteTransfers_of_success env w ethTransferID balance hne hraw hbal hge hsend,
    rfl, List.perm_insertionSort _ _, GetQueuedTransfersFor_sorted _ _, rfl, ?_, ?_⟩
  · intro i hi
    have hmem : (Postgres.GetQueuedTransfersFor w.transfers ethTransferID)[i]
        ∈ Postgres.GetQueuedTransfersFor w.transfers ethTransferID := List.getElem_mem hi
    obtain ⟨rawTx, hr⟩ := Option.ne_none_iff_exists'.mp (hraw _ hmem)
    obtain ⟨txHash, hs⟩ := hsend (w.calls.length + i) rawTx
    have hin := (mem_GetQueuedTransfersFor _ _ _).mp hmem
    refine ⟨rawTx, txHash, hr, hs, ⟨_, List.mem_map_of_mem _ hin.1, completedRow_ID _ _ _ _ _⟩, ?_⟩
    intro r1 hr1 hid1
    obtain ⟨r, hrmem, rfl⟩ := List.mem_map.mp hr1
    rw [completedRow_ID] at hid1
    have hreq := eq_of_mem_of_ID_eq _ hkey _ _ hrmem hin.1 hid1
    subst hreq
    have hlive : (Postgres.GetQueuedTransfersFor w.transfers ethTransferID)[i].DeletedAt = none := by
      have := hin.2
      simp only [Postgres.queuedFor, decide_eq_true_eq] at this
      exact this.2.2
    have hb := broadcastRows_mem env w.calls.length _ i hi
    have hnd : ((broadcastRows env w.calls.length
        (Postgres.GetQueuedTransfersFor w.transfers ethTransferID)).map fun t => t.ID).Nodup := by
      rw [broadcastRows_map_ID]
      exact GetQueuedTransfersFor_nodup _ _ hkey
    unfold completedRow
    rw [foldl_updateRow_of_unique env.now _ _ _ hnd hb (by
      simp only [Postgres.completeRow, Postgres.processingRow]
      split_ifs <;> rfl)]
    have hlive2 : (Postgres.completeRow env.now ethTransferID ""
        (Postgres.processingRow env.now ethTransferID
          (Postgres.GetQueuedTransfersFor w.transfers ethTransferID)[i])).DeletedAt = none := by
      simp only [Postgres.completeRow, Postgres.processingRow]
      split_ifs <;> exact hlive
    have hid2 : (Postgres.completeRow env.now ethTransferID ""
        (Postgres.processingRow env.now ethTransferID
          (Postgres.GetQueuedTransfersFor w.transfers ethTransferID)[i])).ID
        = (Postgres.GetQueuedTransfersFor w.transfers ethTransferID)[i].ID := by
      simp only [Postgres.completeRow, Postgres.processingRow]
      split_ifs <;> rfl
    unfold Postgres.updateRow
    rw [if_pos ⟨hid2, hlive2⟩]
    simp [hr, hs, Except.toOption]
  · intro r1 hr1 hid1 hlive1
    obtain ⟨r, hrmem, rfl⟩ := List.mem_map.mp hr1
    rw [completedRow_ID] at hid1
    rw [completedRow_DeletedAt] at hlive1
    unfold completedRow
    rw [foldl_updateRow_of_no_match]
    · simp [Postgres.completeRow, Postgres.processingRow, hid1, hlive1]
    · intro t ht hc
      have hidt : t.ID ∈ (broadcastRows env w.calls.length
          (Postgres.GetQueuedTransfersFor w.transfers ethTransferID)).map fun t => t.ID :=
        List.mem_map_of_mem (fun t => t.ID) ht
      rw [broadcastRows_map_ID] at hidt
      obtain ⟨d, hd, hde⟩ := List.mem_map.mp hidt
      apply hself d hd
      rw [hde, ← hc]
      simp only [Postgres.completeRow, Postgres.processingRow]
      split_ifs <;> exact hid1

/-- C9 (witness): in `sampleQueuedWorld` the hypotheses hold, and the run sends `0xraw5`
(nonce 5) before `0xraw6` (nonce 6). -/
theorem C9_witness_sample_batch :
    ∃ w1 batch, Manager.CompleteTransfers sampleEnv sampleQueuedWorld "e1" = (w1, .ok ())
      ∧ batch = Postgres.GetQueuedTransfersFor sampleQueuedWorld.transfers "e1"
      ∧ batch.Perm (sampleQueuedWorld.transfers.filter (Postgres.queuedFor "e1"))
      ∧ batch.Sorted (fun a b => a.Nonce ≤ b.Nonce)
      ∧ w1.calls = sampleQueuedWorld.calls
          ++ batch.map (fun d => Call.sendRawTransaction (d.RawTx.getD ""))
      ∧ (∀ (i : Nat) (hi : i < batch.length), ∃ rawTx txHash,
          batch[i].RawTx = some rawTx
          ∧ sampleEnv.sendRawTransaction (sampleQueuedWorld.calls.length + i) rawTx = .ok txHash
          ∧ (∃ r1 ∈ w1.transfers, r1.ID = batch[i].ID)
          ∧ ∀ r1 ∈ w1.transfers, r1.ID = batch[i].ID →
              r1.Status = TransferStatus.pending ∧ r1.TxHash = some txHash)
      ∧ (∀ r1 ∈ w1.transfers, r1.ID = "e1" → r1.DeletedAt = none →
          r1.Status = TransferStatus.completed) :=
  C9_CompleteTransfers_broadcasts_in_nonce_order sampleEnv sampleQueuedWorld "e1" 100000000
    (by decide) (by decide) (by decide) (by decide) rfl (by decide) (fun _ _ => ⟨_, rfl⟩)

/-- C10 (witness): the first run on `sampleQueuedWorld` succeeds, and a second run on the
world it leaves fails on the empty queued set without changing that world. -/
theorem C10_witness_sample_second_run :
    (Manager.CompleteTransfers sampleEnv sampleQueuedWorld "e1").2 = .ok ()
      ∧ Manager.CompleteTransfers sampleEnv
          (Manager.CompleteTransfers sampleEnv sampleQueuedWorld "e1").1 "e1"
        = ((Manager.CompleteTransfers sampleEnv sampleQueuedWorld "e1").1,
           .error "empty transfers array received from the db") :=
  ⟨rfl, C10_CompleteTransfers_second_run_is_noop sampleEnv sampleEnv sampleQueuedWorld _ "e1" rfl⟩

/-! ### `ConfirmTransfer`: failing the submitted transfers -/

theorem failTransfers_rows (now : Nat) (rows : List Transfer) (ts : List SignedTransaction)
    (msg : String) :
    Manager.failTransfers now rows ts msg = rows.map (failRow now ts msg) := by
  unfold Manager.failTransfers Postgres.WriteTransferError failRow
  exact foldl_map_rows (fun t => Postgres.writeErrorRow now t.ID msg) ts rows

theorem writeErrorRow_stamped (now : Nat) (id msg : String) (r : Transfer)
    (h : r.Message = msg ∧ r.Status = TransferStatus.failed ∧ r.UpdatedAt = some now) :
    Postgres.writeErrorRow now id msg r = r := by
  unfold Postgres.writeErrorRow
  split_ifs
  · obtain ⟨h1, h2, h3⟩ := h
    obtain ⟨⟨rid, rc, ru, rd⟩, rn, re, rt, rr, rs, rm⟩ := r
    simp only at h1 h2 h3
    subst h1 h2 h3
    rfl
  · rfl

theorem failRow_stamped (now : Nat) (ts : List SignedTransaction) (msg : String) (r : Transfer)
    (h : r.Message = msg ∧ r.Status = TransferStatus.failed ∧ r.UpdatedAt = some now) :
    failRow now ts msg r = r := by
  unfold failRow
  induction ts with
  | nil => rfl
  | cons t ts ih => rw [List.foldl_cons, writeErrorRow_stamped now t.ID msg r h, ih]

theorem failRow_of_unselected (now : Nat) (ts : List SignedTransaction) (msg : String)
    (r : Transfer) (h : ¬ (r.DeletedAt = none ∧ ∃ t ∈ ts, t.ID = r.ID)) :
    failRow now ts msg r = r := by
  unfold failRow
  induction ts with
  | nil => rfl
  | cons t ts ih =>
    have h1 : Postgres.writeErrorRow now t.ID msg r = r := by
      unfold Postgres.writeErrorRow
      rw [if_neg]
      exact fun hc => h ⟨hc.2, t, List.mem_cons_self t ts, hc.1.symm⟩
    rw [List.foldl_cons, h1]
    apply ih
    rintro ⟨hl, t1, ht1, hid⟩
    exact h ⟨hl, t1, List.mem_cons_of_mem t ht1, hid⟩

theorem failRow_of_selected (now : Nat) (ts : List SignedTransaction) (msg : String)
    (r : Transfer) (hlive : r.DeletedAt = none) (h : ∃ t ∈ ts, t.ID = r.ID) :
    failRow now ts msg r
      = { r with Message := msg, Status := TransferStatus.failed, UpdatedAt := some now } := by
  induction ts with
  | nil => simp at h
  | cons t ts ih =>
    by_cases hid : t.ID = r.ID
    · have h1 : Postgres.writeErrorRow now t.ID msg r
          = { r with Message := msg, Status := TransferStatus.failed, UpdatedAt := some now } := by
        unfold Postgres.writeErrorRow
        rw [if_pos ⟨hid.symm, hlive⟩]
      have h2 := failRow_stamped now ts msg
        { r with Message := msg, Status := TransferStatus.failed, UpdatedAt := some now }
        ⟨rfl, rfl, rfl⟩
      unfold failRow at h2 ⊢
      rw [List.foldl_cons, h1, h2]
    · have h1 : Postgres.writeErrorRow now t.ID msg r = r := by
        unfold Postgres.writeErrorRow
        rw [if_neg]
        exact fun hc => hid hc.1.symm
      have h3 : ∃ t1 ∈ ts, t1.ID = r.ID := by
        obtain ⟨t1, ht1, hid1⟩ := h
        rcases List.mem_cons.mp ht1 with hh | hh
        · exact absurd (hh ▸ hid1) hid
        · exact ⟨t1, hh, hid1⟩
      have h2 := ih h3
      unfold failRow at h2 ⊢
      rw [List.foldl_cons, h1, h2]

theorem failRow_ID (now : Nat) (ts : List SignedTransaction) (msg : String) (r : Transfer) :
    (failRow now ts msg r).ID = r.ID := by
  unfold failRow
  induction ts generalizing r with
  | nil => rfl
  | cons t ts ih =>
    rw [List.foldl_cons, ih]
    unfold Postgres.writeErrorRow
    split <;> rfl

/-- C4 (amended): when the account nonce is read and validation fails with message `e`,
`ConfirmTransfer` returns `e`; the call log is unchanged, so nothing is broadcast; the table
is the old one row by row with the same ids, so no row (no top-up) is created; a row that
is soft-deleted or whose id the request does not name is unchanged; and every live row of
the requesting address whose id the request names carries the message `e` and has status
failed. -/
theorem C4_validation_failure_fails_submitted_transfers (cfg : Config) (env : Env) (w : World)
    (transfers : SignedTransfer) (accNonce : Nat) (e : String)
    (hnonce : env.PendingNonceAt transfers.FromAddress = .ok accNonce)
    (hval : transfers.Validate env
      (Manager.nonceValidator w.transfers transfers.FromAddress accNonce) = .error e) :
    Manager.ConfirmTransfer cfg env w transfers
        = ({ transfers := w.transfers.map (failRow env.now transfers.Transactions e),
             calls := w.calls }, .error e)
      ∧ ∀ r : Transfer,
          (failRow env.now transfers.Transactions e r).ID = r.ID
          ∧ (¬ (r.DeletedAt = none ∧ ∃ t ∈ transfers.Transactions, t.ID = r.ID) →
            failRow env.now transfers.Transactions e r = r)
          ∧ (r.DeletedAt = none → (∃ t ∈ transfers.Transactions, t.ID = r.ID) →
            lower r.FromAddress = lower transfers.FromAddress →
            (failRow env.now transfers.Transactions e r).Message = e
              ∧ (failRow env.now transfers.Transactions e r).Status = TransferStatus.failed) := by
  constructor
  · unfold Manager.ConfirmTransfer
    simp only [hnonce, hval, failTransfers_rows]
  · intro r
    refine ⟨failRow_ID env.now _ e r, failRow_of_unselected env.now _ e r, ?_⟩
    intro hlive hsel _
    rw [failRow_of_selected env.now _ e r hlive hsel]
    exact ⟨rfl, rfl⟩

/-- C4 (witness): the second scenario of the specification. -/
theorem C4_witness_nonce_conflict :
    Manager.ConfirmTransfer sampleConfig sampleEnv sampleConflictWorld sampleRequest
        = ({ transfers := sampleConflictWorld.transfers.map
              (failRow sampleEnv.now sampleRequest.Transactions
                "invalid nonce is provided: nonce is already used by queued or pending transfer, you need to create a new transfer"),
             calls := sampleConflictWorld.calls },
           .error "invalid nonce is provided: nonce is already used by queued or pending transfer, you need to create a new transfer") :=
  (C4_validation_failure_fails_submitted_transfers sampleConfig sampleEnv sampleConflictWorld
    sampleRequest 5 _ rfl rfl).1

/-- C4 (counterexample): in the second scenario of the specification validation fails on the
used nonce, and the two submitted transfers, new before the call, are failed after it: their
status is not the one they had. -/
theorem C4_counterexample_status_becomes_failed :
    (Manager.ConfirmTransfer sampleConfig sampleEnv sampleConflictWorld sampleRequest).2
        = .error "invalid nonce is provided: nonce is already used by queued or pending transfer, you need to create a new transfer"
      ∧ sampleConflictWorld.transfers.map (fun r => (r.ID, r.Status))
        = [("t0", TransferStatus.pending), ("e1", TransferStatus.pending),
           ("t1", TransferStatus.new), ("t2", TransferStatus.new)]
      ∧ (Manager.ConfirmTransfer sampleConfig sampleEnv sampleConflictWorld
            sampleRequest).1.transfers.map (fun r => (r.ID, r.Status))
        = [("t0", TransferStatus.pending), ("e1", TransferStatus.pending),
           ("t1", TransferStatus.failed), ("t2", TransferStatus.failed)] := by
  refine ⟨rfl, ?_, ?_⟩ <;> decide

/-! ### `ConfirmTransfer`: the successful path -/

theorem confirmRow_ID (id frm : String) (r : Transfer) : (Postgres.confirmRow id frm r).ID = r.ID := by
  unfold Postgres.confirmRow
  split <;> rfl

theorem confirmRow_DeletedAt (id frm : String) (r : Transfer) :
    (Postgres.confirmRow id frm r).DeletedAt = r.DeletedAt := by
  unfold Postgres.confirmRow
  split <;> rfl

theorem confirmRow_ownedBy (id frm id1 frm1 : String) (r : Transfer) :
    Postgres.ownedBy id1 frm1 (Postgres.confirmRow id frm r) ↔ Postgres.ownedBy id1 frm1 r := by
  unfold Postgres.confirmRow Postgres.ownedBy
  split <;> rfl

/-- What `GetAndConfirmTransferByID` returns is a row it has just set to confirming. -/
theorem GetAndConfirmTransferByID_ok (rows : List Transfer) (id frm : String)
    (rows1 : List Transfer) (d : Transfer)
    (h : Postgres.GetAndConfirmTransferByID rows id frm = (rows1, .ok d)) :
    rows1 = rows.map (Postgres.confirmRow id frm) ∧ d ∈ rows1 ∧ Postgres.ownedBy id frm d
      ∧ d.Status = TransferStatus.confirming := by
  unfold Postgres.GetAndConfirmTransferByID at h
  dsimp only at h
  split at h
  · simp at h
  · rename_i r hfind
    simp only [Prod.mk.injEq, Except.ok.injEq] at h
    obtain ⟨h1, h2⟩ := h
    subst h1 h2
    have hmem := List.mem_of_find?_eq_some hfind
    have hown : Postgres.ownedBy id frm r := by
      simpa using List.find?_some hfind
    refine ⟨rfl, hmem, hown, ?_⟩
    obtain ⟨r0, _, hr0⟩ := List.mem_map.mp hmem
    subst hr0
    have h0 : Postgres.ownedBy id frm r0 := (confirmRow_ownedBy id frm id frm r0).mp hown
    unfold Postgres.confirmRow
    rw [if_pos h0]

/-- The guard of `ConfirmTransfer` against double confirmation reads the status after the
row has been set to confirming, so `IsProcessing` is false on every row it reads. -/
theorem GetAndConfirmTransferByID_not_IsProcessing (rows : List Transfer) (id frm : String)
    (rows1 : List Transfer) (d : Transfer)
    (h : Postgres.GetAndConfirmTransferByID rows id frm = (rows1, .ok d)) :
    d.IsProcessing = false := by
  have := (GetAndConfirmTransferByID_ok rows id frm rows1 d h).2.2.2
  simp [Transfer.IsProcessing, this]

theorem confirmEach_pair_ok (frm : String) (rows : List Transfer) (t1 t2 : SignedTransaction)
    (rows2 dbs : List Transfer) (fee : Int)
    (h : Manager.confirmEach frm rows [t1, t2] [] 0 = (rows2, .ok (dbs, fee))) :
    ∃ d1 d2 : Transfer,
      rows2 = (rows.map (Postgres.confirmRow t1.ID frm)).map (Postgres.confirmRow t2.ID frm)
      ∧ d1 ∈ rows.map (Postgres.confirmRow t1.ID frm) ∧ Postgres.ownedBy t1.ID frm d1
      ∧ d2 ∈ rows2 ∧ Postgres.ownedBy t2.ID frm d2
      ∧ dbs = [{ d1 with RawTx := some t1.RawTx, Status := TransferStatus.queued },
               { d2 with RawTx := some t2.RawTx, Status := TransferStatus.queued }]
      ∧ fee = CalcGasCost d1.GasLimit d1.GasPrice + CalcGasCost d2.GasLimit d2.GasPrice := by
  unfold Manager.confirmEach at h
  split at h
  · simp at h
  · rename_i rowsA d1 hg1
    obtain ⟨hA, hd1, hown1, _⟩ := GetAndConfirmTransferByID_ok _ _ _ _ _ hg1
    rw [GetAndConfirmTransferByID_not_IsProcessing _ _ _ _ _ hg1] at h
    simp only [Bool.false_eq_true, if_false] at h
    unfold Manager.confirmEach at h
    split at h
    · simp at h
    · rename_i rowsB d2 hg2
      obtain ⟨hB, hd2, hown2, _⟩ := GetAndConfirmTransferByID_ok _ _ _ _ _ hg2
      rw [GetAndConfirmTransferByID_not_IsProcessing _ _ _ _ _ hg2] at h
      simp only [Bool.false_eq_true, if_false] at h
      unfold Manager.confirmEach at h
      simp only [Prod.mk.injEq, Except.ok.injEq, List.nil_append, List.cons_append,
        zero_add] at h
      obtain ⟨h1, h2, h3⟩ := h
      subst hA
      refine ⟨d1, d2, ?_, hd1, hown1, ?_, hown2, h2.symm, h3.symm⟩
      · rw [← h1, hB]
      · rw [← h1]
        exact hd2

theorem topUpEthBalance_ok (cfg : Config) (env : Env) (w w2 : World) (toAddress : String)
    (amount : Int) (e : Transfer)
    (h : Manager.topUpEthBalance cfg env w toAddress amount = (w2, .ok e)) :
    ∃ (bank : String) (nonce gasPrice : Nat) (txHash : String),
      env.bankAddressOf cfg.BankPrivateKey = .ok bank
      ∧ w2.calls = w.calls ++ [Call.SendTransaction txHash toAddress amount]
      ∧ w2.transfers = w.transfers ++ [topUpRow env bank nonce gasPrice txHash]
      ∧ e.ID = env.uuid 0 := by
  unfold Manager.topUpEthBalance at h
  split at h
  · simp at h
  · rename_i bank hbank
    split at h
    · simp at h
    · rename_i nonce _
      split at h
      · simp at h
      · rename_i gasPrice _
        dsimp only at h
        split at h
        · simp at h
        · split at h
          · simp at h
          · split at h
            · simp at h
            · split at h
              · simp at h
              · rename_i txHash _
                split at h
                · simp at h
                · simp only [Postgres.CreateEthTransfer, Prod.mk.injEq, Except.ok.injEq] at h
                  obtain ⟨h1, h2⟩ := h
                  subst h1 h2
                  exact ⟨bank, nonce, gasPrice, txHash, hbank, rfl, rfl, rfl⟩

/-- What a successful `ConfirmTransfer` has done. -/
theorem ConfirmTransfer_ok (cfg : Config) (env : Env) (w w1 : World) (transfers : SignedTransfer)
    (result : List QueuedTransaction)
    (h : Manager.ConfirmTransfer cfg env w transfers = (w1, .ok result)) :
    ∃ (t1 t2 : SignedTransaction) (d1 d2 : Transfer) (bank : String) (nonce gasPrice : Nat)
        (txHash : String),
      transfers.Transactions = [t1, t2]
      ∧ d1 ∈ w.transfers.map (Postgres.confirmRow t1.ID transfers.FromAddress)
      ∧ Postgres.ownedBy t1.ID transfers.FromAddress d1
      ∧ d2 ∈ (w.transfers.map (Postgres.confirmRow t1.ID transfers.FromAddress)).map
          (Postgres.confirmRow t2.ID transfers.FromAddress)
      ∧ Postgres.ownedBy t2.ID transfers.FromAddress d2
      ∧ env.bankAddressOf cfg.BankPrivateKey = .ok bank
      ∧ w1.calls = w.calls ++ [Call.SendTransaction txHash transfers.FromAddress
          (CalcGasCost d1.GasLimit d1.GasPrice + CalcGasCost d2.GasLimit d2.GasPrice)]
      ∧ w1.transfers
          = (((w.transfers.map (Postgres.confirmRow t1.ID transfers.FromAddress)).map
                (Postgres.confirmRow t2.ID transfers.FromAddress))
              ++ [topUpRow env bank nonce gasPrice txHash]).map
            (fun r => Postgres.updateRow env.now (queuedUpdate d2 t2.RawTx (env.uuid 0))
              (Postgres.updateRow env.now (queuedUpdate d1 t1.RawTx (env.uuid 0)) r))
      ∧ result = [{ ID := t1.ID, Status := TransferStatus.queued },
                  { ID := t2.ID, Status := TransferStatus.queued }] := by
  unfold Manager.ConfirmTransfer at h
  split at h
  · simp at h
  · rename_i accNonce _
    split at h
    · simp at h
    · rename_i hval
      have hlen : transfers.Transactions.length = 2 := by
        unfold SignedTransfer.Validate at hval
        by_contra hc
        rw [if_pos hc] at hval
        simp at hval
      obtain ⟨t1, t2, hts⟩ := List.length_eq_two.mp hlen
      rw [hts] at h
      split at h
      · simp at h
      · rename_i rows1 dbs fee hloop
        obtain ⟨d1, d2, hrows1, hd1, hown1, hd2, hown2, hdbs, hfee⟩ :=
          confirmEach_pair_ok _ _ _ _ _ _ _ hloop
        split at h
        · simp at h
        · rename_i w2 e htop
          obtain ⟨bank, nonce, gasPrice, txHash, hbank, hcalls, hrows2, heid⟩ :=
            topUpEthBalance_ok _ _ _ _ _ _ _ htop
          simp only [Prod.mk.injEq, Except.ok.injEq] at h
          obtain ⟨h1, h2⟩ := h
          refine ⟨t1, t2, d1, d2, bank, nonce, gasPrice, txHash, hts, hd1, hown1, ?_, hown2, hbank,
            ?_, ?_, ?_⟩
          · rw [← hrows1]
            exact hd2
          · rw [← h1, ← hfee]
            exact hcalls
          · rw [← h1]
            dsimp only
            rw [UpdateTransfers_rows, hrows2, hdbs, heid]
            dsimp only
            rw [hrows1]
            simp only [List.map_cons, List.map_nil, List.foldl_cons, List.foldl_nil, queuedUpdate]
          · rw [← h2, hdbs]
            simp only [Postgres.UpdateTransfers, List.map_cons, List.map_nil, List.map_map]
            have e1 := hown1.1
            have e2 := hown2.1
            simp [e1, e2]

theorem updateRow_of_selected (now : Nat) (t r : Transfer) (hid : r.ID = t.ID)
    (hlive : r.DeletedAt = none) :
    (Postgres.updateRow now t r).Status = t.Status
      ∧ (Postgres.updateRow now t r).RawTx = t.RawTx
      ∧ (Postgres.updateRow now t r).EthTransferID = t.EthTransferID
      ∧ (Postgres.updateRow now t r).TxHash = t.TxHash := by
  unfold Postgres.updateRow
  rw [if_pos ⟨hid, hlive⟩]
  exact ⟨rfl, rfl, rfl, rfl⟩

theorem updateRow_of_other_id (now : Nat) (t r : Transfer) (hid : r.ID ≠ t.ID) :
    Postgres.updateRow now t r = r := by
  unfold Postgres.updateRow
  rw [if_neg]
  exact fun hc => hid hc.1

/-- C7: when the fresh id `env.uuid 0` is not yet in the table and `ConfirmTransfer`
succeeds, the request has two items `t1`, `t2`; the result lists their ids in that order,
each with status queued; the table is the old rows (same ids, same order) followed by
exactly one new row, an `ethtopup` with the fresh id and status pending; a live row exists
for each submitted id; and every live row with a submitted id has status queued, the link
to that top-up, and the raw transaction submitted under its id (for `t1` when the two ids
differ; when they coincide the row keeps the raw transaction of `t2`, submitted last). -/
theorem C7_ConfirmTransfer_success_queues_both (cfg : Config) (env : Env) (w w1 : World)
    (transfers : SignedTransfer) (result : List QueuedTransaction)
    (hfresh : ∀ r ∈ w.transfers, r.ID ≠ env.uuid 0)
    (h : Manager.ConfirmTransfer cfg env w transfers = (w1, .ok result)) :
    ∃ (t1 t2 : SignedTransaction) (rows2 : List Transfer) (topUp : Transfer),
      transfers.Transactions = [t1, t2]
      ∧ result = [{ ID := t1.ID, Status := TransferStatus.queued },
                  { ID := t2.ID, Status := TransferStatus.queued }]
      ∧ w1.transfers = rows2 ++ [topUp]
      ∧ rows2.map (fun r => r.ID) = w.transfers.map (fun r => r.ID)
      ∧ topUp.ID = env.uuid 0
      ∧ topUp.TransferType = TransferType.EthTopUp
      ∧ topUp.Status = TransferStatus.pending
      ∧ (∃ r ∈ w1.transfers, r.ID = t1.ID ∧ r.DeletedAt = none)
      ∧ (∃ r ∈ w1.transfers, r.ID = t2.ID ∧ r.DeletedAt = none)
      ∧ (∀ r ∈ w1.transfers, r.ID = t1.ID → r.DeletedAt = none →
          r.Status = TransferStatus.queued ∧ r.EthTransferID = some topUp.ID
            ∧ (t1.ID ≠ t2.ID → r.RawTx = some t1.RawTx))
      ∧ (∀ r ∈ w1.transfers, r.ID = t2.ID → r.DeletedAt = none →
          r.Status = TransferStatus.queued ∧ r.EthTransferID = some topUp.ID
            ∧ r.RawTx = some t2.RawTx) := by
  obtain ⟨t1, t2, d1, d2, bank, nonce, gasPrice, txHash, hts, hd1, hown1, hd2, hown2, _, _,
    hrows, hres⟩ := ConfirmTransfer_ok cfg env w w1 transfers result h
  -- the ids of the rows read are ids of the old table, hence differ from the fresh id
  have hid1 : d1.ID = t1.ID := hown1.1
  have hid2 : d2.ID = t2.ID := hown2.1
  have hold1 : t1.ID ≠ env.uuid 0 := by
    obtain ⟨r0, hr0, hr0e⟩ := List.mem_map.mp hd1
    have := hfresh r0 hr0
    rw [← hid1, ← hr0e, confirmRow_ID]
    exact this
  have hold2 : t2.ID ≠ env.uuid 0 := by
    obtain ⟨ra, hra, hrae⟩ := List.mem_map.mp hd2
    obtain ⟨r0, hr0, hr0e⟩ := List.mem_map.mp hra
    have := hfresh r0 hr0
    rw [← hid2, ← hrae, confirmRow_ID, ← hr0e, confirmRow_ID]
    exact this
  have hq1 : (queuedUpdate d1 t1.RawTx (env.uuid 0)).ID = t1.ID := hid1
  have hq2 : (queuedUpdate d2 t2.RawTx (env.uuid 0)).ID = t2.ID := hid2
  have htop : Postgres.updateRow env.now (queuedUpdate d2 t2.RawTx (env.uuid 0))
      (Postgres.updateRow env.now (queuedUpdate d1 t1.RawTx (env.uuid 0))
        (topUpRow env bank nonce gasPrice txHash)) = topUpRow env bank nonce gasPrice txHash := by
    rw [updateRow_of_other_id env.now _ (topUpRow env bank nonce gasPrice txHash)
      (by rw [hq1]; exact fun hc => hold1 hc.symm)]
    exact updateRow_of_other_id env.now _ _ (by rw [hq2]; exact fun hc => hold2 hc.symm)
  rw [List.map_append, List.map_cons, List.map_nil, htop] at hrows
  -- every live row with a submitted id, after the two statements
  have key : ∀ r ∈ w1.transfers, r.DeletedAt = none →
      (r.ID = t2.ID → r.Status = TransferStatus.queued ∧ r.EthTransferID = some (env.uuid 0)
        ∧ r.RawTx = some t2.RawTx)
      ∧ (r.ID = t1.ID → r.Status = TransferStatus.queued ∧ r.EthTransferID = some (env.uuid 0)
        ∧ (t1.ID ≠ t2.ID → r.RawTx = some t1.RawTx)) := by
    intro r hr hlive
    rw [hrows] at hr
    rcases List.mem_append.mp hr with hr | hr
    · obtain ⟨x, _, hx⟩ := List.mem_map.mp hr
      subst hx
      have hxlive : x.DeletedAt = none := by
        rw [updateRow_DeletedAt, updateRow_DeletedAt] at hlive
        exact hlive
      have hx1live : (Postgres.updateRow env.now (queuedUpdate d1 t1.RawTx (env.uuid 0)) x).DeletedAt
          = none := by
        rw [updateRow_DeletedAt]
        exact hxlive
      constructor
      · intro hid
        rw [updateRow_ID, updateRow_ID] at hid
        have hsel := updateRow_of_selected env.now (queuedUpdate d2 t2.RawTx (env.uuid 0))
          (Postgres.updateRow env.now (queuedUpdate d1 t1.RawTx (env.uuid 0)) x)
          (by rw [updateRow_ID, hq2]; exact hid) hx1live
        exact ⟨hsel.1, hsel.2.2.1, hsel.2.1⟩
      · intro hid
        rw [updateRow_ID, updateRow_ID] at hid
        have hsel1 := updateRow_of_selected env.now (queuedUpdate d1 t1.RawTx (env.uuid 0)) x
          (by rw [hq1]; exact hid) hxlive
        by_cases hsame : t1.ID = t2.ID
        · have hsel := updateRow_of_selected env.now (queuedUpdate d2 t2.RawTx (env.uuid 0))
            (Postgres.updateRow env.now (queuedUpdate d1 t1.RawTx (env.uuid 0)) x)
            (by rw [updateRow_ID, hq2, hid]; exact hsame) hx1live
          exact ⟨hsel.1, hsel.2.2.1, fun hc => absurd hsame hc⟩
        · rw [updateRow_of_other_id env.now (queuedUpdate d2 t2.RawTx (env.uuid 0)) _
            (by rw [updateRow_ID, hq2, hid]; exact hsame)]
          exact ⟨hsel1.1, hsel1.2.2.1, fun _ => hsel1.2.1⟩
    · rw [List.mem_singleton] at hr
      subst hr
      exact ⟨fun hid => absurd hid.symm hold2, fun hid => absurd hid.symm hold1⟩
  refine ⟨t1, t2, _, topUpRow env bank nonce gasPrice txHash, hts, hres, hrows, ?_, rfl, rfl, rfl,
    ?_, ?_, ?_, ?_⟩
  · simp only [List.map_map, Function.comp_def, updateRow_ID, confirmRow_ID]
  · obtain ⟨r0, hr0, hr0e⟩ := List.mem_map.mp hd1
    refine ⟨Postgres.updateRow env.now (queuedUpdate d2 t2.RawTx (env.uuid 0))
      (Postgres.updateRow env.now (queuedUpdate d1 t1.RawTx (env.uuid 0))
        (Postgres.confirmRow t2.ID transfers.FromAddress d1)), ?_, ?_, ?_⟩
    · rw [hrows]
      apply List.mem_append_left
      exact List.mem_map_of_mem _ (List.mem_map_of_mem _ hd1)
    · rw [updateRow_ID, updateRow_ID, confirmRow_ID]
      exact hid1
    · rw [updateRow_DeletedAt, updateRow_DeletedAt, confirmRow_DeletedAt]
      exact hown1.2.2
  · refine ⟨Postgres.updateRow env.now (queuedUpdate d2 t2.RawTx (env.uuid 0))
      (Postgres.updateRow env.now (queuedUpdate d1 t1.RawTx (env.uuid 0)) d2), ?_, ?_, ?_⟩
    · rw [hrows]
      apply List.mem_append_left
      exact List.mem_map_of_mem _ hd2
    · rw [updateRow_ID, updateRow_ID]
      exact hid2
    · rw [updateRow_DeletedAt, updateRow_DeletedAt]
      exact hown2.2.2
  · intro r hr hid hlive
    exact (key r hr hlive).2 hid
  · intro r hr hid hlive
    exact (key r hr hlive).1 hid

/-- C7 (witness): on `sampleNewWorld` the fresh id `e2` is not in the table, the call
succeeds, and the world it leaves is `sampleConfirmedWorld`. -/
theorem C7_witness_sample_confirmation :
    Manager.ConfirmTransfer sampleConfig sampleEnv sampleNewWorld sampleRequest
        = (sampleConfirmedWorld,
           .ok [{ ID := "t1", Status := TransferStatus.queued },
                { ID := "t2", Status := TransferStatus.queued }])
      ∧ ∃ (t1 t2 : SignedTransaction) (rows2 : List Transfer) (topUp : Transfer),
          sampleRequest.Transactions = [t1, t2]
          ∧ sampleConfirmedWorld.transfers = rows2 ++ [topUp]
          ∧ topUp.ID = "e2"
          ∧ ∀ r ∈ sampleConfirmedWorld.transfers, r.ID = t2.ID → r.DeletedAt = none →
              r.Status = TransferStatus.queued ∧ r.EthTransferID = some topUp.ID
                ∧ r.RawTx = some t2.RawTx := by
  have h : Manager.ConfirmTransfer sampleConfig sampleEnv sampleNewWorld sampleRequest
      = (sampleConfirmedWorld,
         .ok [{ ID := "t1", Status := TransferStatus.queued },
              { ID := "t2", Status := TransferStatus.queued }]) := rfl
  obtain ⟨t1, t2, rows2, topUp, h1, _, h3, _, h5, _, _, _, _, _, h11⟩ :=
    C7_ConfirmTransfer_success_queues_both sampleConfig sampleEnv sampleNewWorld
      sampleConfirmedWorld sampleRequest _ (by decide) h
  exact ⟨h, t1, t2, rows2, topUp, h1, h3, h5, h11⟩

/-- C5 (evaluation at the failing input): the pair `t1`, `t2` is already queued under the
top-up `e1`; a second confirmation whose raw transactions carry unused nonces passes
validation and is not rejected: the bank sends a second top-up, and both transfers are
queued again under the new top-up `e2`. -/
theorem C5_double_confirmation_is_accepted :
    sampleQueuedWorld.transfers.map (fun r => (r.ID, r.Status, r.EthTransferID))
        = [("t2", TransferStatus.queued, some "e1"), ("t1", TransferStatus.queued, some "e1"),
           ("e1", TransferStatus.pending, none)]
      ∧ (Manager.ConfirmTransfer sampleConfig sampleEnv sampleQueuedWorld
            sampleReconfirmRequest).2
          = .ok [{ ID := "t1", Status := TransferStatus.queued },
                 { ID := "t2", Status := TransferStatus.queued }]
      ∧ (Manager.ConfirmTransfer sampleConfig sampleEnv sampleQueuedWorld
            sampleReconfirmRequest).1.calls
          = [Call.SendTransaction "0xtopup" "0xa1" 1600000]
      ∧ (Manager.ConfirmTransfer sampleConfig sampleEnv sampleQueuedWorld
            sampleReconfirmRequest).1.transfers.map (fun r => (r.ID, r.Status, r.EthTransferID))
          = [("t2", TransferStatus.queued, some "e2"), ("t1", TransferStatus.queued, some "e2"),
             ("e1", TransferStatus.pending, none), ("e2", TransferStatus.pending, none)] := by
  refine ⟨by decide, rfl, by decide, by decide⟩

/-- C6 (evaluation at the failing input): the request names the new transfer `t1` and an id
without a row; validation succeeds, the second lookup fails, and `ConfirmTransfer` returns
that error leaving `t1` in status confirming with an empty message. -/
theorem C6_lookup_failure_leaves_no_message :
    sampleMissingRequest.Validate sampleEnv
        (Manager.nonceValidator sampleNewWorld.transfers sampleMissingRequest.FromAddress 5)
        = .ok ()
      ∧ (Manager.ConfirmTransfer sampleConfig sampleEnv sampleNewWorld sampleMissingRequest).2
          = .error "failed to get a db transfer: failed to select a transfer by id: sql: no rows in result set"
      ∧ (Manager.ConfirmTransfer sampleConfig sampleEnv sampleNewWorld
            sampleMissingRequest).1.transfers.map (fun r => (r.ID, r.Status, r.Message))
          = [("t1", TransferStatus.confirming, ""), ("t2", TransferStatus.new, "")] := by
  refine ⟨rfl, rfl, by decide⟩

/-! ### The link invariant of the reachable tables -/

theorem isTopUpId_map (f : Transfer → Transfer) (hID : ∀ r, (f r).ID = r.ID)
    (hTy : ∀ r, (f r).TransferType = r.TransferType) (rows : List Transfer) (x : Option String)
    (h : isTopUpId rows x) : isTopUpId (rows.map f) x := by
  obtain ⟨e, he, hx, hty⟩ := h
  exact ⟨f e, List.mem_map_of_mem f he, by rw [hID]; exact hx, by rw [hTy]; exact hty⟩

theorem isTopUpId_append (rows more : List Transfer) (x : Option String)
    (h : isTopUpId rows x) : isTopUpId (rows ++ more) x := by
  obtain ⟨e, he, hx, hty⟩ := h
  exact ⟨e, List.mem_append_left more he, hx, hty⟩

/-- A row-by-row update that keeps id, type and sender, and that leaves every row it makes
link-bound either bound before with the same link or linked to a top-up of the table,
preserves the link invariant. -/
theorem linkInvariant_map (bank : String) (rows : List Transfer) (f : Transfer → Transfer)
    (hID : ∀ r, (f r).ID = r.ID) (hTy : ∀ r, (f r).TransferType = r.TransferType)
    (hFrom : ∀ r, (f r).FromAddress = r.FromAddress)
    (hlink : ∀ r ∈ rows, mustLink (f r) →
      (mustLink r ∧ (f r).EthTransferID = r.EthTransferID) ∨ isTopUpId rows (f r).EthTransferID)
    (h : linkInvariant bank rows) : linkInvariant bank (rows.map f) := by
  obtain ⟨h1, h2, h3, h4⟩ := h
  refine ⟨?_, ?_, ?_, ?_⟩
  · rw [List.map_map]
    have : ((fun r : Transfer => r.ID) ∘ f) = fun r => r.ID := funext fun r => hID r
    rw [this]
    exact h1
  · intro r hr
    obtain ⟨r0, hr0, rfl⟩ := List.mem_map.mp hr
    rw [hID]
    exact h2 r0 hr0
  · intro r hr hm
    obtain ⟨r0, hr0, rfl⟩ := List.mem_map.mp hr
    apply isTopUpId_map f hID hTy
    rcases hlink r0 hr0 hm with ⟨hm0, he⟩ | ht
    · rw [he]
      exact h3 r0 hr0 hm0
    · exact ht
  · intro e he hty
    obtain ⟨e0, he0, rfl⟩ := List.mem_map.mp he
    rw [hFrom]
    rw [hTy] at hty
    exact h4 e0 he0 hty

theorem linkInvariant_WriteTransferError (bank : String) (now : Nat) (rows : List Transfer)
    (id msg : String) (h : linkInvariant bank rows) :
    linkInvariant bank (Postgres.WriteTransferError now rows id msg) := by
  unfold Postgres.WriteTransferError
  refine linkInvariant_map bank rows _ ?_ ?_ ?_ ?_ h
  · intro r; unfold Postgres.writeErrorRow; split <;> rfl
  · intro r; unfold Postgres.writeErrorRow; split <;> rfl
  · intro r; unfold Postgres.writeErrorRow; split <;> rfl
  · intro r _ hm
    left
    unfold Postgres.writeErrorRow at hm ⊢
    split at hm
    · refine ⟨?_, by rw [if_pos ‹_›]⟩
      simp only [mustLink] at hm ⊢
      rcases hm with hm | ⟨ht, hm⟩
      · exact absurd hm (by decide)
      · rcases hm with hm | hm | hm
        · exact absurd hm (by decide)
        · exact absurd hm (by decide)
        · exact Or.inr ⟨ht, Or.inr (Or.inr hm)⟩
    · exact ⟨hm, by rw [if_neg ‹_›]⟩

theorem linkInvariant_failTransfers (bank : String) (now : Nat) (ts : List SignedTransaction)
    (msg : String) (rows : List Transfer) (h : linkInvariant bank rows) :
    linkInvariant bank (Manager.failTransfers now rows ts msg) := by
  unfold Manager.failTransfers
  induction ts generalizing rows with
  | nil => exact h
  | cons t ts ih =>
    rw [List.foldl_cons]
    exact ih _ (linkInvariant_WriteTransferError bank now rows t.ID msg h)

theorem linkInvariant_stampTransfers (bank : String) (now : Nat) (ds : List Transfer)
    (msg : String) (rows : List Transfer) (h : linkInvariant bank rows) :
    linkInvariant bank (Manager.stampTransfers now rows ds msg) := by
  unfold Manager.stampTransfers
  induction ds generalizing rows with
  | nil => exact h
  | cons t ts ih =>
    rw [List.foldl_cons]
    exact ih _ (linkInvariant_WriteTransferError bank now rows t.ID msg h)

theorem linkInvariant_confirmRow (bank : String) (rows : List Transfer) (id frm : String)
    (h : linkInvariant bank rows) : linkInvariant bank (rows.map (Postgres.confirmRow id frm)) := by
  refine linkInvariant_map bank rows _ ?_ ?_ ?_ ?_ h
  · intro r; unfold Postgres.confirmRow; split <;> rfl
  · intro r; unfold Postgres.confirmRow; split <;> rfl
  · intro r; unfold Postgres.confirmRow; split <;> rfl
  · intro r _ hm
    left
    unfold Postgres.confirmRow at hm ⊢
    split at hm
    · refine ⟨?_, by rw [if_pos ‹_›]⟩
      simp only [mustLink] at hm ⊢
      rcases hm with hm | ⟨ht, hm⟩
      · exact absurd hm (by decide)
      · rcases hm with hm | hm | hm
        · exact absurd hm (by decide)
        · exact absurd hm (by decide)
        · exact Or.inr ⟨ht, Or.inr (Or.inr hm)⟩
    · exact ⟨hm, by rw [if_neg ‹_›]⟩

theorem linkInvariant_StartEthTransferProcessing (bank : String) (now : Nat)
    (rows : List Transfer) (id : String) (h : linkInvariant bank rows) :
    linkInvariant bank (Postgres.StartEthTransferProcessing now rows id) := by
  unfold Postgres.StartEthTransferProcessing
  refine linkInvariant_map bank rows _ ?_ ?_ ?_ ?_ h
  · intro r; unfold Postgres.processingRow; split <;> rfl
  · intro r; unfold Postgres.processingRow; split <;> rfl
  · intro r; unfold Postgres.processingRow; split <;> rfl
  · intro r _ hm
    left
    unfold Postgres.processingRow at hm ⊢
    split at hm
    · refine ⟨?_, by rw [if_pos ‹_›]⟩
      simp only [mustLink] at hm ⊢
      rcases hm with hm | ⟨ht, hm⟩
      · exact absurd hm (by decide)
      · rcases hm with hm | hm | hm
        · exact absurd hm (by decide)
        · exact absurd hm (by decide)
        · exact Or.inr ⟨ht, Or.inr (Or.inr hm)⟩
    · exact ⟨hm, by rw [if_neg ‹_›]⟩

theorem linkInvariant_ClearUnsignedTransfers (bank : String) (now : Nat) (rows : List Transfer)
    (address : String) (h : linkInvariant bank rows) :
    linkInvariant bank (Postgres.ClearUnsignedTransfers now rows address) := by
  unfold Postgres.ClearUnsignedTransfers
  refine linkInvariant_map bank rows _ ?_ ?_ ?_ ?_ h
  · intro r; unfold Postgres.clearRow; split <;> rfl
  · intro r; unfold Postgres.clearRow; split <;> rfl
  · intro r; unfold Postgres.clearRow; split <;> rfl
  · intro r _ hm
    left
    unfold Postgres.clearRow at hm ⊢
    split at hm
    · exact ⟨hm, by rw [if_pos ‹_›]⟩
    · exact ⟨hm, by rw [if_neg ‹_›]⟩

theorem linkInvariant_failLinked (bank : String) (now : Nat) (rows : List Transfer)
    (id msg : String) (h : linkInvariant bank rows) :
    linkInvariant bank (rows.map (Postgres.failLinkedRow now id msg)) := by
  refine linkInvariant_map bank rows _ ?_ ?_ ?_ ?_ h
  · intro r; unfold Postgres.failLinkedRow; split <;> rfl
  · intro r; unfold Postgres.failLinkedRow; split <;> rfl
  · intro r; unfold Postgres.failLinkedRow; split <;> rfl
  · intro r _ hm
    left
    unfold Postgres.failLinkedRow at hm ⊢
    split at hm
    · refine ⟨?_, by rw [if_pos ‹_›]⟩
      simp only [mustLink] at hm ⊢
      rcases hm with hm | ⟨ht, hm⟩
      · exact absurd hm (by decide)
      · rcases hm with hm | hm | hm
        · exact absurd hm (by decide)
        · exact absurd hm (by decide)
        · exact Or.inr ⟨ht, Or.inr (Or.inr hm)⟩
    · exact ⟨hm, by rw [if_neg ‹_›]⟩

/-- `CompleteTransfer(id, hash)` preserves the link invariant when the rows with id `id` are
top-ups: the other rows it completes have a transaction hash, hence a link. -/
theorem linkInvariant_CompleteTransfer (bank : String) (now : Nat) (rows : List Transfer)
    (id hash : String) (hid : ∀ r ∈ rows, r.ID = id → r.TransferType = TransferType.EthTopUp)
    (h : linkInvariant bank rows) :
    linkInvariant bank (Postgres.CompleteTransfer now rows id hash) := by
  unfold Postgres.CompleteTransfer
  refine linkInvariant_map bank rows _ ?_ ?_ ?_ ?_ h
  · intro r; unfold Postgres.completeRow; split <;> rfl
  · intro r; unfold Postgres.completeRow; split <;> rfl
  · intro r; unfold Postgres.completeRow; split <;> rfl
  · intro r hr hm
    left
    unfold Postgres.completeRow at hm ⊢
    split at hm
    · rename_i hsel
      refine ⟨?_, by rw [if_pos hsel]⟩
      simp only [mustLink] at hm ⊢
      rcases hm with hm | ⟨ht, hm⟩
      · exact absurd hm (by decide)
      · rcases hsel.1 with hsel1 | hsel1
        · exact absurd (hid r hr hsel1) ht
        · refine Or.inr ⟨ht, Or.inr (Or.inr ?_)⟩
          intro hnone
          rw [hnone] at hsel1
          simp at hsel1
    · exact ⟨hm, by rw [if_neg ‹_›]⟩

/-- One statement of `UpdateTransfers` preserves the link invariant when the link it writes
is the id of a top-up of the table. -/
theorem linkInvariant_updateTransfer (bank : String) (now : Nat) (rows : List Transfer)
    (t : Transfer) (ht : isTopUpId rows t.EthTransferID) (h : linkInvariant bank rows) :
    linkInvariant bank (Postgres.updateTransfer now rows t) := by
  unfold Postgres.updateTransfer
  refine linkInvariant_map bank rows _ ?_ ?_ ?_ ?_ h
  · intro r; unfold Postgres.updateRow; split <;> rfl
  · intro r; unfold Postgres.updateRow; split <;> rfl
  · intro r; unfold Postgres.updateRow; split <;> rfl
  · intro r _ hm
    unfold Postgres.updateRow at hm ⊢
    split at hm
    · right
      rw [if_pos ‹_›]
      exact ht
    · left
      exact ⟨hm, by rw [if_neg ‹_›]⟩

theorem isTopUpId_updateTransfer (now : Nat) (rows : List Transfer) (t : Transfer)
    (x : Option String) (h : isTopUpId rows x) :
    isTopUpId (Postgres.updateTransfer now rows t) x := by
  unfold Postgres.updateTransfer
  apply isTopUpId_map _ _ _ rows x h
  · intro r; unfold Postgres.updateRow; split <;> rfl
  · intro r; unfold Postgres.updateRow; split <;> rfl

theorem linkInvariant_UpdateTransfers (bank : String) (now : Nat) (ts : List Transfer)
    (rows : List Transfer) (hts : ∀ t ∈ ts, isTopUpId rows t.EthTransferID)
    (h : linkInvariant bank rows) :
    linkInvariant bank (Postgres.UpdateTransfers now rows ts).1 := by
  unfold Postgres.UpdateTransfers
  dsimp only
  induction ts generalizing rows with
  | nil => exact h
  | cons t ts ih =>
    rw [List.foldl_cons]
    apply ih
    · intro t1 ht1
      exact isTopUpId_updateTransfer now rows t _ (hts t1 (List.mem_cons_of_mem t ht1))
    · exact linkInvariant_updateTransfer bank now rows t (hts t (List.mem_cons_self t ts)) h

/-- Inserting a row with a fresh id that is not link-bound, and that is sent by the bank
when it is a top-up, preserves the link invariant. -/
theorem linkInvariant_append_one (bank : String) (rows : List Transfer) (row : Transfer)
    (hfresh : freshId rows row.ID) (hnm : ¬ mustLink row)
    (hb : row.TransferType = TransferType.EthTopUp → row.FromAddress = bank)
    (h : linkInvariant bank rows) : linkInvariant bank (rows ++ [row]) := by
  obtain ⟨h1, h2, h3, h4⟩ := h
  refine ⟨?_, ?_, ?_, ?_⟩
  · rw [List.map_append, List.map_cons, List.map_nil, List.nodup_append]
    refine ⟨h1, List.nodup_singleton _, ?_⟩
    intro x hx hx1
    rw [List.mem_singleton] at hx1
    obtain ⟨r, hr, hrx⟩ := List.mem_map.mp hx
    exact hfresh.2 r hr (hrx.trans hx1)
  · intro r hr
    rcases List.mem_append.mp hr with hr | hr
    · exact h2 r hr
    · rw [List.mem_singleton] at hr
      rw [hr]
      exact hfresh.1
  · intro r hr hm
    rcases List.mem_append.mp hr with hr | hr
    · exact isTopUpId_append rows [row] _ (h3 r hr hm)
    · rw [List.mem_singleton] at hr
      rw [hr] at hm
      exact absurd hm hnm
  · intro e he hty
    rcases List.mem_append.mp he with he | he
    · exact h4 e he hty
    · rw [List.mem_singleton] at he
      rw [he]
      rw [he] at hty
      exact hb hty

theorem linkInvariant_confirmEach (bank : String) (frm : String) (ts : List SignedTransaction)
    (rows dbs : List Transfer) (fee : Int) (h : linkInvariant bank rows) :
    linkInvariant bank (Manager.confirmEach frm rows ts dbs fee).1 := by
  induction ts generalizing rows dbs fee with
  | nil => exact h
  | cons t ts ih =>
    unfold Manager.confirmEach
    have hrows := GetAndConfirmTransferByID_rows rows t.ID frm
    have hinv := linkInvariant_confirmRow bank rows t.ID frm h
    rw [← hrows] at hinv
    split
    · rename_i rows1 e heq
      rw [heq] at hinv
      exact hinv
    · rename_i rows1 dbt heq
      rw [heq] at hinv
      split
      · exact hinv
      · exact ih _ _ _ hinv

/-- `topUpEthBalance` leaves the table as it was or with one more row, the top-up. -/
theorem topUpEthBalance_transfers (cfg : Config) (env : Env) (w : World) (toAddress : String)
    (amount : Int) :
    (Manager.topUpEthBalance cfg env w toAddress amount).1.transfers = w.transfers
      ∨ ∃ (bank : String) (nonce gasPrice : Nat) (txHash : String),
          env.bankAddressOf cfg.BankPrivateKey = .ok bank
          ∧ (Manager.topUpEthBalance cfg env w toAddress amount).1.transfers
              = w.transfers ++ [topUpRow env bank nonce gasPrice txHash] := by
  cases hres : Manager.topUpEthBalance cfg env w toAddress amount with
  | mk w2 res =>
    cases res with
    | ok e =>
      right
      obtain ⟨bank, nonce, gasPrice, txHash, hbank, _, hrows, _⟩ :=
        topUpEthBalance_ok cfg env w w2 toAddress amount e hres
      exact ⟨bank, nonce, gasPrice, txHash, hbank, hrows⟩
    | error e =>
      left
      unfold Manager.topUpEthBalance at hres
      split at hres
      · simp only [Prod.mk.injEq] at hres; rw [← hres.1]
      · split at hres
        · simp only [Prod.mk.injEq] at hres; rw [← hres.1]
        · split at hres
          · simp only [Prod.mk.injEq] at hres; rw [← hres.1]
          · dsimp only at hres
            split at hres
            · simp only [Prod.mk.injEq] at hres; rw [← hres.1]
            · split at hres
              · simp only [Prod.mk.injEq] at hres; rw [← hres.1]
              · split at hres
                · simp only [Prod.mk.injEq] at hres; rw [← hres.1]
                · split at hres
                  · simp only [Prod.mk.injEq] at hres; rw [← hres.1]
                  · split at hres
                    · simp only [Prod.mk.injEq] at hres; rw [← hres.1]
                    · simp at hres

theorem linkInvariant_topUpEthBalance (cfg : Config) (bank : String) (env : Env) (w : World)
    (toAddress : String) (amount : Int) (hfresh : freshId w.transfers (env.uuid 0))
    (hbank : ∀ b, env.bankAddressOf cfg.BankPrivateKey = .ok b → b = bank)
    (h : linkInvariant bank w.transfers) :
    linkInvariant bank (Manager.topUpEthBalance cfg env w toAddress amount).1.transfers := by
  rcases topUpEthBalance_transfers cfg env w toAddress amount with heq | ⟨b, n, g, x, hb, heq⟩
  · rw [heq]
    exact h
  · rw [heq]
    apply linkInvariant_append_one bank _ _ hfresh _ _ h
    · simp [mustLink, topUpRow]
    · intro _
      exact hbank b hb

theorem freshId_of_ids (rows rows1 : List Transfer) (id : String)
    (hids : rows1.map (fun r => r.ID) = rows.map fun r => r.ID) (h : freshId rows id) :
    freshId rows1 id := by
  refine ⟨h.1, ?_⟩
  intro r hr hc
  have hmem : r.ID ∈ rows.map fun r => r.ID := by
    rw [← hids]
    exact List.mem_map_of_mem (fun r => r.ID) hr
  obtain ⟨r0, hr0, hr0e⟩ := List.mem_map.mp hmem
  exact h.2 r0 hr0 (hr0e.trans hc)

theorem confirmEach_ids (frm : String) (ts : List SignedTransaction) (rows dbs : List Transfer)
    (fee : Int) :
    (Manager.confirmEach frm rows ts dbs fee).1.map (fun r => r.ID) = rows.map fun r => r.ID := by
  induction ts generalizing rows dbs fee with
  | nil => rfl
  | cons t ts ih =>
    unfold Manager.confirmEach
    have hrows := GetAndConfirmTransferByID_rows rows t.ID frm
    have hids : (Postgres.GetAndConfirmTransferByID rows t.ID frm).1.map (fun r => r.ID)
        = rows.map fun r => r.ID := by
      rw [hrows, List.map_map]
      exact List.map_congr_left fun r _ => confirmRow_ID t.ID frm r
    split
    · rename_i rows1 e heq
      rw [heq] at hids
      exact hids
    · rename_i rows1 dbt heq
      rw [heq] at hids
      split
      · exact hids
      · rw [ih]
        exact hids

theorem linkInvariant_ConfirmTransfer (cfg : Config) (bank : String) (env : Env) (w : World)
    (transfers : SignedTransfer) (hfresh : freshId w.transfers (env.uuid 0))
    (hbank : ∀ b, env.bankAddressOf cfg.BankPrivateKey = .ok b → b = bank)
    (h : linkInvariant bank w.transfers) :
    linkInvariant bank (Manager.ConfirmTransfer cfg env w transfers).1.transfers := by
  unfold Manager.ConfirmTransfer
  split
  · exact linkInvariant_failTransfers bank env.now _ _ _ h
  · split
    · exact linkInvariant_failTransfers bank env.now _ _ _ h
    · have hloop := linkInvariant_confirmEach bank transfers.FromAddress transfers.Transactions
        w.transfers [] 0 h
      have hids := confirmEach_ids transfers.FromAddress transfers.Transactions w.transfers [] 0
      split
      · rename_i rows1 e heq
        rw [heq] at hloop
        exact hloop
      · rename_i rows1 dbs fee heq
        rw [heq] at hloop hids
        have hfresh1 : freshId rows1 (env.uuid 0) := freshId_of_ids _ _ _ hids hfresh
        have htop := linkInvariant_topUpEthBalance cfg bank env { w with transfers := rows1 }
          transfers.FromAddress fee hfresh1 hbank hloop
        split
        · rename_i w2 e htopeq
          rw [htopeq] at htop
          exact linkInvariant_failTransfers bank env.now _ _ _ htop
        · rename_i w2 dbEthTransfer htopeq
          rw [htopeq] at htop
          obtain ⟨b, n, g, x, _, _, hrows2, heid⟩ := topUpEthBalance_ok _ _ _ _ _ _ _ htopeq
          apply linkInvariant_UpdateTransfers bank env.now _ _ _ htop
          intro t ht
          obtain ⟨d, _, hd⟩ := List.mem_map.mp ht
          rw [← hd, hrows2]
          exact ⟨topUpRow env b n g x, List.mem_append_right _ (List.mem_singleton_self _),
            by rw [heid]; rfl, rfl⟩

theorem broadcastRows_link (env : Env) (k : Nat) (l : List Transfer) :
    ∀ t ∈ broadcastRows env k l, ∃ d ∈ l, t.EthTransferID = d.EthTransferID := by
  induction l generalizing k with
  | nil => simp [broadcastRows]
  | cons d rest ih =>
    intro t ht
    simp only [broadcastRows, List.mem_cons] at ht
    rcases ht with ht | ht
    · exact ⟨d, List.mem_cons_self d rest, by rw [ht]⟩
    · obtain ⟨d1, hd1, he⟩ := ih (k + 1) t ht
      exact ⟨d1, List.mem_cons_of_mem d hd1, he⟩

/-- The broadcasting loop leaves the table as it was, or with one transfer stamped. -/
theorem sendEach_transfers (env : Env) (l : List Transfer) (w : World) (sent : List Transfer) :
    (Manager.sendEach env w l sent).1.transfers = w.transfers
      ∨ ∃ id msg, (Manager.sendEach env w l sent).1.transfers
          = Postgres.WriteTransferError env.now w.transfers id msg := by
  induction l generalizing w sent with
  | nil => left; rfl
  | cons d rest ih =>
    unfold Manager.sendEach
    split
    · left; rfl
    · dsimp only
      split
      · right
        exact ⟨_, _, rfl⟩
      · exact ih _ _

theorem linkInvariant_sendEach (bank : String) (env : Env) (l : List Transfer) (w : World)
    (sent : List Transfer) (h : linkInvariant bank w.transfers) :
    linkInvariant bank (Manager.sendEach env w l sent).1.transfers := by
  rcases sendEach_transfers env l w sent with heq | ⟨id, msg, heq⟩
  · rw [heq]
    exact h
  · rw [heq]
    exact linkInvariant_WriteTransferError bank env.now _ id msg h

theorem linkInvariant_CompleteTransfers (bank : String) (env : Env) (w : World) (eid : String)
    (h : linkInvariant bank w.transfers) :
    linkInvariant bank (Manager.CompleteTransfers env w eid).1.transfers := by
  unfold Manager.CompleteTransfers
  dsimp only
  split
  · exact h
  · rename_i hne
    have h1 := linkInvariant_StartEthTransferProcessing bank env.now w.transfers eid h
    split
    · exact linkInvariant_stampTransfers bank env.now _ _ _ h1
    · split
      · exact linkInvariant_stampTransfers bank env.now _ _ _ h1
      · have hsend := linkInvariant_sendEach bank env
          (Postgres.GetQueuedTransfersFor w.transfers eid)
          { w with transfers := Postgres.StartEthTransferProcessing env.now w.transfers eid } [] h1
        split
        · rename_i w2 e heq
          rw [heq] at hsend
          exact hsend
        · rename_i w2 sent heq
          rw [heq] at hsend
          obtain ⟨hw2, hsent⟩ := sendEach_ok env _ _ _ _ _ heq
          -- the batch is not empty, so `eid` is the id of a top-up of the table
          obtain ⟨d, hd⟩ := List.exists_mem_of_ne_nil _ hne
          have hdq := (mem_GetQueuedTransfersFor _ _ _).mp hd
          have hdq2 := hdq.2
          simp only [Postgres.queuedFor, decide_eq_true_eq] at hdq2
          have htop : isTopUpId w.transfers (some eid) := by
            have := h.2.2.1 d hdq.1 (Or.inl hdq2.2.1)
            rw [hdq2.1] at this
            exact this
          have hrows2 : w2.transfers
              = Postgres.StartEthTransferProcessing env.now w.transfers eid := by
            rw [hw2]
          have htop2 : isTopUpId w2.transfers (some eid) := by
            rw [hrows2]
            unfold Postgres.StartEthTransferProcessing
            apply isTopUpId_map _ _ _ _ _ htop
            · intro r; unfold Postgres.processingRow; split <;> rfl
            · intro r; unfold Postgres.processingRow; split <;> rfl
          have hid : ∀ r ∈ w2.transfers, r.ID = eid → r.TransferType = TransferType.EthTopUp := by
            intro r hr hre
            obtain ⟨e, he, hex, hety⟩ := htop2
            have hee : r.ID = e.ID := by
              rw [hre]
              exact Option.some.inj hex
            rw [eq_of_mem_of_ID_eq _ hsend.1 r e hr he hee]
            exact hety
          have h3 := linkInvariant_CompleteTransfer bank env.now w2.transfers eid "" hid hsend
          apply linkInvariant_UpdateTransfers bank env.now _ _ _ h3
          intro t ht
          rw [hsent, List.nil_append] at ht
          obtain ⟨d1, hd1, hlink⟩ := broadcastRows_link env _ _ t ht
          have hd1q := ((mem_GetQueuedTransfersFor _ _ _).mp hd1).2
          simp only [Postgres.queuedFor, decide_eq_true_eq] at hd1q
          rw [hlink, hd1q.1]
          unfold Postgres.CompleteTransfer
          apply isTopUpId_map _ _ _ _ _ htop2
          · intro r; unfold Postgres.completeRow; split <;> rfl
          · intro r; unfold Postgres.completeRow; split <;> rfl

theorem linkInvariant_Scrapper_CompleteTransfer (bank : String) (env : Env) (w : World)
    (transferHash : String) (h : linkInvariant bank w.transfers) :
    linkInvariant bank (Scrapper.CompleteTransfer env w transferHash).transfers := by
  unfold Scrapper.CompleteTransfer
  exact linkInvariant_CompleteTransfer bank env.now w.transfers "" transferHash
    (fun r hr hid => absurd hid (h.2.1 r hr)) h

theorem linkInvariant_Scrapper_FailEthTransfer (bank : String) (env : Env) (w : World)
    (id msg : String) (h : linkInvariant bank w.transfers) :
    linkInvariant bank (Scrapper.FailEthTransfer env w id msg).transfers := by
  unfold Scrapper.FailEthTransfer Postgres.FailEthTransfer
  exact linkInvariant_failLinked bank env.now _ id msg
    (linkInvariant_WriteTransferError bank env.now w.transfers id msg h)

theorem createTransfer_type (env : Env) (c : Nat) (ty : TransferType) (amount : Float64)
    (fromAddress toAddress tokenAddress : String) (suggestNonce : Option Nat)
    (gasPrice gasLimit : Nat) (chainID : String) (c1 : Nat) (u : UnsignedTransfer) (n : Nat)
    (h : Manager.createTransfer env c ty amount fromAddress toAddress tokenAddress suggestNonce
      gasPrice gasLimit chainID = (c1, .ok (u, n))) : u.TransferType = ty := by
  unfold Manager.createTransfer at h
  split at h
  · simp at h
  · dsimp only at h
    split at h
    · simp at h
    · simp only [Prod.mk.injEq, Except.ok.injEq] at h
      rw [← h.2.1]

/-- `CreateTransfer` makes no on-chain call, and leaves the table as it was, or with the
sender's new rows soft-deleted, or with those soft-deleted and the new pair inserted. -/
theorem CreateTransfer_world (cfg : Config) (env : Env) (c : Nat) (w : World)
    (tx : Models.NewTransfer) :
    (Manager.CreateTransfer cfg env c w tx).1.1.calls = w.calls
      ∧ ((Manager.CreateTransfer cfg env c w tx).1.1.transfers = w.transfers
        ∨ (Manager.CreateTransfer cfg env c w tx).1.1.transfers
            = Postgres.ClearUnsignedTransfers env.now w.transfers tx.FromAddress
        ∨ ∃ nt1 nt2 : NewTransfer, nt1.TransferType = TransferType.TransferToken
            ∧ nt2.TransferType = TransferType.Tax
            ∧ (Manager.CreateTransfer cfg env c w tx).1.1.transfers
                = (Postgres.CreateTransfers env.now env.uuid
                    (Postgres.ClearUnsignedTransfers env.now w.transfers tx.FromAddress)
                    [nt1, nt2]).1) := by
  unfold Manager.CreateTransfer
  split
  · exact ⟨rfl, Or.inl rfl⟩
  · dsimp only
    split
    · exact ⟨rfl, Or.inr (Or.inl rfl)⟩
    · split
      · exact ⟨rfl, Or.inr (Or.inl rfl)⟩
      · split
        · exact ⟨rfl, Or.inr (Or.inl rfl)⟩
        · split
          · exact ⟨rfl, Or.inr (Or.inl rfl)⟩
          · split
            · exact ⟨rfl, Or.inr (Or.inl rfl)⟩
            · split
              · exact ⟨rfl, Or.inr (Or.inl rfl)⟩
              · rename_i cache1 transferTx nonce h1
                split
                · exact ⟨rfl, Or.inr (Or.inl rfl)⟩
                · rename_i cache2 taxTx n2 h2
                  refine ⟨rfl, Or.inr (Or.inr ⟨_, _, ?_, ?_, rfl⟩)⟩
                  · exact createTransfer_type _ _ _ _ _ _ _ _ _ _ _ _ _ _ h1
                  · exact createTransfer_type _ _ _ _ _ _ _ _ _ _ _ _ _ _ h2

theorem linkInvariant_CreateTransfer (cfg : Config) (bank : String) (env : Env) (c : Nat)
    (w : World) (tx : Models.NewTransfer) (hf0 : freshId w.transfers (env.uuid 0))
    (hf1 : freshId w.transfers (env.uuid 1)) (hne : env.uuid 0 ≠ env.uuid 1)
    (h : linkInvariant bank w.transfers) :
    linkInvariant bank (Manager.CreateTransfer cfg env c w tx).1.1.transfers := by
  have hclear := linkInvariant_ClearUnsignedTransfers bank env.now w.transfers tx.FromAddress h
  have hids : (Postgres.ClearUnsignedTransfers env.now w.transfers tx.FromAddress).map
      (fun r => r.ID) = w.transfers.map fun r => r.ID := by
    unfold Postgres.ClearUnsignedTransfers
    rw [List.map_map]
    apply List.map_congr_left
    intro r _
    simp only [Function.comp_apply, Postgres.clearRow]
    split <;> rfl
  rcases (CreateTransfer_world cfg env c w tx).2 with heq | heq | ⟨nt1, nt2, hty1, hty2, heq⟩
  · rw [heq]; exact h
  · rw [heq]; exact hclear
  · rw [heq]
    have hshape : (Postgres.CreateTransfers env.now env.uuid
        (Postgres.ClearUnsignedTransfers env.now w.transfers tx.FromAddress) [nt1, nt2]).1
        = (Postgres.ClearUnsignedTransfers env.now w.transfers tx.FromAddress
            ++ [({ ID := env.uuid 0, CreatedAt := env.now, UpdatedAt := none, DeletedAt := none,
                   toNewTransfer := nt1, EthTransferID := none, TxHash := none, RawTx := none,
                   Status := TransferStatus.new, Message := "" } : Transfer)])
          ++ [({ ID := env.uuid 1, CreatedAt := env.now, UpdatedAt := none, DeletedAt := none,
                 toNewTransfer := nt2, EthTransferID := none, TxHash := none, RawTx := none,
                 Status := TransferStatus.new, Message := "" } : Transfer)] := by
      simp [Postgres.CreateTransfers, List.enum, List.enumFrom]
    rw [hshape]
    apply linkInvariant_append_one
    · refine ⟨hf1.1, ?_⟩
      intro r hr
      rcases List.mem_append.mp hr with hr | hr
      · exact (freshId_of_ids _ _ _ hids hf1).2 r hr
      · rw [List.mem_singleton] at hr
        rw [hr]
        exact hne
    · simp [mustLink, hty2]
    · intro hc
      rw [hty2] at hc
      exact absurd hc (by decide)
    · apply linkInvariant_append_one
      · exact freshId_of_ids _ _ _ hids hf0
      · simp [mustLink, hty1]
      · intro hc
        rw [hty1] at hc
        exact absurd hc (by decide)
      · exact hclear

/-- Every reachable table satisfies the link invariant. -/
theorem Reachable.linkInvariant {cfg : Config} {bank : String} {w : World}
    (h : Reachable cfg bank w) : linkInvariant bank w.transfers := by
  induction h with
  | init => exact ⟨List.nodup_nil, by simp, by simp, by simp⟩
  | CreateTransfer env c tx _ hf0 hf1 hne ih =>
    exact linkInvariant_CreateTransfer cfg bank env c _ tx hf0 hf1 hne ih
  | ConfirmTransfer env transfers _ hf hb ih =>
    exact linkInvariant_ConfirmTransfer cfg bank env _ transfers hf hb ih
  | CompleteTransfers env eid _ ih => exact linkInvariant_CompleteTransfers bank env _ eid ih
  | CompleteTransfer env hash _ ih => exact linkInvariant_Scrapper_CompleteTransfer bank env _ hash ih
  | FailEthTransfer env id msg _ ih =>
    exact linkInvariant_Scrapper_FailEthTransfer bank env _ id msg ih

/-- The first scenario up to the confirmation: from the empty world, `CreateTransfer` for
`sampleNewTransfer` gives `sampleNewWorld`, and `ConfirmTransfer` for `sampleRequest` gives
`sampleConfirmedWorld`. -/
theorem sampleConfirmedWorld_reachable : Reachable sampleConfig "0xBA" sampleConfirmedWorld := by
  have h0 : Reachable sampleConfig "0xBA" { transfers := [], calls := [] } := Reachable.init
  have hcreate : (Manager.CreateTransfer sampleConfig sampleCreateEnv 0
      { transfers := [], calls := [] } sampleNewTransfer).1.1 = sampleNewWorld := by decide
  have h1 : Reachable sampleConfig "0xBA" sampleNewWorld :=
    hcreate ▸ Reachable.CreateTransfer sampleCreateEnv 0 sampleNewTransfer h0
      ⟨by decide, by simp⟩ ⟨by decide, by simp⟩ (by decide)
  have hconfirm : (Manager.ConfirmTransfer sampleConfig sampleEnv sampleNewWorld
      sampleRequest).1 = sampleConfirmedWorld := by decide
  exact hconfirm ▸ Reachable.ConfirmTransfer sampleEnv sampleRequest h1
    ⟨by decide, by decide⟩ (fun b hb => (Except.ok.inj hb).symm)

/-- C3 (amended): in every world reachable through CreateTransfer, ConfirmTransfer,
CompleteTransfers, CompleteTransfer and FailEthTransfer, every transfer that is not itself a
top-up and is queued, pending or completed has an eth_transfer_id that is the id of an
`ethtopup` row of the table, and that top-up was sent from the bank address. -/
theorem C3_reachable_transfers_link_to_a_bank_top_up (cfg : Config) (bank : String) (w : World)
    (h : Reachable cfg bank w) :
    ∀ t ∈ w.transfers, t.TransferType ≠ TransferType.EthTopUp →
      (t.Status = TransferStatus.queued ∨ t.Status = TransferStatus.pending
        ∨ t.Status = TransferStatus.completed) →
      ∃ e ∈ w.transfers, t.EthTransferID = some e.ID
        ∧ e.TransferType = TransferType.EthTopUp ∧ e.FromAddress = bank := by
  intro t ht hty hst
  obtain ⟨_, _, h3, h4⟩ := h.linkInvariant
  have hm : mustLink t := by
    rcases hst with hst | hst | hst
    · exact Or.inl hst
    · exact Or.inr ⟨hty, Or.inl hst⟩
    · exact Or.inr ⟨hty, Or.inr (Or.inl hst)⟩
  obtain ⟨e, he, hlink, hety⟩ := h3 t ht hm
  exact ⟨e, he, hlink, hety, h4 e he hety⟩

/-- C3 (witness): in the reachable world `sampleConfirmedWorld` the queued token transfer
`t1` is linked to a top-up of the table sent from the bank `0xBA`. -/
theorem C3_witness_sample_confirmed_world :
    ∃ e ∈ sampleConfirmedWorld.transfers, sampleConfirmedRow.EthTransferID = some e.ID
      ∧ e.TransferType = TransferType.EthTopUp ∧ e.FromAddress = "0xBA" :=
  C3_reachable_transfers_link_to_a_bank_top_up sampleConfig "0xBA" sampleConfirmedWorld
    sampleConfirmedWorld_reachable sampleConfirmedRow (by decide) (by decide) (Or.inl rfl)

/-- C3 (counterexample): `sampleConfirmedWorld` is reachable, and in it the invariant as the
specification words it fails: the queued transfers of `0xA1` are linked to the top-up `e2`,
whose from_address is the bank `0xBA`, and `e2` itself is pending without eth_transfer_id. -/
theorem C3_counterexample_top_up_is_sent_by_the_bank :
    Reachable sampleConfig "0xBA" sampleConfirmedWorld
      ∧ sampleConfirmedWorld.transfers.map
          (fun r => (r.ID, r.TransferType, r.FromAddress, r.Status, r.EthTransferID))
        = [("t1", TransferType.TransferToken, "0xA1", TransferStatus.queued, some "e2"),
           ("t2", TransferType.Tax, "0xA1", TransferStatus.queued, some "e2"),
           ("e2", TransferType.EthTopUp, "0xBA", TransferStatus.pending, none)]
      ∧ specTopUpInvariant sampleConfirmedWorld.transfers = false :=
  ⟨sampleConfirmedWorld_reachable, by decide, by decide⟩

/-- The world `sampleMixedWorld` is reachable: create the pair, confirm `t1` with a missing
id, create a pair again. -/
theorem sampleMixedWorld_reachable : Reachable sampleConfig "0xBA" sampleMixedWorld := by
  have h0 : Reachable sampleConfig "0xBA" { transfers := [], calls := [] } := Reachable.init
  have hcreate : (Manager.CreateTransfer sampleConfig sampleCreateEnv 0
      { transfers := [], calls := [] } sampleNewTransfer).1.1 = sampleNewWorld := by decide
  have h1 : Reachable sampleConfig "0xBA" sampleNewWorld :=
    hcreate ▸ Reachable.CreateTransfer sampleCreateEnv 0 sampleNewTransfer h0
      ⟨by decide, by simp⟩ ⟨by decide, by simp⟩ (by decide)
  have h2 : Reachable sampleConfig "0xBA"
      (Manager.ConfirmTransfer sampleConfig sampleEnv sampleNewWorld sampleMissingRequest).1 :=
    Reachable.ConfirmTransfer sampleEnv sampleMissingRequest h1
      ⟨by decide, by decide⟩ (fun b hb => (Except.ok.inj hb).symm)
  have hagain : (Manager.CreateTransfer sampleConfig sampleCreateAgainEnv 2
      (Manager.ConfirmTransfer sampleConfig sampleEnv sampleNewWorld sampleMissingRequest).1
      sampleNewTransfer).1.1 = sampleMixedWorld := by decide
  exact hagain ▸ Reachable.CreateTransfer sampleCreateAgainEnv 2 sampleNewTransfer h2
    ⟨by decide, by decide⟩ ⟨by decide, by decide⟩ (by decide)

/-- C2 (evaluation at the failing input): `sampleMixedWorld` is reachable and satisfies the
nonce invariant; the confirmation of `t1` and `t3`, whose raw transactions both decode to
the free nonce 5, passes validation and succeeds; afterwards `t1` and `t3` are both queued
for `(0xA1, 5)` and the invariant is broken. -/
theorem C2_ConfirmTransfer_breaks_nonce_invariant :
    Reachable sampleConfig "0xBA" sampleMixedWorld
      ∧ nonceInvariant sampleMixedWorld.transfers
      ∧ (Manager.ConfirmTransfer sampleConfig sampleEnv sampleMixedWorld sampleMixedRequest).2
          = .ok [{ ID := "t1", Status := TransferStatus.queued },
                 { ID := "t3", Status := TransferStatus.queued }]
      ∧ (Manager.ConfirmTransfer sampleConfig sampleEnv sampleMixedWorld
            sampleMixedRequest).1.transfers.map
            (fun r => (r.ID, r.FromAddress, r.Nonce, r.Status, r.DeletedAt))
          = [("t1", "0xA1", 5, TransferStatus.queued, none),
             ("t2", "0xA1", 6, TransferStatus.new, some 3),
             ("t3", "0xA1", 5, TransferStatus.queued, none),
             ("t4", "0xA1", 6, TransferStatus.new, none),
             ("e2", "0xBA", 5, TransferStatus.pending, none)]
      ∧ ¬ nonceInvariant (Manager.ConfirmTransfer sampleConfig sampleEnv sampleMixedWorld
            sampleMixedRequest).1.transfers := by
  refine ⟨sampleMixedWorld_reachable, by decide, rfl, by decide, by decide⟩

/-! ### Queued rows of the reachable tables carry a raw transaction -/

theorem rowInvariant_map (rows : List Transfer) (f : Transfer → Transfer)
    (hf : ∀ r ∈ rows, rowInvariant r → rowInvariant (f r))
    (h : ∀ r ∈ rows, rowInvariant r) : ∀ r ∈ rows.map f, rowInvariant r := by
  intro r hr
  obtain ⟨r0, hr0, rfl⟩ := List.mem_map.mp hr
  exact hf r0 hr0 (h r0 hr0)

theorem rowInvariant_writeErrorRow (now : Nat) (id msg : String) (r : Transfer)
    (h : rowInvariant r) : rowInvariant (Postgres.writeErrorRow now id msg r) := by
  unfold Postgres.writeErrorRow
  split
  · exact ⟨h.1, fun hc => by cases hc⟩
  · exact h

theorem rowInvariant_confirmRow (id frm : String) (r : Transfer) (h : rowInvariant r) :
    rowInvariant (Postgres.confirmRow id frm r) := by
  unfold Postgres.confirmRow
  split
  · exact ⟨h.1, fun hc => by cases hc⟩
  · exact h

theorem rowInvariant_processingRow (now : Nat) (id : String) (r : Transfer)
    (h : rowInvariant r) : rowInvariant (Postgres.processingRow now id r) := by
  unfold Postgres.processingRow
  split
  · exact ⟨h.1, fun hc => by cases hc⟩
  · exact h

theorem rowInvariant_completeRow (now : Nat) (id hash : String) (r : Transfer)
    (h : rowInvariant r) : rowInvariant (Postgres.completeRow now id hash r) := by
  unfold Postgres.completeRow
  split
  · exact ⟨h.1, fun hc => by cases hc⟩
  · exact h

theorem rowInvariant_failLinkedRow (now : Nat) (id msg : String) (r : Transfer)
    (h : rowInvariant r) : rowInvariant (Postgres.failLinkedRow now id msg r) := by
  unfold Postgres.failLinkedRow
  split
  · exact ⟨h.1, fun hc => by cases hc⟩
  · exact h

theorem rowInvariant_clearRow (now : Nat) (address : String) (r : Transfer)
    (h : rowInvariant r) : rowInvariant (Postgres.clearRow now address r) := by
  unfold Postgres.clearRow
  split
  · exact h
  · exact h

theorem rowInvariant_updateRow (now : Nat) (t r : Transfer) (ht : rowInvariant t)
    (h : rowInvariant r) : rowInvariant (Postgres.updateRow now t r) := by
  unfold Postgres.updateRow
  split
  · rename_i hsel
    refine ⟨?_, ht.2⟩
    have := ht.1
    rw [← hsel.1] at this
    exact this
  · exact h

theorem rowInvariant_failTransfers (now : Nat) (ts : List SignedTransaction) (msg : String)
    (rows : List Transfer) (h : ∀ r ∈ rows, rowInvariant r) :
    ∀ r ∈ Manager.failTransfers now rows ts msg, rowInvariant r := by
  unfold Manager.failTransfers
  induction ts generalizing rows with
  | nil => exact h
  | cons t ts ih =>
    rw [List.foldl_cons]
    exact ih _ (rowInvariant_map rows _ (fun r _ => rowInvariant_writeErrorRow now t.ID msg r) h)

theorem rowInvariant_stampTransfers (now : Nat) (ds : List Transfer) (msg : String)
    (rows : List Transfer) (h : ∀ r ∈ rows, rowInvariant r) :
    ∀ r ∈ Manager.stampTransfers now rows ds msg, rowInvariant r := by
  unfold Manager.stampTransfers
  induction ds generalizing rows with
  | nil => exact h
  | cons t ts ih =>
    rw [List.foldl_cons]
    exact ih _ (rowInvariant_map rows _ (fun r _ => rowInvariant_writeErrorRow now t.ID msg r) h)

theorem rowInvariant_UpdateTransfers (now : Nat) (ts : List Transfer) (rows : List Transfer)
    (hts : ∀ t ∈ ts, rowInvariant t) (h : ∀ r ∈ rows, rowInvariant r) :
    ∀ r ∈ (Postgres.UpdateTransfers now rows ts).1, rowInvariant r := by
  unfold Postgres.UpdateTransfers
  dsimp only
  induction ts generalizing rows with
  | nil => exact h
  | cons t ts ih =>
    rw [List.foldl_cons]
    apply ih _ (fun t1 ht1 => hts t1 (List.mem_cons_of_mem t ht1))
    exact rowInvariant_map rows _
      (fun r _ => rowInvariant_updateRow now t r (hts t (List.mem_cons_self t ts))) h

theorem rowInvariant_confirmEach (frm : String) (ts : List SignedTransaction)
    (rows dbs : List Transfer) (fee : Int) (h : ∀ r ∈ rows, rowInvariant r) :
    ∀ r ∈ (Manager.confirmEach frm rows ts dbs fee).1, rowInvariant r := by
  induction ts generalizing rows dbs fee with
  | nil => exact h
  | cons t ts ih =>
    unfold Manager.confirmEach
    have hrows := GetAndConfirmTransferByID_rows rows t.ID frm
    have hinv := rowInvariant_map rows _ (fun r _ => rowInvariant_confirmRow t.ID frm r) h
    rw [← hrows] at hinv
    split
    · rename_i rows1 e heq
      rw [heq] at hinv
      exact hinv
    · rename_i rows1 dbt heq
      rw [heq] at hinv
      split
      · exact hinv
      · exact ih _ _ _ hinv

theorem rowInvariant_topUpEthBalance (cfg : Config) (env : Env) (w : World) (toAddress : String)
    (amount : Int) (h : ∀ r ∈ w.transfers, rowInvariant r) :
    ∀ r ∈ (Manager.topUpEthBalance cfg env w toAddress amount).1.transfers, rowInvariant r := by
  rcases topUpEthBalance_transfers cfg env w toAddress amount with heq | ⟨b, n, g, x, _, heq⟩
  · rw [heq]
    exact h
  · rw [heq]
    intro r hr
    rcases List.mem_append.mp hr with hr | hr
    · exact h r hr
    · rw [List.mem_singleton] at hr
      rw [hr]
      exact ⟨by simp [topUpRow], fun hc => absurd hc (by simp [topUpRow])⟩

theorem rowInvariant_ConfirmTransfer (cfg : Config) (env : Env) (w : World)
    (transfers : SignedTransfer) (hfresh : freshId w.transfers (env.uuid 0))
    (h : ∀ r ∈ w.transfers, rowInvariant r) :
    ∀ r ∈ (Manager.ConfirmTransfer cfg env w transfers).1.transfers, rowInvariant r := by
  cases hres : Manager.ConfirmTransfer cfg env w transfers with
  | mk w1 res =>
    cases res with
    | ok result =>
      obtain ⟨t1, t2, d1, d2, bank, nonce, gasPrice, txHash, _, hd1, hown1, hd2, hown2, _, _,
        hrows, _⟩ := ConfirmTransfer_ok cfg env w w1 transfers result hres
      have hold1 : d1.ID ≠ env.uuid 0 := by
        obtain ⟨r0, hr0, hr0e⟩ := List.mem_map.mp hd1
        rw [← hr0e, confirmRow_ID]
        exact hfresh.2 r0 hr0
      have hold2 : d2.ID ≠ env.uuid 0 := by
        obtain ⟨ra, hra, hrae⟩ := List.mem_map.mp hd2
        obtain ⟨r0, hr0, hr0e⟩ := List.mem_map.mp hra
        rw [← hrae, confirmRow_ID, ← hr0e, confirmRow_ID]
        exact hfresh.2 r0 hr0
      have hq1 : rowInvariant (queuedUpdate d1 t1.RawTx (env.uuid 0)) :=
        ⟨fun hc => hold1 (Option.some.inj hc).symm, fun _ => by simp [queuedUpdate]⟩
      have hq2 : rowInvariant (queuedUpdate d2 t2.RawTx (env.uuid 0)) :=
        ⟨fun hc => hold2 (Option.some.inj hc).symm, fun _ => by simp [queuedUpdate]⟩
      dsimp only
      rw [hrows]
      apply rowInvariant_map _ _
        (fun r _ hr => rowInvariant_updateRow env.now _ _ hq2
          (rowInvariant_updateRow env.now _ r hq1 hr))
      intro r hr
      rcases List.mem_append.mp hr with hr | hr
      · exact rowInvariant_map _ _ (fun r _ => rowInvariant_confirmRow t2.ID _ r)
          (rowInvariant_map _ _ (fun r _ => rowInvariant_confirmRow t1.ID _ r) h) r hr
      · rw [List.mem_singleton] at hr
        rw [hr]
        exact ⟨by simp [topUpRow], fun hc => absurd hc (by simp [topUpRow])⟩
    | error e =>
      dsimp only
      unfold Manager.ConfirmTransfer at hres
      split at hres
      · simp only [Prod.mk.injEq] at hres
        rw [← hres.1]
        exact rowInvariant_failTransfers env.now _ _ _ h
      · split at hres
        · simp only [Prod.mk.injEq] at hres
          rw [← hres.1]
          exact rowInvariant_failTransfers env.now _ _ _ h
        · have hloop := rowInvariant_confirmEach transfers.FromAddress transfers.Transactions
            w.transfers [] 0 h
          split at hres
          · rename_i rows1 e1 heq
            rw [heq] at hloop
            simp only [Prod.mk.injEq] at hres
            rw [← hres.1]
            exact hloop
          · rename_i rows1 dbs fee heq
            rw [heq] at hloop
            have htop := rowInvariant_topUpEthBalance cfg env { w with transfers := rows1 }
              transfers.FromAddress fee hloop
            split at hres
            · rename_i w2 e2 htopeq
              rw [htopeq] at htop
              simp only [Prod.mk.injEq] at hres
              rw [← hres.1]
              exact rowInvariant_failTransfers env.now _ _ _ htop
            · simp at hres

theorem broadcastRows_rowInvariant (env : Env) (k : Nat) (l : List Transfer)
    (h : ∀ d ∈ l, rowInvariant d) : ∀ t ∈ broadcastRows env k l, rowInvariant t := by
  induction l generalizing k with
  | nil => simp [broadcastRows]
  | cons d rest ih =>
    intro t ht
    simp only [broadcastRows, List.mem_cons] at ht
    rcases ht with ht | ht
    · rw [ht]
      exact ⟨(h d (List.mem_cons_self d rest)).1, fun hc => by cases hc⟩
    · exact ih (k + 1) (fun d1 hd1 => h d1 (List.mem_cons_of_mem d hd1)) t ht

theorem rowInvariant_sendEach (env : Env) (l : List Transfer) (w : World) (sent : List Transfer)
    (h : ∀ r ∈ w.transfers, rowInvariant r) :
    ∀ r ∈ (Manager.sendEach env w l sent).1.transfers, rowInvariant r := by
  rcases sendEach_transfers env l w sent with heq | ⟨id, msg, heq⟩
  · rw [heq]
    exact h
  · rw [heq]
    exact rowInvariant_map _ _ (fun r _ => rowInvariant_writeErrorRow env.now id msg r) h

theorem rowInvariant_CompleteTransfers (env : Env) (w : World) (eid : String)
    (h : ∀ r ∈ w.transfers, rowInvariant r) :
    ∀ r ∈ (Manager.CompleteTransfers env w eid).1.transfers, rowInvariant r := by
  unfold Manager.CompleteTransfers
  dsimp only
  split
  · exact h
  · have h1 : ∀ r ∈ Postgres.StartEthTransferProcessing env.now w.transfers eid, rowInvariant r :=
      rowInvariant_map _ _ (fun r _ => rowInvariant_processingRow env.now eid r) h
    split
    · exact rowInvariant_stampTransfers env.now _ _ _ h1
    · split
      · exact rowInvariant_stampTransfers env.now _ _ _ h1
      · have hsend := rowInvariant_sendEach env (Postgres.GetQueuedTransfersFor w.transfers eid)
          { w with transfers := Postgres.StartEthTransferProcessing env.now w.transfers eid } [] h1
        split
        · rename_i w2 e heq
          rw [heq] at hsend
          exact hsend
        · rename_i w2 sent heq
          rw [heq] at hsend
          obtain ⟨_, hsent⟩ := sendEach_ok env _ _ _ _ _ heq
          apply rowInvariant_UpdateTransfers
          · intro t ht
            rw [hsent, List.nil_append] at ht
            apply broadcastRows_rowInvariant env _ _ _ t ht
            intro d hd
            exact h d ((mem_GetQueuedTransfersFor _ _ _).mp hd).1
          · exact rowInvariant_map _ _ (fun r _ => rowInvariant_completeRow env.now eid "" r) hsend

theorem rowInvariant_CreateTransfer (cfg : Config) (env : Env) (c : Nat) (w : World)
    (tx : Models.NewTransfer) (h : ∀ r ∈ w.transfers, rowInvariant r) :
    ∀ r ∈ (Manager.CreateTransfer cfg env c w tx).1.1.transfers, rowInvariant r := by
  have hclear : ∀ r ∈ Postgres.ClearUnsignedTransfers env.now w.transfers tx.FromAddress,
      rowInvariant r :=
    rowInvariant_map _ _ (fun r _ => rowInvariant_clearRow env.now tx.FromAddress r) h
  rcases (CreateTransfer_world cfg env c w tx).2 with heq | heq | ⟨nt1, nt2, _, _, heq⟩
  · rw [heq]; exact h
  · rw [heq]; exact hclear
  · rw [heq]
    intro r hr
    simp only [Postgres.CreateTransfers, List.mem_append, List.mem_map] at hr
    rcases hr with hr | ⟨p, _, hp⟩
    · exact hclear r hr
    · rw [← hp]
      exact ⟨by simp, fun hc => absurd hc (by simp)⟩

/-- Every row of a reachable table satisfies the row invariant. -/
theorem Reachable.rowInvariant {cfg : Config} {bank : String} {w : World}
    (h : Reachable cfg bank w) : ∀ r ∈ w.transfers, rowInvariant r := by
  induction h with
  | init => simp
  | CreateTransfer env c tx _ _ _ _ ih => exact rowInvariant_CreateTransfer cfg env c _ tx ih
  | ConfirmTransfer env transfers _ hf _ ih =>
    exact rowInvariant_ConfirmTransfer cfg env _ transfers hf ih
  | CompleteTransfers env eid _ ih => exact rowInvariant_CompleteTransfers env _ eid ih
  | CompleteTransfer env hash _ ih =>
    exact rowInvariant_map _ _ (fun r _ => rowInvariant_completeRow env.now "" hash r) ih
  | FailEthTransfer env id msg _ ih =>
    exact rowInvariant_map _ _ (fun r _ => rowInvariant_failLinkedRow env.now id msg r)
      (rowInvariant_map _ _ (fun r _ => rowInvariant_writeErrorRow env.now id msg r) ih)

/-- In every reachable world the table conditions of the batch theorem hold: ids are unique,
every queued transfer linked to `ethTransferID` has a raw transaction, and none of them is
the row `ethTransferID` itself. -/
theorem Reachable.batch_wellFormed {cfg : Config} {bank : String} {w : World}
    (h : Reachable cfg bank w) (ethTransferID : String) :
    (w.transfers.map fun r => r.ID).Nodup
      ∧ (∀ d ∈ Postgres.GetQueuedTransfersFor w.transfers ethTransferID, d.RawTx ≠ none)
      ∧ (∀ d ∈ Postgres.GetQueuedTransfersFor w.transfers ethTransferID, d.ID ≠ ethTransferID) := by
  refine ⟨h.linkInvariant.1, ?_, ?_⟩
  · intro d hd
    have hq := (mem_GetQueuedTransfersFor _ _ _).mp hd
    have hq2 := hq.2
    simp only [Postgres.queuedFor, decide_eq_true_eq] at hq2
    exact (h.rowInvariant d hq.1).2 hq2.2.1
  · intro d hd hc
    have hq := (mem_GetQueuedTransfersFor _ _ _).mp hd
    have hq2 := hq.2
    simp only [Postgres.queuedFor, decide_eq_true_eq] at hq2
    apply (h.rowInvariant d hq.1).1
    rw [hq2.1, hc]

/-! ### `CompleteTransfers`: a broadcast that fails -/

/-- The broadcasting loop on a batch `pre ++ d :: rest` in which every broadcast of `pre`
succeeds and the broadcast of `d` fails with `e`: the loop ends there, having logged the
broadcasts of `pre` and of `d` only and stamped `d` through `WriteTransferError`. -/
theorem sendEach_of_failure (env : Env) (pre : List Transfer) (d : Transfer)
    (rest : List Transfer) (w : World) (sent : List Transfer) (rawTx e : String)
    (hraw : ∀ d1 ∈ pre, d1.RawTx ≠ none)
    (hpre : ∀ (i : Nat) (hi : i < pre.length), ∃ txHash,
      env.sendRawTransaction (w.calls.length + i) (pre[i].RawTx.getD "") = .ok txHash)
    (hd : d.RawTx = some rawTx)
    (hfail : env.sendRawTransaction (w.calls.length + pre.length) rawTx = .error e) :
    Manager.sendEach env w (pre ++ d :: rest) sent
      = ({ transfers := Postgres.WriteTransferError env.now w.transfers d.ID
              (Wrap e "failed to send a raw transaction"),
           calls := w.calls ++ broadcastCalls pre ++ [Call.sendRawTransaction rawTx] },
         .error (Wrap e "failed to send a raw transaction")) := by
  induction pre generalizing w sent with
  | nil =>
    simp only [List.length_nil, Nat.add_zero] at hfail
    simp [Manager.sendEach, hd, hfail, broadcastCalls]
  | cons d0 pre ih =>
    obtain ⟨raw0, hr0⟩ := Option.ne_none_iff_exists'.mp (hraw d0 (List.mem_cons_self d0 pre))
    obtain ⟨txHash, hs0⟩ := hpre 0 (by simp)
    simp only [Nat.add_zero, List.getElem_cons_zero, hr0, Option.getD_some] at hs0
    rw [List.cons_append]
    unfold Manager.sendEach
    simp only [hr0, hs0]
    rw [ih]
    · simp [broadcastCalls, hr0]
    · exact fun d1 hd1 => hraw d1 (List.mem_cons_of_mem d0 hd1)
    · intro i hi
      have := hpre (i + 1) (by simpa using hi)
      simpa [Nat.add_assoc, Nat.add_comm 1 i] using this
    · simpa [Nat.add_assoc, Nat.add_comm 1 pre.length] using hfail

/-- `CompleteTransfers` on a batch `pre ++ d :: rest` in which every broadcast of `pre`
succeeds and the broadcast of `d` fails with `e`. -/
theorem CompleteTransfers_of_failure (env : Env) (w : World) (eid : String) (balance : Int)
    (pre : List Transfer) (d : Transfer) (rest : List Transfer) (rawTx e : String)
    (hbatch : Postgres.GetQueuedTransfersFor w.transfers eid = pre ++ d :: rest)
    (hbal : env.BalanceAt (Manager.lastFromAddress (pre ++ d :: rest)) = .ok balance)
    (hge : Manager.totalGasFee (pre ++ d :: rest) ≤ balance)
    (hraw : ∀ d1 ∈ pre, d1.RawTx ≠ none)
    (hpre : ∀ (i : Nat) (hi : i < pre.length), ∃ txHash,
      env.sendRawTransaction (w.calls.length + i) (pre[i].RawTx.getD "") = .ok txHash)
    (hd : d.RawTx = some rawTx)
    (hfail : env.sendRawTransaction (w.calls.length + pre.length) rawTx = .error e) :
    Manager.CompleteTransfers env w eid
      = ({ transfers := Postgres.WriteTransferError env.now
              (Postgres.StartEthTransferProcessing env.now w.transfers eid) d.ID
              (Wrap e "failed to send a raw transaction"),
           calls := w.calls ++ broadcastCalls pre ++ [Call.sendRawTransaction rawTx] },
         .error (Wrap e "failed to send a raw transaction")) := by
  unfold Manager.CompleteTransfers
  dsimp only
  rw [hbatch, if_neg (by simp)]
  simp only [hbal]
  rw [if_neg (not_lt.mpr hge),
    sendEach_of_failure env pre d rest
      { transfers := Postgres.StartEthTransferProcessing env.now w.transfers eid, calls := w.calls }
      [] rawTx e hraw hpre hd hfail]

/-- C11 (amended): when the batch is the pair `d1`, `d2` in nonce order, the balance covers
the fee, the broadcast of `d1` succeeds and the broadcast of `d2` fails with `e`, then
`CompleteTransfers` returns the wrapped error after both raw transactions were sent, and the
second transfer is stored with status failed and that error as its message. -/
theorem C11_failed_second_broadcast_fails_the_transfer (env : Env) (w : World)
    (ethTransferID : String) (balance : Int) (d1 d2 : Transfer) (raw1 raw2 txHash e : String)
    (hbatch : Postgres.GetQueuedTransfersFor w.transfers ethTransferID = [d1, d2])
    (hbal : env.BalanceAt d2.FromAddress = .ok balance)
    (hge : Manager.totalGasFee [d1, d2] ≤ balance)
    (h1 : d1.RawTx = some raw1) (h2 : d2.RawTx = some raw2)
    (hs1 : env.sendRawTransaction w.calls.length raw1 = .ok txHash)
    (hs2 : env.sendRawTransaction (w.calls.length + 1) raw2 = .error e) :
    ∃ w1, Manager.CompleteTransfers env w ethTransferID
          = (w1, .error (Wrap e "failed to send a raw transaction"))
      ∧ w1.calls = w.calls ++ [Call.sendRawTransaction raw1, Call.sendRawTransaction raw2]
      ∧ (∃ r ∈ w1.transfers, r.ID = d2.ID ∧ r.DeletedAt = none)
      ∧ ∀ r ∈ w1.transfers, r.ID = d2.ID → r.DeletedAt = none →
          r.Status = TransferStatus.failed
            ∧ r.Message = Wrap e "failed to send a raw transaction" := by
  have hrun := CompleteTransfers_of_failure env w ethTransferID balance [d1] d2 [] raw2 e
    hbatch hbal hge
    (by
      intro d hd
      rw [List.mem_singleton] at hd
      rw [hd, h1]
      exact fun hc => by cases hc)
    (by
      intro i hi
      have hi0 : i = 0 := by simpa using hi
      subst hi0
      exact ⟨txHash, by simpa [h1] using hs1⟩)
    h2 hs2
  have hmem : d2 ∈ Postgres.GetQueuedTransfersFor w.transfers ethTransferID := by
    rw [hbatch]
    simp
  have hin := (mem_GetQueuedTransfersFor _ _ _).mp hmem
  have hq := hin.2
  simp only [Postgres.queuedFor, decide_eq_true_eq] at hq
  have hsel : ∀ r0 : Transfer, r0.ID = d2.ID → r0.DeletedAt = none →
      (Postgres.writeErrorRow env.now d2.ID (Wrap e "failed to send a raw transaction")
        (Postgres.processingRow env.now ethTransferID r0)).Status = TransferStatus.failed
      ∧ (Postgres.writeErrorRow env.now d2.ID (Wrap e "failed to send a raw transaction")
        (Postgres.processingRow env.now ethTransferID r0)).Message
          = Wrap e "failed to send a raw transaction" := by
    intro r0 hid hlive
    simp only [Postgres.writeErrorRow, Postgres.processingRow]
    split_ifs <;> simp_all
  have hkeep : ∀ r0 : Transfer,
      (Postgres.writeErrorRow env.now d2.ID (Wrap e "failed to send a raw transaction")
        (Postgres.processingRow env.now ethTransferID r0)).ID = r0.ID
      ∧ (Postgres.writeErrorRow env.now d2.ID (Wrap e "failed to send a raw transaction")
        (Postgres.processingRow env.now ethTransferID r0)).DeletedAt = r0.DeletedAt := by
    intro r0
    simp only [Postgres.writeErrorRow, Postgres.processingRow]
    split_ifs <;> exact ⟨rfl, rfl⟩
  refine ⟨_, hrun, ?_, ?_, ?_⟩
  · simp [broadcastCalls, h1]
  · refine ⟨_, ?_, (hkeep d2).1, (hkeep d2).2.trans hq.2.2⟩
    simp only [Postgres.WriteTransferError, Postgres.StartEthTransferProcessing, List.map_map]
    exact List.mem_map_of_mem _ hin.1
  · intro r hr hid hlive
    simp only [Postgres.WriteTransferError, Postgres.StartEthTransferProcessing, List.map_map]
      at hr
    obtain ⟨r0, _, rfl⟩ := List.mem_map.mp hr
    simp only [Function.comp_apply] at hid hlive ⊢
    exact hsel r0 ((hkeep r0).1.symm.trans hid) ((hkeep r0).2.symm.trans hlive)

/-- C11 (witness): the queued pair of `sampleConfirmedWorld`, the node rejecting `0xraw6`. -/
theorem C11_witness_second_rejected :
    ∃ w1, Manager.CompleteTransfers sampleSecondFailsEnv sampleConfirmedWorld "e2"
          = (w1, .error (Wrap "nonce too low" "failed to send a raw transaction"))
      ∧ w1.calls = sampleConfirmedWorld.calls
          ++ [Call.sendRawTransaction "0xraw5", Call.sendRawTransaction "0xraw6"]
      ∧ (∃ r ∈ w1.transfers, r.ID = "t2" ∧ r.DeletedAt = none)
      ∧ ∀ r ∈ w1.transfers, r.ID = "t2" → r.DeletedAt = none →
          r.Status = TransferStatus.failed
            ∧ r.Message = Wrap "nonce too low" "failed to send a raw transaction" :=
  C11_failed_second_broadcast_fails_the_transfer sampleSecondFailsEnv sampleConfirmedWorld "e2"
    100000000 sampleConfirmedRow
    { sampleTaxRow with RawTx := some "0xraw6", Status := TransferStatus.queued,
                        EthTransferID := some "e2", UpdatedAt := some 100 }
    "0xraw5" "0xraw6" "0xhash0xraw5" "nonce too low"
    (by decide) rfl (by decide) rfl rfl rfl rfl

/-- C11 (counterexample): in `sampleConfirmedWorld` the pair `t1`, `t2` is queued under the
top-up `e2`; the broadcast of `t1` succeeds and the node rejects that of `t2`.  When
`CompleteTransfers` returns, the second transfer is failed, not queued, and carries the
error message. -/
theorem C11_counterexample_second_is_failed :
    (Manager.CompleteTransfers sampleSecondFailsEnv sampleConfirmedWorld "e2").2
        = .error "failed to send a raw transaction: nonce too low"
      ∧ (Manager.CompleteTransfers sampleSecondFailsEnv sampleConfirmedWorld "e2").1.calls
        = [Call.SendTransaction "0xtopup" "0xa1" 1600000,
           Call.sendRawTransaction "0xraw5", Call.sendRawTransaction "0xraw6"]
      ∧ ((Manager.CompleteTransfers sampleSecondFailsEnv sampleConfirmedWorld
            "e2").1.transfers.filter fun r => r.ID = "t2").map
            (fun r => (r.ID, r.Status, r.Message))
        = [("t2", TransferStatus.failed, "failed to send a raw transaction: nonce too low")] := by
  refine ⟨rfl, by decide, by decide⟩

/-- C12 (amended): the first broadcast that fails ends the batch.  When the queued batch is
`pre ++ d :: rest` in nonce order, the balance covers the fee, every broadcast of `pre`
succeeds and the broadcast of `d` fails with `e`, then `CompleteTransfers` returns the wrapped
error and the on-chain calls it made are the broadcasts of `pre` in order followed by the
attempt for `d`: no transfer of `rest` is broadcast. -/
theorem C12_failed_broadcast_aborts_the_batch (env : Env) (w : World) (ethTransferID : String)
    (balance : Int) (pre : List Transfer) (d : Transfer) (rest : List Transfer)
    (rawTx e : String)
    (hbatch : Postgres.GetQueuedTransfersFor w.transfers ethTransferID = pre ++ d :: rest)
    (hbal : env.BalanceAt (Manager.lastFromAddress (pre ++ d :: rest)) = .ok balance)
    (hge : Manager.totalGasFee (pre ++ d :: rest) ≤ balance)
    (hraw : ∀ d1 ∈ pre, d1.RawTx ≠ none)
    (hpre : ∀ (i : Nat) (hi : i < pre.length), ∃ txHash,
      env.sendRawTransaction (w.calls.length + i) (pre[i].RawTx.getD "") = .ok txHash)
    (hd : d.RawTx = some rawTx)
    (hfail : env.sendRawTransaction (w.calls.length + pre.length) rawTx = .error e) :
    ∃ w1, Manager.CompleteTransfers env w ethTransferID
          = (w1, .error (Wrap e "failed to send a raw transaction"))
      ∧ w1.calls = w.calls
          ++ (pre ++ [d]).map fun t => Call.sendRawTransaction (t.RawTx.getD "") := by
  refine ⟨_, CompleteTransfers_of_failure env w ethTransferID balance pre d rest rawTx e
    hbatch hbal hge hraw hpre hd hfail, ?_⟩
  simp [broadcastCalls, hd]

/-- C12 (witness): the queued pair of `sampleConfirmedWorld`, the node rejecting `0xraw5`,
the raw transaction of the first transfer. -/
theorem C12_witness_first_rejected :
    ∃ w1, Manager.CompleteTransfers sampleFirstFailsEnv sampleConfirmedWorld "e2"
          = (w1, .error (Wrap "nonce too low" "failed to send a raw transaction"))
      ∧ w1.calls = sampleConfirmedWorld.calls
          ++ (([] : List Transfer) ++ [sampleConfirmedRow]).map
              fun t => Call.sendRawTransaction (t.RawTx.getD "") :=
  C12_failed_broadcast_aborts_the_batch sampleFirstFailsEnv sampleConfirmedWorld "e2"
    100000000 [] sampleConfirmedRow
    [{ sampleTaxRow with RawTx := some "0xraw6", Status := TransferStatus.queued,
                         EthTransferID := some "e2", UpdatedAt := some 100 }]
    "0xraw5" "nonce too low"
    (by decide) rfl (by decide) (fun _ h => by cases h) (fun _ h => by cases h) rfl rfl

/-- C12 (counterexample): in `sampleConfirmedWorld` the batch of the top-up `e2` is `t1`
(nonce 5, raw transaction `0xraw5`) then `t2` (nonce 6, `0xraw6`).  The node rejects `0xraw5`
and would accept `0xraw6`; `CompleteTransfers` fails after the one attempt, and `0xraw6` is
never broadcast. -/
theorem C12_counterexample_later_transfer_not_broadcast :
    (Postgres.GetQueuedTransfersFor sampleConfirmedWorld.transfers "e2").map
        (fun r => (r.ID, r.Nonce, r.RawTx))
        = [("t1", 5, some "0xraw5"), ("t2", 6, some "0xraw6")]
      ∧ sampleFirstFailsEnv.sendRawTransaction 2 "0xraw6" = .ok "0xhash0xraw6"
      ∧ (Manager.CompleteTransfers sampleFirstFailsEnv sampleConfirmedWorld "e2").2
          = .error "failed to send a raw transaction: nonce too low"
      ∧ (Manager.CompleteTransfers sampleFirstFailsEnv sampleConfirmedWorld "e2").1.calls
          = [Call.SendTransaction "0xtopup" "0xa1" 1600000, Call.sendRawTransaction "0xraw5"]
      ∧ Call.sendRawTransaction "0xraw6"
          ∉ (Manager.CompleteTransfers sampleFirstFailsEnv sampleConfirmedWorld "e2").1.calls := by
  refine ⟨by decide, rfl, rfl, by decide, by decide⟩

/-! ### Decimals -/

theorem Decimal.toRat_Mul (a b : Decimal) : (a.Mul b).toRat = a.toRat * b.toRat := by
  simp only [Decimal.toRat, Decimal.Mul, pow_add]
  push_cast
  field_simp

theorem Decimal.toRat_Add (a b : Decimal) : (a.Add b).toRat = a.toRat + b.toRat := by
  simp only [Decimal.toRat, Decimal.Add, pow_add]
  push_cast
  field_simp

/-- The rounded quotient computed by `DivPow10` on an integer, for every number of decimals. -/
theorem divRound_eq (a d : Nat) :
    (2 * (a * 10 ^ 16) + 10 ^ d) / (2 * 10 ^ d) * 10 ^ d / 10 ^ 16
      = keptUnits a d * 10 ^ (d - 16) := by
  unfold keptUnits
  rcases Nat.le_total d 16 with h | h
  · obtain ⟨k, hk⟩ := Nat.exists_eq_add_of_le h
    have hd : d - 16 = 0 := by omega
    have h16 : (10 : Nat) ^ 16 = 10 ^ d * 10 ^ k := by rw [← pow_add, ← hk]
    have hpos : 0 < (10 : Nat) ^ d := by positivity
    have hposk : 0 < (10 : Nat) ^ k := by positivity
    have hq : (2 * (a * 10 ^ 16) + 10 ^ d) / (2 * 10 ^ d) = a * 10 ^ k := by
      have e1 : 2 * (a * 10 ^ 16) + 10 ^ d = 10 ^ d * (2 * (a * 10 ^ k) + 1) := by
        rw [h16]
        ring
      have e2 : 2 * 10 ^ d = 10 ^ d * 2 := by ring
      rw [e1, e2, Nat.mul_div_mul_left _ _ hpos]
      omega
    rw [hq, hd, h16]
    have e3 : a * 10 ^ k * 10 ^ d = 10 ^ d * 10 ^ k * a := by ring
    rw [e3, Nat.mul_div_cancel_left _ (Nat.mul_pos hpos hposk)]
    simp only [pow_zero, Nat.mul_one]
    omega
  · obtain ⟨k, hk⟩ := Nat.exists_eq_add_of_le h
    have hd : d - 16 = k := by omega
    have hpow : (10 : Nat) ^ d = 10 ^ 16 * 10 ^ k := by rw [← pow_add, ← hk]
    have hpos : 0 < (10 : Nat) ^ 16 := by positivity
    have hq : (2 * (a * 10 ^ 16) + 10 ^ d) / (2 * 10 ^ d)
        = (2 * a + 10 ^ k) / (2 * 10 ^ k) := by
      have e1 : 2 * (a * 10 ^ 16) + 10 ^ d = 10 ^ 16 * (2 * a + 10 ^ k) := by
        rw [hpow]
        ring
      have e2 : 2 * 10 ^ d = 10 ^ 16 * (2 * 10 ^ k) := by
        rw [hpow]
        ring
      rw [e1, e2, Nat.mul_div_mul_left _ _ hpos]
    rw [hq, hd, hpow]
    have e3 : (2 * a + 10 ^ k) / (2 * 10 ^ k) * (10 ^ 16 * 10 ^ k)
        = 10 ^ 16 * ((2 * a + 10 ^ k) / (2 * 10 ^ k) * 10 ^ k) := by ring
    rw [e3, Nat.mul_div_cancel_left _ hpos]

/-- The round trip through `ToETH` and `ToWei` in closed form: `x` rounded half away from
zero to a multiple of `10 ^ (d - 16)`. -/
theorem ToWei_ToETH (x : Int) (d : Nat) :
    ToWei (ToETH x d) d = x.sign * ((keptUnits x.natAbs d * 10 ^ (d - 16) : Nat) : Int) := by
  have key := divRound_eq x.natAbs d
  simp only [ToWei, ToETH, Decimal.ofBigInt, Decimal.DivPow10, Decimal.Mul, Decimal.IntPart,
    Decimal.DivisionPrecision, Nat.zero_add, Nat.add_zero]
  have hcast : ∀ n : Nat, ((n : Int) * 10 ^ d).tdiv (10 ^ 16) = ((n * 10 ^ d / 10 ^ 16 : Nat) : Int) := by
    intro n
    rw [Int.ofNat_tdiv]
    push_cast
    rfl
  by_cases hx : x < 0
  · rw [if_pos hx, Int.neg_mul, Int.neg_tdiv, hcast, key, Int.sign_eq_neg_one_of_neg hx]
    simp
  · rw [if_neg hx, hcast, key]
    rcases lt_or_eq_of_le (not_lt.mp hx) with h | h
    · rw [Int.sign_eq_one_of_pos h]
      simp
    · rw [← h]
      have h0 : keptUnits 0 d = 0 := by
        unfold keptUnits
        apply Nat.div_eq_of_lt
        have hpos : 0 < (10 : Nat) ^ (d - 16) := by positivity
        omega
      simp [h0]

/-- The kept units of a multiple of `10 ^ (d - 16)`. -/
theorem keptUnits_mul (j d : Nat) : keptUnits (j * 10 ^ (d - 16)) d = j := by
  unfold keptUnits
  have hpos : 0 < (10 : Nat) ^ (d - 16) := by positivity
  have e1 : 2 * (j * 10 ^ (d - 16)) + 10 ^ (d - 16) = 10 ^ (d - 16) * (2 * j + 1) := by ring
  have e2 : 2 * 10 ^ (d - 16) = 10 ^ (d - 16) * 2 := by ring
  rw [e1, e2, Nat.mul_div_mul_left _ _ hpos]
  omega

/-- C17 (amended): for every integer `x` and every number of decimals `d`, the round trip
`ToWei(ToETH(x, d), d)` gives `x` back exactly when `x` is a multiple of `10 ^ (d - 16)`: always
for `d ≤ 16`, and for larger `d` only when the digits of `x` below the sixteenth decimal place
are zero, because `ToETH` keeps sixteen digits after the decimal point. -/
theorem C17_round_trip_iff_sixteen_digits (x : Int) (d : Nat) :
    (ToWei (ToETH x d) d = x ↔ (10 : Int) ^ (d - 16) ∣ x)
      ∧ (d ≤ 16 → ToWei (ToETH x d) d = x) := by
  have hiff : ToWei (ToETH x d) d = x ↔ (10 : Int) ^ (d - 16) ∣ x := by
    rw [ToWei_ToETH]
    constructor
    · intro h
      rw [← h]
      push_cast
      exact Dvd.intro_left (x.sign * (keptUnits x.natAbs d : Int)) (by ring)
    · intro h
      have h1 : ((10 ^ (d - 16) : Nat) : Int) ∣ x := by
        push_cast
        exact h
      have h2 : 10 ^ (d - 16) ∣ x.natAbs := Int.natCast_dvd.mp h1
      obtain ⟨j, hj⟩ := h2
      have hj2 : x.natAbs = j * 10 ^ (d - 16) := by rw [hj, Nat.mul_comm]
      rw [hj2, keptUnits_mul, ← hj2, Int.sign_mul_natAbs]
  refine ⟨hiff, fun hd => hiff.mpr ?_⟩
  have h0 : d - 16 = 0 := by omega
  rw [h0, pow_zero]
  exact one_dvd x

/-- C17 (witness): with 6 decimals, 1234567 base units are 1.234567 and come back as
1234567. -/
theorem C17_witness_six_decimals :
    ToETH 1234567 6 = { coeff := 12345670000000000, scale := 16 }
      ∧ ToWei (ToETH 1234567 6) 6 = 1234567 :=
  ⟨by decide, (C17_round_trip_iff_sixteen_digits 1234567 6).2 (by decide)⟩

/-- C17 (counterexample): with 18 decimals, one base unit converts to zero and back to zero,
and 1234567890123456789 base units come back as 1234567890123456800. -/
theorem C17_counterexample_eighteen_decimals :
    ToETH 1 18 = { coeff := 0, scale := 16 }
      ∧ ToWei (ToETH 1 18) 18 = 0
      ∧ ToETH 1234567890123456789 18 = { coeff := 12345678901234568, scale := 16 }
      ∧ ToWei (ToETH 1234567890123456789 18) 18 = 1234567890123456800 := by
  refine ⟨by decide, by decide, by decide, by decide⟩

/-- C18: for every non-negative decimal amount and every number of decimals, `ToWei` is the
floor of the amount times `10 ^ decimals`. -/
theorem C18_ToWei_is_floor (amount : Decimal) (decimals : Nat) (h : 0 ≤ amount.coeff) :
    ToWei amount decimals = ⌊amount.toRat * 10 ^ decimals⌋ := by
  have hr : amount.toRat * 10 ^ decimals
      = ((amount.coeff * 10 ^ decimals : Int) : ℚ) / ((10 ^ amount.scale : Nat) : ℚ) := by
    simp only [Decimal.toRat]
    push_cast
    ring
  rw [hr, Rat.floor_intCast_div_natCast]
  simp only [ToWei, Decimal.Mul, Decimal.IntPart, Nat.add_zero]
  rw [Int.tdiv_eq_ediv (Int.mul_nonneg h (by positivity)) (by positivity)]
  push_cast
  rfl

/-- C18 (witness): 1.2345 with two decimals is 123 base units; the digits beyond the second
are dropped. -/
theorem C18_witness_more_digits_than_decimals :
    ToWei { coeff := 12345, scale := 4 } 2 = 123
      ∧ ToWei { coeff := 12345, scale := 4 } 2
          = ⌊Decimal.toRat { coeff := 12345, scale := 4 } * 10 ^ 2⌋ :=
  ⟨by decide, C18_ToWei_is_floor { coeff := 12345, scale := 4 } 2 (by decide)⟩

/-! ### `estimateTax` -/

/-- The gas fee in ETH that `ToETH(gasFee, 18)` yields for a non-negative fee: the fee in
units of 100 wei, rounded half up, over `10 ^ 16`. -/
theorem ToETH_eighteen (fee : Nat) :
    ToETH (fee : Int) 18 = { coeff := (((fee + 50) / 100 : Nat) : Int), scale := 16 } := by
  have hq : (2 * (fee * 10 ^ 16) + 10 ^ 18) / (2 * 10 ^ 18) = (fee + 50) / 100 := by
    have e1 : 2 * (fee * 10 ^ 16) + 10 ^ 18 = 2 * 10 ^ 16 * (fee + 50) := by ring
    have e2 : 2 * 10 ^ 18 = 2 * 10 ^ 16 * 100 := by norm_num
    rw [e1, e2, Nat.mul_div_mul_left _ _ (by positivity)]
  simp only [ToETH, Decimal.ofBigInt, Decimal.DivPow10, Decimal.DivisionPrecision,
    Int.natAbs_ofNat, Nat.zero_add]
  rw [if_neg (by omega), hq]

/-- The gas fee `estimateTax` computes when the total gas limit is below `2 ^ 63`. -/
theorem estimateTax_gasFee (cfg : Config) (g : Nat)
    (hlimit : cfg.TransferGas + cfg.TaxGas + ethTxGasLimit < 2 ^ 63) :
    CalcGasCost (Manager.estimateTotalGasLimit cfg) g
      = ((g * (cfg.TransferGas + cfg.TaxGas + ethTxGasLimit) : Nat) : Int) := by
  have hmod : (cfg.TransferGas + cfg.TaxGas + ethTxGasLimit) % 2 ^ 64
      = cfg.TransferGas + cfg.TaxGas + ethTxGasLimit := Nat.mod_eq_of_lt (by omega)
  unfold Manager.estimateTotalGasLimit
  rw [hmod, CalcGasCost_of_lt _ _ hlimit]
  push_cast
  ring

/-- C16 (amended): when the total gas limit transferGas + taxGas + 21000 is below `2 ^ 63`,
`estimateTax` returns the `float64` of the decimal
`round(g·total / 100) / 10 ^ 16 · r · (1 + s)`, where the gas fee in ETH is kept to sixteen
digits after the decimal point (rounded half up) and the products and the sum are exact; when
`g·total` is a multiple of 100 wei this is `g·total / 10 ^ 18 · r · (1 + s)` exactly. -/
theorem C16_estimateTax_keeps_sixteen_digits (cfg : Config) (env : Env) (g : Nat) (r : Float64)
    (hlimit : cfg.TransferGas + cfg.TaxGas + ethTxGasLimit < 2 ^ 63)
    (hgas : env.SuggestGasPrice = .ok g) (hrate : env.EthToSdr = .ok r) :
    Manager.estimateTax cfg env = .ok (env.toFloat64 (Manager.taxDecimal cfg env g r), g)
      ∧ (Manager.taxDecimal cfg env g r).toRat
          = (((g * (cfg.TransferGas + cfg.TaxGas + ethTxGasLimit) + 50) / 100 : Nat) : ℚ) / 10 ^ 16
              * (env.NewFromFloat r).toRat * (1 + (env.NewFromFloat cfg.Surcharge).toRat)
      ∧ (100 ∣ g * (cfg.TransferGas + cfg.TaxGas + ethTxGasLimit) →
          (Manager.taxDecimal cfg env g r).toRat
            = ((g * (cfg.TransferGas + cfg.TaxGas + ethTxGasLimit) : Nat) : ℚ) / 10 ^ 18
                * (env.NewFromFloat r).toRat * (1 + (env.NewFromFloat cfg.Surcharge).toRat)) := by
  have hdec : (Manager.taxDecimal cfg env g r).toRat
      = (((g * (cfg.TransferGas + cfg.TaxGas + ethTxGasLimit) + 50) / 100 : Nat) : ℚ) / 10 ^ 16
          * (env.NewFromFloat r).toRat * (1 + (env.NewFromFloat cfg.Surcharge).toRat) := by
    unfold Manager.taxDecimal
    simp only [Decimal.toRat_Add, Decimal.toRat_Mul]
    rw [estimateTax_gasFee cfg g hlimit, ToETH_eighteen]
    simp only [Decimal.toRat, Int.cast_natCast]
    ring
  refine ⟨?_, hdec, ?_⟩
  · unfold Manager.estimateTax
    simp only [hgas, hrate]
  · rintro ⟨j, hj⟩
    rw [hdec, hj]
    have h1 : (100 * j + 50) / 100 = j := by omega
    rw [h1]
    push_cast
    ring

/-- C16 (witness): the configuration of the first scenario, gas price 10 wei. -/
theorem C16_witness_sample_tax :
    Manager.estimateTax sampleConfig sampleEnv
        = .ok (sampleEnv.toFloat64
            (Manager.taxDecimal sampleConfig sampleEnv 10 { bits := 0x4202a05f20000000 }), 10)
      ∧ (Manager.taxDecimal sampleConfig sampleEnv 10 { bits := 0x4202a05f20000000 }).toRat
          = (((10 * (sampleConfig.TransferGas + sampleConfig.TaxGas + ethTxGasLimit) + 50) / 100
                : Nat) : ℚ) / 10 ^ 16
              * (sampleEnv.NewFromFloat { bits := 0x4202a05f20000000 }).toRat
              * (1 + (sampleEnv.NewFromFloat sampleConfig.Surcharge).toRat) :=
  have h := C16_estimateTax_keeps_sixteen_digits sampleConfig sampleEnv 10
    { bits := 0x4202a05f20000000 } (by decide) rfl rfl
  ⟨h.1, h.2.1⟩

/-- C16 (counterexample): gas price 10 wei, transferGas 80001, taxGas 80000, rate 1e10 and
surcharge 0.2.  The gas fee is 1810010 wei; `ToETH` keeps 18100 units of 100 wei, and the
tax before its conversion to `float64` is 0.02172, not 1810010 / 10^18 · 10^10 · 1.2 =
0.021720120. -/
theorem C16_counterexample_fee_not_multiple_of_hundred :
    sampleEnv.SuggestGasPrice = .ok 10
      ∧ sampleEnv.NewFromFloat { bits := 0x4202a05f20000000 } = { coeff := 10000000000, scale := 0 }
      ∧ sampleEnv.NewFromFloat sampleOddGasConfig.Surcharge = { coeff := 2, scale := 1 }
      ∧ CalcGasCost (Manager.estimateTotalGasLimit sampleOddGasConfig) 10 = 1810010
      ∧ ToETH 1810010 18 = { coeff := 18100, scale := 16 }
      ∧ Manager.estimateTax sampleOddGasConfig sampleEnv
          = .ok (sampleEnv.toFloat64
              (Manager.taxDecimal sampleOddGasConfig sampleEnv 10 { bits := 0x4202a05f20000000 }), 10)
      ∧ (Manager.taxDecimal sampleOddGasConfig sampleEnv 10 { bits := 0x4202a05f20000000 }).toRat
          = 2172 / 100000
      ∧ (Manager.taxDecimal sampleOddGasConfig sampleEnv 10 { bits := 0x4202a05f20000000 }).toRat
          ≠ (10 * (80001 + 80000 + 21000) : ℚ) / 10 ^ 18 * 10000000000 * (1 + 2 / 10) := by
  have h : Manager.taxDecimal sampleOddGasConfig sampleEnv 10 { bits := 0x4202a05f20000000 }
      = { coeff := 21720000000000000000000000000000, scale := 33 } := by decide
  refine ⟨rfl, by decide, by decide, by decide, by decide, rfl, ?_, ?_⟩
  · rw [h]
    simp only [Decimal.toRat]
    norm_num
  · rw [h]
    simp only [Decimal.toRat]
    norm_num

/-! ### Hexadecimal round trip -/

theorem hexValue_digitChar (k : Nat) (h : k < 16) :
    hexutil.hexValue (Nat.digitChar k) = some k := by
  interval_cases k <;> rfl

theorem digitChar_ne_zero (k : Nat) (h : k < 16) (h0 : 0 < k) : Nat.digitChar k ≠ '0' := by
  interval_cases k <;> decide

theorem parseHex_toDigitsCore (fuel n : Nat) (ds : List Char) (h : n < fuel) :
    hexutil.parseHex (Nat.toDigitsCore 16 fuel n ds) 0 = hexutil.parseHex ds n := by
  induction fuel generalizing n ds with
  | zero => omega
  | succ fuel ih =>
    unfold Nat.toDigitsCore
    dsimp only
    split
    · rename_i hz
      have hlt : n < 16 := by omega
      rw [Nat.mod_eq_of_lt hlt]
      simp [hexutil.parseHex, hexValue_digitChar n hlt]
    · rename_i hz
      rw [ih (n / 16) _ (by omega)]
      simp only [hexutil.parseHex, hexValue_digitChar (n % 16) (Nat.mod_lt n (by decide))]
      rw [Nat.div_add_mod]

theorem parseHex_toDigits (n : Nat) : hexutil.parseHex (Nat.toDigits 16 n) 0 = some n := by
  unfold Nat.toDigits
  rw [parseHex_toDigitsCore _ _ _ (Nat.lt_succ_self n)]
  rfl

theorem toDigitsCore_head (fuel n : Nat) (ds : List Char) (h : n < fuel) (hn : 0 < n) :
    ∃ c rest, Nat.toDigitsCore 16 fuel n ds = c :: rest ∧ c ≠ '0' := by
  induction fuel generalizing n ds with
  | zero => omega
  | succ fuel ih =>
    unfold Nat.toDigitsCore
    dsimp only
    split
    · rename_i hz
      have hlt : n < 16 := by omega
      rw [Nat.mod_eq_of_lt hlt]
      exact ⟨_, _, rfl, digitChar_ne_zero n hlt hn⟩
    · rename_i hz
      exact ih (n / 16) _ (by omega) (by omega)

theorem toDigitsCore_length (fuel n : Nat) (ds : List Char) (k : Nat) (h : n < fuel)
    (hk : n < 16 ^ (k + 1)) :
    (Nat.toDigitsCore 16 fuel n ds).length ≤ ds.length + k + 1 := by
  induction fuel generalizing n ds k with
  | zero => omega
  | succ fuel ih =>
    unfold Nat.toDigitsCore
    dsimp only
    split
    · simp
    · rename_i hz
      cases k with
      | zero =>
        exfalso
        apply hz
        rw [Nat.zero_add, pow_one] at hk
        omega
      | succ k =>
        have hk2 : n / 16 < 16 ^ (k + 1) := by
          rw [Nat.div_lt_iff_lt_mul (by decide)]
          rw [pow_succ] at hk
          exact hk
        have := ih (n / 16) (Nat.digitChar (n % 16) :: ds) k (by omega) hk2
        simp only [List.length_cons] at this
        omega

/-- The digits `hexutil.EncodeUint64` and `EncodeBig` write pass `checkNumber`. -/
theorem checkNumber_toDigits (n : Nat) :
    hexutil.checkNumber ("0x" ++ String.mk (Nat.toDigits 16 n)) = some (Nat.toDigits 16 n) := by
  have hdata : ("0x" ++ String.mk (Nat.toDigits 16 n)).data = '0' :: 'x' :: Nat.toDigits 16 n := by
    rw [String.data_append]
    rfl
  unfold hexutil.checkNumber
  rw [hdata]
  rcases Nat.eq_zero_or_pos n with h0 | hpos
  · subst h0
    rfl
  · obtain ⟨c, rest, hc, hne⟩ := toDigitsCore_head (n + 1) n [] (Nat.lt_succ_self n) hpos
    have hd : Nat.toDigits 16 n = c :: rest := hc
    rw [hd]
    show (if ('x' = 'x' ∨ 'x' = 'X') ∧ c :: rest ≠ []
        ∧ ¬ (1 < (c :: rest).length ∧ (c :: rest).head? = some '0') then some (c :: rest)
      else none) = some (c :: rest)
    rw [if_pos]
    refine ⟨Or.inl rfl, by simp, ?_⟩
    simp only [List.head?_cons, Option.some.injEq, not_and]
    exact fun _ => hne

/-- A `uint64` survives `hexutil.EncodeUint64` followed by `hexutil.DecodeUint64`. -/
theorem DecodeUint64_EncodeUint64 (n : Nat) (h : n < 2 ^ 64) :
    hexutil.DecodeUint64 (hexutil.EncodeUint64 n) = n := by
  unfold hexutil.DecodeUint64 hexutil.EncodeUint64
  rw [checkNumber_toDigits]
  dsimp only
  rw [parseHex_toDigits]
  dsimp only
  rw [if_pos h]

/-- A non-negative integer below `2 ^ 256` survives `hexutil.EncodeBig` followed by
`hexutil.DecodeBig`. -/
theorem DecodeBig_EncodeBig (g : Nat) (h : g < 2 ^ 256) :
    hexutil.DecodeBig (hexutil.EncodeBig (g : Int)) = some (g : Int) := by
  rcases Nat.eq_zero_or_pos g with h0 | hpos
  · subst h0
    rfl
  · have hlen : (Nat.toDigits 16 g).length ≤ 64 := by
      have := toDigitsCore_length (g + 1) g [] 63 (Nat.lt_succ_self g) (by
        have e : (16 : Nat) ^ (63 + 1) = 2 ^ 256 := by norm_num
        rw [e]
        exact h)
      simpa using this
    unfold hexutil.DecodeBig hexutil.EncodeBig
    rw [if_neg (by omega), if_pos (by omega), Int.natAbs_ofNat, checkNumber_toDigits]
    dsimp only
    rw [if_neg (by omega), parseHex_toDigits]
    rfl

/-! ### `CreateTransfer`: the returned pair -/

theorem createTransfer_ok (env : Env) (c : Nat) (ty : TransferType) (amount : Float64)
    (fromAddress toAddress tokenAddress : String) (suggestNonce : Option Nat)
    (gasPrice gasLimit : Nat) (chainID : String) (c1 : Nat) (u : UnsignedTransfer) (n : Nat)
    (h : Manager.createTransfer env c ty amount fromAddress toAddress tokenAddress suggestNonce
      gasPrice gasLimit chainID = (c1, .ok (u, n))) :
    (suggestNonce = none → env.PendingNonceAt fromAddress = .ok n)
      ∧ (∀ s, suggestNonce = some s → n = s)
      ∧ u.TransferType = ty
      ∧ u.TxData.Nonce = hexutil.EncodeUint64 n
      ∧ u.TxData.GasLimit = hexutil.EncodeUint64 gasLimit
      ∧ u.TxData.GasPrice = hexutil.EncodeBig gasPrice
      ∧ u.TxData.Value = "0x0"
      ∧ u.TxData.To = env.addressString tokenAddress := by
  unfold Manager.createTransfer at h
  split at h
  · simp at h
  · dsimp only at h
    cases suggestNonce with
    | none =>
      dsimp only at h
      cases hp : env.PendingNonceAt fromAddress with
      | error e =>
        rw [hp] at h
        simp at h
      | ok nonce =>
        rw [hp] at h
        simp only [Prod.mk.injEq, Except.ok.injEq] at h
        obtain ⟨_, hu, hn⟩ := h
        subst hu
        subst hn
        exact ⟨fun _ => rfl, fun s hs => (by cases hs), rfl, rfl, rfl, rfl, rfl, rfl⟩
    | some s =>
      simp only [Prod.mk.injEq, Except.ok.injEq] at h
      obtain ⟨_, hu, hn⟩ := h
      subst hu
      subst hn
      exact ⟨fun hc => (by cases hc), fun s1 hs => (Option.some.inj hs), rfl, rfl, rfl, rfl,
        rfl, rfl⟩

theorem estimateTax_ok (cfg : Config) (env : Env) (tax : Float64) (gasPrice : Nat)
    (h : Manager.estimateTax cfg env = .ok (tax, gasPrice)) :
    env.SuggestGasPrice = .ok gasPrice := by
  unfold Manager.estimateTax at h
  split at h
  · simp at h
  · rename_i g hg
    split at h
    · simp at h
    · simp only [Except.ok.injEq, Prod.mk.injEq] at h
      rw [hg, h.2]

/-- C13: when `CreateTransfer` succeeds (the configured gas limits being `uint64` values, the
account nonce `N` not the largest `uint64` and the gas price below `2 ^ 256`), it returns
exactly two unsigned transactions, the `transfer_token` one with nonce `N =
PendingNonceAt(from)` and gas limit transferGas, then the `tax` one with nonce `N + 1` and gas
limit taxGas, both with value 0, the token contract as `to` and the suggested gas price; and
the two rows appended to the table have their ids, status new, the sender's address and the
same nonce, gas price and gas limit. -/
theorem C13_CreateTransfer_returns_transfer_and_tax (cfg : Config) (env : Env) (c : Nat)
    (w : World) (tx : Models.NewTransfer) (wc : World × Nat) (us : List UnsignedTransfer)
    (hT : cfg.TransferGas < 2 ^ 64) (hX : cfg.TaxGas < 2 ^ 64)
    (hnonce : ∀ N, env.PendingNonceAt tx.FromAddress = .ok N → N + 1 < 2 ^ 64)
    (hprice : ∀ g, env.SuggestGasPrice = .ok g → g < 2 ^ 256)
    (h : Manager.CreateTransfer cfg env c w tx = (wc, .ok us)) :
    ∃ (N g : Nat) (u1 u2 : UnsignedTransfer) (r1 r2 : Transfer),
      env.PendingNonceAt tx.FromAddress = .ok N
        ∧ env.SuggestGasPrice = .ok g
        ∧ us = [u1, u2]
        ∧ wc.1.transfers
            = Postgres.ClearUnsignedTransfers env.now w.transfers tx.FromAddress ++ [r1, r2]
        ∧ returnedWith cfg env u1 r1 TransferType.TransferToken tx.FromAddress N g cfg.TransferGas
        ∧ returnedWith cfg env u2 r2 TransferType.Tax tx.FromAddress (N + 1) g cfg.TaxGas := by
  unfold Manager.CreateTransfer at h
  split at h
  · simp at h
  · dsimp only at h
    split at h
    · simp at h
    · rename_i tax gasPrice hest
      split at h
      · simp at h
      · split at h
        · simp at h
        · split at h
          · simp at h
          · split at h
            · simp at h
            · split at h
              · simp at h
              · rename_i cache1 transferTx nonce h1
                split at h
                · simp at h
                · rename_i cache2 taxTx n2 h2
                  have hg := estimateTax_ok cfg env tax gasPrice hest
                  obtain ⟨hN, _, a1, a2, a3, a4, a5, a6⟩ :=
                    createTransfer_ok _ _ _ _ _ _ _ _ _ _ _ _ _ _ h1
                  obtain ⟨_, hN2, b1, b2, b3, b4, b5, b6⟩ :=
                    createTransfer_ok _ _ _ _ _ _ _ _ _ _ _ _ _ _ h2
                  have hNok := hN rfl
                  have hn2 : n2 = nonce + 1 := by
                    rw [hN2 _ rfl]
                    exact Nat.mod_eq_of_lt (hnonce nonce hNok)
                  have hlt : nonce < 2 ^ 64 := by
                    have := hnonce nonce hNok
                    omega
                  have hlt2 : nonce + 1 < 2 ^ 64 := hnonce nonce hNok
                  have hgp := DecodeBig_EncodeBig gasPrice (hprice gasPrice hg)
                  simp only [Prod.mk.injEq, Except.ok.injEq] at h
                  obtain ⟨hw, hus⟩ := h
                  subst hw
                  subst hus
                  refine ⟨nonce, gasPrice, _, _, _, _, hNok, hg, rfl, rfl, ?_, ?_⟩
                  · simp only [returnedWith, NewTransferFromPublic, a1, a2, a3, a4, a5, a6,
                      DecodeUint64_EncodeUint64 nonce hlt,
                      DecodeUint64_EncodeUint64 cfg.TransferGas hT, hgp, Option.getD_some]
                    simp
                  · simp only [returnedWith, NewTransferFromPublic, b1, b2, b3, b4, b5, b6, hn2,
                      DecodeUint64_EncodeUint64 (nonce + 1) hlt2,
                      DecodeUint64_EncodeUint64 cfg.TaxGas hX, hgp, Option.getD_some]
                    simp

/-- C13 (witness): the first scenario, from the empty table: account nonce 5, gas price 10
and the gas limits 80000 give the transactions `t1` (nonce `0x5`) and `t2` (nonce `0x6`). -/
theorem C13_witness_first_scenario :
    (Manager.CreateTransfer sampleConfig sampleCreateEnv 0 { transfers := [], calls := [] }
        sampleNewTransfer).1.1 = sampleNewWorld
      ∧ ∃ (N g : Nat) (u1 u2 : UnsignedTransfer) (r1 r2 : Transfer),
        sampleCreateEnv.PendingNonceAt sampleNewTransfer.FromAddress = .ok N
          ∧ sampleCreateEnv.SuggestGasPrice = .ok g
          ∧ (Manager.CreateTransfer sampleConfig sampleCreateEnv 0
              { transfers := [], calls := [] } sampleNewTransfer).2.toOption.getD [] = [u1, u2]
          ∧ (Manager.CreateTransfer sampleConfig sampleCreateEnv 0
              { transfers := [], calls := [] } sampleNewTransfer).1.1.transfers
              = Postgres.ClearUnsignedTransfers sampleCreateEnv.now [] sampleNewTransfer.FromAddress
                  ++ [r1, r2]
          ∧ returnedWith sampleConfig sampleCreateEnv u1 r1 TransferType.TransferToken
              sampleNewTransfer.FromAddress N g sampleConfig.TransferGas
          ∧ returnedWith sampleConfig sampleCreateEnv u2 r2 TransferType.Tax
              sampleNewTransfer.FromAddress (N + 1) g sampleConfig.TaxGas :=
  ⟨by decide,
   C13_CreateTransfer_returns_transfer_and_tax sampleConfig sampleCreateEnv 0
    { transfers := [], calls := [] } sampleNewTransfer _ _ (by decide) (by decide)
    (fun N h => by
      have h5 : (Except.ok 5 : Except String Nat) = .ok N := h
      injection h5 with h5
      omega)
    (fun g h => by
      have h10 : (Except.ok 10 : Except String Nat) = .ok g := h
      injection h10 with h10
      omega)
    rfl⟩

/-! ### `CreateTransfer`: the balance check -/

theorem Wrap_ne_no_enough_tokens (e msg : String) (c : Char) (cs : List Char)
    (hmsg : msg.data = c :: cs) (hc : c ≠ 'y') :
    Wrap e msg ≠ "you have no enough tokens to complete the transfer" := by
  intro h
  have hd := congrArg String.data h
  simp only [Wrap, String.data_append, hmsg, List.cons_append] at hd
  have hhead := congrArg List.head? hd
  simp only [List.head?_cons, Option.some.injEq] at hhead
  exact hc (hhead.trans (by decide))

/-- C15: when the request is valid and the tax, the token balance and the token decimals are
obtained, then (1) if the balance is below `ToWei(amount + tax, decimals)`, `CreateTransfer`
fails with "you have no enough tokens to complete the transfer", makes no on-chain call and
leaves the table row by row as it was (no row is inserted) except that the rows of the sender
with status new are soft-deleted; and (2) if the balance is at least that amount,
`CreateTransfer` does not fail with that message. -/
theorem C15_balance_check (cfg : Config) (env : Env) (c : Nat) (w : World)
    (tx : Models.NewTransfer) (tax : Float64) (gasPrice : Nat) (balance : Int)
    (cache decimals : Nat)
    (hval : tx.Validate = .ok ())
    (htax : Manager.estimateTax cfg env = .ok (tax, gasPrice))
    (hbal : env.BalanceOf tx.FromAddress = .ok balance)
    (hdec : Manager.getTokenDecimals env c = (cache, .ok decimals)) :
    (balance < ToWei (env.NewFromFloat (env.addFloat64 tx.Amount tax)) decimals →
        Manager.CreateTransfer cfg env c w tx
            = (({ transfers := w.transfers.map (Postgres.clearRow env.now tx.FromAddress),
                  calls := w.calls }, cache),
               .error "you have no enough tokens to complete the transfer")
          ∧ (∀ r : Transfer, (Postgres.clearRow env.now tx.FromAddress r).ID = r.ID)
          ∧ (∀ r : Transfer, lower r.FromAddress = lower tx.FromAddress →
              r.Status = TransferStatus.new →
              (Postgres.clearRow env.now tx.FromAddress r).DeletedAt = some env.now)
          ∧ (∀ r : Transfer,
              ¬ (lower r.FromAddress = lower tx.FromAddress ∧ r.Status = TransferStatus.new) →
              Postgres.clearRow env.now tx.FromAddress r = r))
      ∧ (¬ balance < ToWei (env.NewFromFloat (env.addFloat64 tx.Amount tax)) decimals →
        (Manager.CreateTransfer cfg env c w tx).2
          ≠ .error "you have no enough tokens to complete the transfer") := by
  constructor
  · intro hlt
    refine ⟨?_, ?_, ?_, ?_⟩
    · unfold Manager.CreateTransfer
      simp only [hval, htax, hbal, hdec]
      rw [if_pos hlt]
      rfl
    · intro r
      unfold Postgres.clearRow
      split <;> rfl
    · intro r h1 h2
      unfold Postgres.clearRow
      rw [if_pos ⟨h1, h2⟩]
    · intro r h
      unfold Postgres.clearRow
      rw [if_neg h]
  · intro hge
    unfold Manager.CreateTransfer
    simp only [hval, htax, hbal, hdec]
    rw [if_neg hge]
    split
    · intro h
      injection h with h
      exact Wrap_ne_no_enough_tokens _ "failed to retrieve chain id" 'f' _ rfl (by decide) h
    · split
      · intro h
        injection h with h
        exact Wrap_ne_no_enough_tokens _ "failed to create a transfer transaction" 'f' _ rfl
          (by decide) h
      · split
        · intro h
          injection h with h
          exact Wrap_ne_no_enough_tokens _ "failed to create a tax transaction" 'f' _ rfl
            (by decide) h
        · intro h
          cases h

/-- C15 (witness): the pair `t1`, `t2` of `0xA1` is new; a further `/transfer` request of
`0xA1` for 10 tokens, which with the tax needs 1002 base units, finds a balance of 1000. -/
theorem C15_witness_balance_too_low :
    Manager.CreateTransfer sampleConfig samplePoorEnv 2 sampleNewWorld sampleNewTransfer
        = (({ transfers := [{ sampleRow with DeletedAt := some 1 },
                            { sampleTaxRow with DeletedAt := some 1 }],
              calls := [] }, 2),
           .error "you have no enough tokens to complete the transfer") :=
  ((C15_balance_check sampleConfig samplePoorEnv 2 sampleNewWorld sampleNewTransfer
    { bits := 0x3f963dc486ad2dcb } 10 1000 2 2 rfl rfl rfl rfl).1 (by decide)).1

/-! ### `createTransfer`: the data field -/

theorem bytesOfNat_length (fuel n : Nat) (acc : List Nat) (k : Nat) (hf : n ≤ fuel)
    (hk : n < 256 ^ k) : (bytesOfNat fuel n acc).length ≤ acc.length + k := by
  induction fuel generalizing n acc k with
  | zero =>
    unfold bytesOfNat
    omega
  | succ fuel ih =>
    unfold bytesOfNat
    split
    · omega
    · rename_i hn
      cases k with
      | zero =>
        rw [pow_zero] at hk
        omega
      | succ k =>
        have hk2 : n / 256 < 256 ^ k := by
          rw [Nat.div_lt_iff_lt_mul (by decide)]
          rw [pow_succ] at hk
          exact hk
        have hlt : n / 256 < n := Nat.div_lt_self (by omega) (by decide)
        have := ih (n / 256) (n % 256 :: acc) k (by omega) hk2
        simp only [List.length_cons] at this
        omega

theorem natOfBytes_bytesOfNat (fuel n : Nat) (acc : List Nat) (hf : n ≤ fuel) :
    (bytesOfNat fuel n acc).foldl (fun a b => 256 * a + b) 0
      = acc.foldl (fun a b => 256 * a + b) n := by
  induction fuel generalizing n acc with
  | zero =>
    have h0 : n = 0 := by omega
    subst h0
    rfl
  | succ fuel ih =>
    unfold bytesOfNat
    split
    · rename_i hn
      rw [hn]
    · rename_i hn
      have hlt : n / 256 < n := Nat.div_lt_self (by omega) (by decide)
      rw [ih (n / 256) (n % 256 :: acc) (by omega), List.foldl_cons, Nat.div_add_mod]

theorem LeftPadBytes_length (slice : List Nat) (l : Nat) (h : slice.length ≤ l) :
    (LeftPadBytes slice l).length = l := by
  unfold LeftPadBytes
  split
  · omega
  · simp
    omega

theorem natOfBytes_LeftPadBytes (slice : List Nat) (l : Nat) :
    natOfBytes (LeftPadBytes slice l) = natOfBytes slice := by
  have hz : ∀ k : Nat, (List.replicate k 0).foldl (fun a b => 256 * a + b) 0 = 0 := by
    intro k
    induction k with
    | zero => rfl
    | succ k ih => simpa [List.replicate_succ] using ih
  unfold LeftPadBytes natOfBytes
  split
  · rfl
  · rw [List.foldl_append, hz]

/-- The data field of a transaction built by `createTransfer` is the hexadecimal form of
`transferInput`. -/
theorem createTransfer_Data (env : Env) (c : Nat) (ty : TransferType) (amount : Float64)
    (fromAddress toAddress tokenAddress : String) (suggestNonce : Option Nat)
    (gasPrice gasLimit : Nat) (chainID : String) (c1 : Nat) (u : UnsignedTransfer) (n : Nat)
    (h : Manager.createTransfer env c ty amount fromAddress toAddress tokenAddress suggestNonce
      gasPrice gasLimit chainID = (c1, .ok (u, n))) :
    ∃ decimals, (Manager.getTokenDecimals env c).2 = .ok decimals
      ∧ u.Amount = toString (ToWei (env.NewFromFloat amount) decimals)
      ∧ u.TxData.Data
          = hexutil.Encode (transferInput env toAddress (ToWei (env.NewFromFloat amount) decimals)) := by
  unfold Manager.createTransfer at h
  split at h
  · simp at h
  · rename_i cache decimals hdec
    refine ⟨decimals, by rw [hdec], ?_⟩
    dsimp only at h
    split at h
    · simp at h
    · simp only [Prod.mk.injEq, Except.ok.injEq] at h
      rw [← h.2.1]
      exact ⟨rfl, rfl⟩

/-- Within the range of a `uint256` the input is 68 bytes: the selector, the 20-byte address
after 12 zero bytes, and 32 bytes that write the amount. -/
theorem transferInput_in_range (env : Env) (toAddress : String) (wei : Int)
    (haddr : (env.addressBytes toAddress).length = 20) (h0 : 0 ≤ wei) (h256 : wei < 2 ^ 256) :
    (transferInput env toAddress wei).length = 68
      ∧ (transferInput env toAddress wei).take 4 = transferMethodID
      ∧ ((transferInput env toAddress wei).drop 4).take 32
          = List.replicate 12 0 ++ env.addressBytes toAddress
      ∧ ((natOfBytes ((transferInput env toAddress wei).drop 36) : Nat) : Int) = wei := by
  have hn : wei.natAbs < 256 ^ 32 := by
    have e : (256 : Nat) ^ 32 = 2 ^ 256 := by norm_num
    rw [e]
    omega
  have hlen : (bytesOfNat wei.natAbs wei.natAbs []).length ≤ 32 := by
    simpa using bytesOfNat_length wei.natAbs wei.natAbs [] 32 (Nat.le_refl _) hn
  have hpadA : LeftPadBytes (env.addressBytes toAddress) 32
      = List.replicate 12 0 ++ env.addressBytes toAddress := by
    unfold LeftPadBytes
    rw [if_neg (by omega), haddr]
  have hpadLen : (LeftPadBytes (env.addressBytes toAddress) 32).length = 32 :=
    LeftPadBytes_length _ _ (by omega)
  have hsel : transferMethodID.length = 4 := rfl
  unfold transferInput
  refine ⟨?_, ?_, ?_, ?_⟩
  · simp only [List.length_append, hpadLen, LeftPadBytes_length _ _ hlen, hsel]
  · rw [List.append_assoc, List.take_left' hsel]
  · rw [List.append_assoc, List.drop_left' hsel, List.take_left' hpadLen, hpadA]
  · have h36 : (transferMethodID ++ LeftPadBytes (env.addressBytes toAddress) 32).length = 36 := by
      simp only [List.length_append, hpadLen, hsel]
    rw [List.drop_left' h36, natOfBytes_LeftPadBytes]
    unfold natOfBytes
    rw [natOfBytes_bytesOfNat _ _ _ (Nat.le_refl _)]
    simp only [List.foldl_nil]
    omega

/-- C14 (evaluation at the failing input): a `/transfer` request of `0xA1` with the amount
-1e76, the token having 2 decimals.  The request passes validation and the balance check (the
expenses are negative), `CreateTransfer` succeeds, and the data field of the returned token
transfer is the hexadecimal form of 69 bytes, not 68: the amount in base units is `-10 ^ 78`,
`wei.Bytes()` is the 33 bytes of its absolute value, and `LeftPadBytes` leaves them as they
are.  `createTransfer` on the amount 1e76 gives 69 bytes as well. -/
theorem C14_data_is_69_bytes_for_a_large_amount :
    (Manager.createTransfer sampleHugeEnv 2 TransferType.TransferToken
          { bits := 0x4fb61bcca7119916 } "0xA1" "0xb2b2b2b2b2b2b2b2b2b2b2b2b2b2b2b2b2b2b2b2" "0xC0"
          none 10 80000 "1").2.toOption.map (fun p => (p.1.Amount, p.1.TxData.Data.length))
        = some ("1000000000000000000000000000000000000000000000000000000000000000000000000000000",
            2 + 2 * 69)
      ∧ sampleHugeTransfer.Validate = .ok ()
      ∧ ToWei (sampleHugeEnv.NewFromFloat sampleHugeTransfer.Amount) 2 = -(10 ^ 78)
      ∧ (bytesOfNat (10 ^ 78) (10 ^ 78) []).length = 33
      ∧ (transferInput sampleHugeEnv sampleHugeTransfer.ToAddress (-(10 ^ 78))).length = 69
      ∧ (Manager.CreateTransfer sampleConfig sampleHugeEnv 0 { transfers := [], calls := [] }
            sampleHugeTransfer).2.toOption.map
            (fun us => us.map fun u => (u.ID, u.TransferType, u.TxData.Data.length))
          = some [("t1", TransferType.TransferToken, 2 + 2 * 69),
                  ("t2", TransferType.Tax, 2 + 2 * 68)]
      ∧ (Manager.CreateTransfer sampleConfig sampleHugeEnv 0 { transfers := [], calls := [] }
            sampleHugeTransfer).2.toOption.map
            (fun us => us.map fun u => u.TxData.Data)
          = some [hexutil.Encode (transferInput sampleHugeEnv sampleHugeTransfer.ToAddress
                    (-(10 ^ 78))),
                  hexutil.Encode (transferInput sampleHugeEnv "0xBA" 2)] := by
  refine ⟨rfl, rfl, by decide, by decide, by decide, rfl, rfl⟩

/-! ### The reconciliation pass over pending transfers -/

/-- C19 (evaluation at the failing input): the reachable world in which `t1` and `t2` are
pending; on the node the transaction of `t1` is mined with receipt status 0.  The pass of
`monitorEvents` marks `t1` completed, not failed, and notifies the parties of a completed
`transfer_token` transaction with the hash of `t1`. -/
theorem C19_reverted_transfer_is_completed :
    Reachable sampleConfig "0xBA" samplePendingWorld
      ∧ samplePendingWorld.transfers.map (fun r => (r.ID, r.TransferType, r.Status, r.TxHash))
        = [("t1", TransferType.TransferToken, TransferStatus.pending, some "0xhash0xraw5"),
           ("t2", TransferType.Tax, TransferStatus.pending, some "0xhash0xraw6"),
           ("e2", TransferType.EthTopUp, TransferStatus.completed, some "0xtopup")]
      ∧ sampleRevertedNode.TransactionByHash "0xhash0xraw5" = .ok false
      ∧ sampleRevertedNode.TransactionReceipt "0xhash0xraw5" = .ok (some 0)
      ∧ (EventsScraper.monitorEvents sampleEnv sampleRevertedNode
            samplePendingWorld).1.transfers.map (fun r => (r.ID, r.Status))
        = [("t1", TransferStatus.completed), ("t2", TransferStatus.completed),
           ("e2", TransferStatus.completed)]
      ∧ Effect.NotifyClients
            { Hash := "0xhash0xraw5", TxType := TransferType.TransferToken,
              Status := TransferStatus.completed, Value := "1000", From := "0xA1",
              To := "0xb2b2b2b2b2b2b2b2b2b2b2b2b2b2b2b2b2b2b2b2" }
          ∈ (EventsScraper.monitorEvents sampleEnv sampleRevertedNode samplePendingWorld).2 := by
  refine ⟨Reachable.CompleteTransfers sampleEnv "e2" sampleConfirmedWorld_reachable,
    by decide, rfl, rfl, by decide, by decide⟩

/-! ### The Header Watcher and the reconciliation of pending top-ups -/

/-- C20 (amended): for a pending top-up `e` whose transaction `h` is mined, the Header Watcher
path and the reconciliation pass take the same action whenever the receipt is read:
`FailEthTransfer(id, "ETH top-up transaction failed")` when its status is 0 and
`CompleteTransfers(id)` when it is above 0, which for the statuses 0 and 1 is the action the
specification prescribes.  When the receipt cannot be read, the reconciliation pass does
nothing, and the Header Watcher path calls `CompleteTransfers(id)`. -/
theorem C20_watcher_and_fallback_on_receipt (env : Env) (node : Node) (w : World) (e : Transfer)
    (h : String) (he : e.TxHash = some h)
    (hfind : Postgres.TxHasQueuedTransfers w.transfers h = .ok e.ID)
    (hmined : node.TransactionByHash h = .ok false) :
    (∀ status, node.TransactionReceipt h = .ok (some status) →
        TxScraper.makeNewTransactionFromTx env node w true h
            = (if status = 0 then
                Scrapper.FailEthTransfer env w e.ID "ETH top-up transaction failed"
              else (Manager.CompleteTransfers env w e.ID).1)
          ∧ (TxScraper.monitorTopUp env node w (Scrapper.toDBTransfer e)).1
            = (if status = 0 then
                Scrapper.FailEthTransfer env w e.ID "ETH top-up transaction failed"
              else (Manager.CompleteTransfers env w e.ID).1)
          ∧ (status ≤ 1 →
              specTopUpAction env w e.ID (.ok (some status))
                = (if status = 0 then
                    Scrapper.FailEthTransfer env w e.ID "ETH top-up transaction failed"
                  else (Manager.CompleteTransfers env w e.ID).1)))
      ∧ ((node.TransactionReceipt h = .ok none ∨ ∃ err, node.TransactionReceipt h = .error err) →
        TxScraper.makeNewTransactionFromTx env node w true h
            = (Manager.CompleteTransfers env w e.ID).1
          ∧ TxScraper.monitorTopUp env node w (Scrapper.toDBTransfer e) = (w, [])) := by
  have hhash : (Scrapper.toDBTransfer e).TxHash = h := by
    simp [Scrapper.toDBTransfer, Transfer.GetTxHash, he]
  have hid : (Scrapper.toDBTransfer e).ID = e.ID := rfl
  constructor
  · intro status hr
    refine ⟨?_, ?_, ?_⟩
    · simp only [TxScraper.makeNewTransactionFromTx, hfind, hr, TxScraper.failTransfer,
        TxScraper.completeTransfer]
      by_cases h0 : status = 0
      · simp [h0]
      · have h1 : ¬ status < 1 := by omega
        simp [h0, h1]
    · simp only [TxScraper.monitorTopUp, hhash, hid, hmined, hr, TxScraper.failTransfer,
        TxScraper.completeTransfer]
      by_cases h0 : status = 0
      · simp [h0]
      · have h1 : status > 0 := by omega
        simp [h0, h1]
    · intro hle
      interval_cases status <;> rfl
  · intro hr
    rcases hr with hr | ⟨err, hr⟩
    · constructor
      · simp only [TxScraper.makeNewTransactionFromTx, hfind, hr, TxScraper.completeTransfer]
        simp
      · simp only [TxScraper.monitorTopUp, hhash, hmined, hr]
        simp
    · constructor
      · simp only [TxScraper.makeNewTransactionFromTx, hfind, hr, TxScraper.completeTransfer]
        simp
      · simp only [TxScraper.monitorTopUp, hhash, hmined, hr]
        simp

/-- C20 (witness): the pending top-up `e2` of `sampleConfirmedWorld`, mined with receipt
status 1: both paths complete the transfers. -/
theorem C20_witness_successful_top_up :
    TxScraper.makeNewTransactionFromTx sampleEnv sampleRevertedNode sampleConfirmedWorld true
        "0xtopup" = samplePendingWorld
      ∧ (TxScraper.monitorTopUp sampleEnv sampleRevertedNode sampleConfirmedWorld
          (Scrapper.toDBTransfer (topUpRow sampleEnv "0xBA" 5 10 "0xtopup"))).1
        = samplePendingWorld :=
  (C20_watcher_and_fallback_on_receipt sampleEnv sampleRevertedNode sampleConfirmedWorld
    (topUpRow sampleEnv "0xBA" 5 10 "0xtopup") "0xtopup" rfl rfl rfl).1 1 rfl |>.imp_right
      And.left

/-- C20 (counterexample): the pending top-up `e2` of `sampleConfirmedWorld` is mined and its
receipt cannot be read.  The specification's rule and the reconciliation pass leave the world
as it is; the Header Watcher path calls `CompleteTransfers`, and the two raw transactions are
broadcast without a receipt that reports success. -/
theorem C20_counterexample_watcher_completes_without_receipt :
    sampleNoReceiptNode.TransactionReceipt "0xtopup" = .error "not found"
      ∧ Postgres.TxHasQueuedTransfers sampleConfirmedWorld.transfers "0xtopup" = .ok "e2"
      ∧ specTopUpAction sampleEnv sampleConfirmedWorld "e2"
          (sampleNoReceiptNode.TransactionReceipt "0xtopup") = sampleConfirmedWorld
      ∧ TxScraper.monitorTopUpTransactions sampleEnv sampleNoReceiptNode sampleConfirmedWorld
          = (sampleConfirmedWorld, [])
      ∧ (TxScraper.makeNewTransactionFromTx sampleEnv sampleNoReceiptNode sampleConfirmedWorld
          true "0xtopup").calls
          = [Call.SendTransaction "0xtopup" "0xa1" 1600000,
             Call.sendRawTransaction "0xraw5", Call.sendRawTransaction "0xraw6"]
      ∧ (TxScraper.makeNewTransactionFromTx sampleEnv sampleNoReceiptNode sampleConfirmedWorld
          true "0xtopup").transfers.map (fun r => (r.ID, r.Status))
          = [("t1", TransferStatus.pending), ("t2", TransferStatus.pending),
             ("e2", TransferStatus.completed)] := by
  refine ⟨rfl, rfl, rfl, by decide, by decide, by decide⟩

/-! ### `deriveChainId` and `deriveSigner` -/

/-- C30: for every chain id `c ≥ 0`, `deriveChainId` gives `c` on `2c + 35` and on `2c + 36`,
on the 64-bit path as on the `big.Int` path; it gives 0 on 27 and 28; and `deriveSigner`
returns the EIP-155 signer of the derived chain id when `v ≠ 0` and the transaction is
protected, the Homestead signer otherwise. -/
theorem C30_deriveChainId_and_deriveSigner (c : Nat) (V : Int) (isProtected : Bool) :
    TxScraper.deriveChainId (2 * (c : Int) + 35) = c
      ∧ TxScraper.deriveChainId (2 * (c : Int) + 36) = c
      ∧ TxScraper.deriveChainId 27 = 0
      ∧ TxScraper.deriveChainId 28 = 0
      ∧ TxScraper.deriveSigner V isProtected
          = (if V ≠ 0 ∧ isProtected = true then
              TxScraper.Signer.EIP155Signer (TxScraper.deriveChainId V)
            else TxScraper.Signer.HomesteadSigner) := by
  refine ⟨?_, ?_, by decide, by decide, ?_⟩
  · unfold TxScraper.deriveChainId
    have habs : (2 * (c : Int) + 35).natAbs = 2 * c + 35 := by omega
    rw [habs]
    split
    · rename_i h
      rw [if_neg (by omega)]
      have : (2 * c + 35 + 2 ^ 64 - 35) % 2 ^ 64 / 2 = c := by omega
      rw [this]
    · omega
  · unfold TxScraper.deriveChainId
    have habs : (2 * (c : Int) + 36).natAbs = 2 * c + 36 := by omega
    rw [habs]
    split
    · rename_i h
      rw [if_neg (by omega)]
      have : (2 * c + 36 + 2 ^ 64 - 35) % 2 ^ 64 / 2 = c := by omega
      rw [this]
    · omega
  · unfold TxScraper.deriveSigner
    have hs : V.sign ≠ 0 ↔ V ≠ 0 := by
      rw [Ne, Int.sign_eq_zero_iff_zero]
    simp only [hs]

/-! ### Lookups and soft-deleted rows -/

/-- The lookups `GetAndConfirmTransferByID`, `GetQueuedTransfersFor` and `IsNoncePending`
return and count live rows only. -/
theorem lookups_skip_deleted (rows : List Transfer) :
    (∀ id frm rows1 r, Postgres.GetAndConfirmTransferByID rows id frm = (rows1, .ok r) →
        r.DeletedAt = none)
      ∧ (∀ eid, ∀ r ∈ Postgres.GetQueuedTransfersFor rows eid, r.DeletedAt = none)
      ∧ (∀ nonce address, Postgres.IsNoncePending rows nonce address = true →
          ∃ r ∈ rows, r.DeletedAt = none ∧ r.Nonce = nonce) := by
  refine ⟨?_, ?_, ?_⟩
  · intro id frm rows1 r h
    unfold Postgres.GetAndConfirmTransferByID at h
    dsimp only at h
    split at h
    · simp at h
    · rename_i r0 hfind
      simp only [Prod.mk.injEq, Except.ok.injEq] at h
      have := List.find?_some hfind
      simp only [decide_eq_true_eq] at this
      rw [← h.2]
      exact this.2.2
  · intro eid r hr
    have hq := ((mem_GetQueuedTransfersFor _ _ _).mp hr).2
    simp only [Postgres.queuedFor, decide_eq_true_eq] at hq
    exact hq.2.2
  · intro nonce address h
    unfold Postgres.IsNoncePending at h
    rw [List.any_eq_true] at h
    obtain ⟨r, hr, hp⟩ := h
    simp only [decide_eq_true_eq] at hp
    exact ⟨r, hr, hp.2.2.2, hp.1⟩

/-- C22 (evaluation at the failing input): in the reachable table `sampleMixedWorld` the row
`t2` is soft-deleted, and `GetTransferByIDOrHash("t2", "")` returns it. -/
theorem C22_GetTransferByIDOrHash_returns_deleted_row :
    Reachable sampleConfig "0xBA" sampleMixedWorld
      ∧ sampleMixedWorld.transfers.map (fun r => (r.ID, r.Status, r.DeletedAt))
        = [("t1", TransferStatus.confirming, none), ("t2", TransferStatus.new, some 3),
           ("t3", TransferStatus.new, none), ("t4", TransferStatus.new, none)]
      ∧ Postgres.GetTransferByIDOrHash sampleMixedWorld.transfers "t2" ""
        = .ok { sampleTaxRow with DeletedAt := some 3 }
      ∧ ({ sampleTaxRow with DeletedAt := some 3 } : Transfer).DeletedAt ≠ none := by
  refine ⟨sampleMixedWorld_reachable, by decide, rfl, by decide⟩

/-! ### `ConfirmTransfer` and the rows of other addresses -/

/-- C26 (evaluation at the failing input): the reachable table holds the new pair `t1`, `t2`
of `0xA1`.  A confirmation on behalf of `0xB2` names `t1` and `t2` with raw transactions that
do not decode; validation fails, and `WriteTransferError` sets both rows of `0xA1` to failed
with the validation message. -/
theorem C26_ConfirmTransfer_fails_rows_of_another_address :
    Reachable sampleConfig "0xBA" sampleNewWorld
      ∧ sampleNewWorld.transfers.map (fun r => (r.ID, r.FromAddress, r.Status, r.Message))
        = [("t1", "0xA1", TransferStatus.new, ""), ("t2", "0xA1", TransferStatus.new, "")]
      ∧ lower "0xA1" ≠ lower sampleForeignRequest.FromAddress
      ∧ (Manager.ConfirmTransfer sampleConfig sampleEnv sampleNewWorld sampleForeignRequest).2
        = .error "failed to decode raw tx into bytes: invalid hex string"
      ∧ (Manager.ConfirmTransfer sampleConfig sampleEnv sampleNewWorld
            sampleForeignRequest).1.transfers.map
            (fun r => (r.ID, r.FromAddress, r.Status, r.Message))
        = [("t1", "0xA1", TransferStatus.failed,
              "failed to decode raw tx into bytes: invalid hex string"),
           ("t2", "0xA1", TransferStatus.failed,
              "failed to decode raw tx into bytes: invalid hex string")] := by
  have h0 : Reachable sampleConfig "0xBA" { transfers := [], calls := [] } := Reachable.init
  have hcreate : (Manager.CreateTransfer sampleConfig sampleCreateEnv 0
      { transfers := [], calls := [] } sampleNewTransfer).1.1 = sampleNewWorld := by decide
  have h1 : Reachable sampleConfig "0xBA" sampleNewWorld :=
    hcreate ▸ Reachable.CreateTransfer sampleCreateEnv 0 sampleNewTransfer h0
      ⟨by decide, by simp⟩ ⟨by decide, by simp⟩ (by decide)
  refine ⟨h1, by decide, by decide, rfl, by decide⟩

/-! ### The backfill loops -/

theorem extractOldTransactionsLoop_runs (fuel i : Nat) (requested : List Nat) :
    (TxScraper.extractOldTransactionsLoop fuel i requested).2 = false
      ∧ (TxScraper.extractOldTransactionsLoop fuel i requested).1.length
          = requested.length + fuel := by
  induction fuel generalizing i requested with
  | zero => exact ⟨rfl, rfl⟩
  | succ fuel ih =>
    unfold TxScraper.extractOldTransactionsLoop
    rw [if_pos (Nat.zero_le i)]
    obtain ⟨h1, h2⟩ := ih ((i + 2 ^ 64 - 1) % 2 ^ 64) (requested ++ [i])
    refine ⟨h1, ?_⟩
    rw [h2, List.length_append, List.length_singleton]
    omega

/-- C29 (evaluation at the failing input): from any head height the loop of
`extractOldTransactions` never ends, whatever the number of iterations: its condition
`i >= 0` holds of every `uint64`, so "Extract old transactions... Done" is never reached.
From the head height 2 the blocks requested first are 2, 1, 0 and then 18446744073709551615,
the counter having wrapped. -/
theorem C29_extractOldTransactions_never_ends (fuel endBlockNumber : Nat) :
    (TxScraper.extractOldTransactions fuel endBlockNumber).2 = false
      ∧ (TxScraper.extractOldTransactions fuel endBlockNumber).1.length = fuel
      ∧ TxScraper.extractOldTransactions 4 2 = ([2, 1, 0, 18446744073709551615], false) := by
  obtain ⟨h1, h2⟩ := extractOldTransactionsLoop_runs fuel endBlockNumber []
  refine ⟨h1, ?_, by decide⟩
  rw [TxScraper.extractOldTransactions, h2]
  simp

/-- What the loop of `extractOldEvents` does from `start = end = e` with enough fuel: it ends,
and the windows it adds lie below `e`, span at most `packetSize` blocks and, unless `e` is 0,
cover every block up to `e`. -/
theorem extractOldEventsLoop_spec (packetSize : Nat) (filterOk : Nat → Nat → Bool)
    (hP : 1 ≤ packetSize) (hP64 : packetSize < 2 ^ 64) (fuel e : Nat)
    (acc : List (Nat × Nat × Bool)) (he : e < 2 ^ 64) (hfuel : e < fuel) :
    ∃ ws, EventsScraper.extractOldEventsLoop packetSize filterOk fuel e e acc = some (acc ++ ws)
      ∧ (∀ w ∈ ws, w.1 ≤ w.2.1 ∧ w.2.1 ≤ w.1 + packetSize ∧ w.2.1 ≤ e
          ∧ w.2.2 = filterOk w.1 w.2.1)
      ∧ (1 ≤ e → ∀ b, b ≤ e → ∃ w ∈ ws, w.1 ≤ b ∧ b ≤ w.2.1)
      ∧ (e = 0 → ws = []) := by
  induction fuel generalizing e acc with
  | zero => omega
  | succ fuel ih =>
    unfold EventsScraper.extractOldEventsLoop
    by_cases h0 : e > 0
    · rw [if_pos h0]
      dsimp only
      have hs : ∃ s, (if (e + 2 ^ 64 - packetSize) % 2 ^ 64 > e then 0
            else (e + 2 ^ 64 - packetSize) % 2 ^ 64) = s
          ∧ s < e ∧ e ≤ s + packetSize := by
        refine ⟨_, rfl, ?_⟩
        split <;> omega
      obtain ⟨s, hseq, hslt, hspan⟩ := hs
      rw [hseq]
      obtain ⟨ws, hrun, hwin, hcover, hnil⟩ :=
        ih s (acc ++ [(s, e, filterOk s e)]) (by omega) (by omega)
      refine ⟨(s, e, filterOk s e) :: ws, ?_, ?_, ?_, ?_⟩
      · rw [hrun, List.append_assoc]
        rfl
      · intro w hw
        rcases List.mem_cons.mp hw with hw | hw
        · subst hw
          exact ⟨Nat.le_of_lt hslt, hspan, Nat.le_refl e, rfl⟩
        · obtain ⟨a, b, c, d⟩ := hwin w hw
          exact ⟨a, b, Nat.le_trans c (Nat.le_of_lt hslt), d⟩
      · intro _ b hb
        by_cases hbs : s ≤ b
        · exact ⟨_, List.mem_cons_self _ _, hbs, hb⟩
        · obtain ⟨w, hw, h1, h2⟩ := hcover (by omega) b (by omega)
          exact ⟨w, List.mem_cons_of_mem _ hw, h1, h2⟩
      · intro hc
        omega
    · rw [if_neg h0]
      refine ⟨[], by simp, ?_, ?_, fun _ => rfl⟩
      · intro w hw
        cases hw
      · intro h1
        omega

/-- C28 (amended): for every packet size from 1 and every head height `H` (both `uint64`),
the loop of `extractOldEvents` ends within `H + 1` iterations; each window `[start, end]` it
passes to the filter has `start ≤ end ≤ start + packetSize` and `end ≤ H`, whatever the filter
calls answer; when `H ≥ 1` the windows together contain every block number from 0 to `H`; and
when `H = 0` the loop is not entered and no window is filtered. -/
theorem C28_extractOldEvents_pages_down_to_zero (packetSize : Nat)
    (filterOk : Nat → Nat → Bool) (fuel H : Nat) (hP : 1 ≤ packetSize)
    (hP64 : packetSize < 2 ^ 64) (hH : H < 2 ^ 64) (hfuel : H < fuel) :
    ∃ windows, EventsScraper.extractOldEvents packetSize filterOk fuel H = some windows
      ∧ (∀ w ∈ windows, w.1 ≤ w.2.1 ∧ w.2.1 ≤ w.1 + packetSize ∧ w.2.1 ≤ H
          ∧ w.2.2 = filterOk w.1 w.2.1)
      ∧ (1 ≤ H → ∀ b, b ≤ H → ∃ w ∈ windows, w.1 ≤ b ∧ b ≤ w.2.1)
      ∧ (H = 0 → windows = []) := by
  obtain ⟨ws, hrun, hwin, hcover, hnil⟩ :=
    extractOldEventsLoop_spec packetSize filterOk hP hP64 fuel H [] hH hfuel
  exact ⟨ws, by simpa [EventsScraper.extractOldEvents] using hrun, hwin, hcover, hnil⟩

/-- C28 (witness): head height 5 and packet size 2, the second filter call failing: the
windows are [3, 5], [1, 3] and [0, 1]. -/
theorem C28_witness_height_five :
    EventsScraper.extractOldEvents 2 (fun s _ => decide (s ≠ 1)) 6 5
        = some [(3, 5, true), (1, 3, false), (0, 1, true)]
      ∧ ∃ windows, EventsScraper.extractOldEvents 2 (fun s _ => decide (s ≠ 1)) 6 5 = some windows
        ∧ (∀ w ∈ windows, w.1 ≤ w.2.1 ∧ w.2.1 ≤ w.1 + 2 ∧ w.2.1 ≤ 5
            ∧ w.2.2 = (fun s _ => decide (s ≠ 1)) w.1 w.2.1)
        ∧ (1 ≤ 5 → ∀ b, b ≤ 5 → ∃ w ∈ windows, w.1 ≤ b ∧ b ≤ w.2.1)
        ∧ (5 = 0 → windows = []) :=
  ⟨by decide,
   C28_extractOldEvents_pages_down_to_zero 2 (fun s _ => decide (s ≠ 1)) 6 5 (by decide)
    (by decide) (by decide) (by decide)⟩

/-- C28 (counterexample): at head height 0 the loop of `extractOldEvents` ends at once: no
window is passed to the filter, so block 0 is in none. -/
theorem C28_counterexample_height_zero :
    EventsScraper.extractOldEvents 100 (fun _ _ => true) 1 0 = some []
      ∧ ¬ ∃ w ∈ ([] : List (Nat × Nat × Bool)), w.1 ≤ 0 ∧ 0 ≤ w.2.1 := by
  refine ⟨by decide, ?_⟩
  rintro ⟨w, hw, _⟩
  cases hw


/-! ### `GetSHA256` -/

theorem bigEndian_length (n x : Nat) : (sha256.bigEndian n x).length = n := by
  induction n with
  | zero => rfl
  | succ n ih => simp [sha256.bigEndian, ih]

theorem sha256_Sum_length (data : List Nat) : (sha256.Sum data).length = 32 := by
  simp [sha256.Sum, bigEndian_length]

theorem EncodeToString_length (b : List Nat) :
    (hex.EncodeToString b).length = 2 * b.length := by
  unfold hex.EncodeToString
  rw [String.length_mk]
  induction b with
  | nil => rfl
  | cons x xs ih =>
    simp only [List.flatMap_cons, List.length_append, List.length_cons, List.length_nil, ih]
    omega

theorem digitChar_lower_hex (k : Nat) (h : k < 16) :
    Nat.digitChar k ∈ "0123456789abcdef".data := by
  interval_cases k <;> decide

theorem EncodeToString_lower_hex (b : List Nat) :
    ∀ c ∈ (hex.EncodeToString b).data, c ∈ "0123456789abcdef".data := by
  intro c hc
  unfold hex.EncodeToString at hc
  simp only [List.mem_flatMap, List.mem_cons, List.mem_singleton, List.not_mem_nil, or_false]
    at hc
  obtain ⟨x, _, hx | hx⟩ := hc
  · rw [hx]
    exact digitChar_lower_hex _ (Nat.mod_lt _ (by decide))
  · rw [hx]
    exact digitChar_lower_hex _ (Nat.mod_lt _ (by decide))

theorem GetSHA256_length (data secret : String) : (GetSHA256 data secret).length = 64 := by
  unfold GetSHA256 hmac.Sum
  rw [EncodeToString_length, sha256_Sum_length]

theorem GetSHA256_ne_empty (data secret : String) : GetSHA256 data secret ≠ "" := by
  intro h
  have := GetSHA256_length data secret
  rw [h] at this
  cases this

set_option maxRecDepth 1000000 in
/-- The value checked by `TestGetSHA256`. -/
theorem GetSHA256_test_vector :
    GetSHA256 "some data to hash" "secret"
      = "ab7bca798ad67207c5717d6a33090562d90ec29817af683c5f9f5d9da78a0f5d" := by
  decide

/-- C25: for every data string and secret string, `GetSHA256(data, secret)` is the hexadecimal
encoding of HMAC-SHA256 with key `secret` over the message `data`, it has 64 characters, all
of them lower-case hexadecimal digits; and for the data "some data to hash" and the secret
"secret" it is the value of the repository's test. -/
theorem C25_GetSHA256_is_hex_hmac_sha256 (data secret : String) :
    GetSHA256 data secret
        = hex.EncodeToString (specHMACSHA256 (bytesOfString secret) (bytesOfString data))
      ∧ (GetSHA256 data secret).length = 64
      ∧ (∀ c ∈ (GetSHA256 data secret).data, c ∈ "0123456789abcdef".data)
      ∧ GetSHA256 "some data to hash" "secret"
          = "ab7bca798ad67207c5717d6a33090562d90ec29817af683c5f9f5d9da78a0f5d" :=
  ⟨rfl, GetSHA256_length data secret, EncodeToString_lower_hex _, GetSHA256_test_vector⟩

/-! ### The signature check of the wallet requests -/

/-- C24 (amended): `NewWallet.Validate(secret)` succeeds if and only if the address is not
empty, the creation date is not zero and `GetSHA256(w.Address, secret)` equals the signature;
`GetWallet.Validate(secret)` succeeds if and only if the address is not empty and
`GetSHA256(w.Address, secret)` equals the signature. -/
theorem C24_Validate_iff_fields_and_signature (w : Models.NewWallet) (g : Models.GetWallet)
    (apiSecret : String) :
    (w.Validate apiSecret = .ok ()
        ↔ w.Address ≠ "" ∧ w.GeneratedAt ≠ 0 ∧ GetSHA256 w.Address apiSecret = w.Signature)
      ∧ (g.Validate apiSecret = .ok ()
        ↔ g.Address ≠ "" ∧ GetSHA256 g.Address apiSecret = g.Signature) := by
  constructor
  · unfold Models.NewWallet.Validate
    constructor
    · intro h
      split at h
      · cases h
      · split at h
        · cases h
        · split at h
          · cases h
          · split at h
            · cases h
            · rename_i h1 h2 _ h4
              exact ⟨h1, h2, not_not.mp h4⟩
    · rintro ⟨h1, h2, h3⟩
      have h4 : w.Signature ≠ "" := h3 ▸ GetSHA256_ne_empty _ _
      rw [if_neg h1, if_neg h2, if_neg h4, if_neg (not_not.mpr h3)]
  · unfold Models.GetWallet.Validate
    constructor
    · intro h
      split at h
      · cases h
      · split at h
        · cases h
        · split at h
          · cases h
          · rename_i h1 _ h4
            exact ⟨h1, not_not.mp h4⟩
    · rintro ⟨h1, h3⟩
      have h4 : g.Signature ≠ "" := h3 ▸ GetSHA256_ne_empty _ _
      rw [if_neg h1, if_neg h4, if_neg (not_not.mpr h3)]

/-- C24 (counterexample): a registration of the address `0xA1` whose signature is
`GetSHA256("0xA1", "secret")` and whose creation date is 0 is rejected, and so is a lookup of
the empty address signed with `GetSHA256("", "secret")`, although the signatures are the
right ones. -/
theorem C24_counterexample_right_signature_rejected :
    GetSHA256 "0xA1" "secret"
        = ({ Address := "0xA1", GeneratedAt := 0, Signature := GetSHA256 "0xA1" "secret" }
            : Models.NewWallet).Signature
      ∧ Models.NewWallet.Validate
          { Address := "0xA1", GeneratedAt := 0, Signature := GetSHA256 "0xA1" "secret" } "secret"
        = .error "empty wallet creation date provided"
      ∧ Models.GetWallet.Validate { Address := "", Signature := GetSHA256 "" "secret" } "secret"
        = .error "empty wallet address provided" :=
  ⟨rfl, rfl, rfl⟩

/-! ### `CreateTransaction` -/

theorem filter_hash_of_nodup (rows : List Transaction) (hash : String)
    (hkey : (rows.map fun r => r.Hash).Nodup)
    (hany : rows.any (fun r => decide (r.Hash = hash)) = true) :
    (rows.filter fun r => decide (r.Hash = hash)).length = 1 := by
  induction rows with
  | nil => simp at hany
  | cons r rows ih =>
    rw [List.map_cons, List.nodup_cons] at hkey
    by_cases hr : r.Hash = hash
    · have hnone : rows.filter (fun r => decide (r.Hash = hash)) = [] := by
        rw [List.filter_eq_nil_iff]
        intro r1 hr1 hc
        simp only [decide_eq_true_eq] at hc
        apply hkey.1
        rw [hr, ← hc]
        exact List.mem_map_of_mem (fun r => r.Hash) hr1
      rw [List.filter_cons_of_pos (by simpa using hr), hnone]
      rfl
    · rw [List.filter_cons_of_neg (by simpa using hr)]
      apply ih hkey.2
      simpa [hr] using hany

/-- C21: for every `transactions` table in which the hash is unique and every observed
transaction `tx` with a non-empty hash, after `CreateTransaction(tx)` the hash is still unique
and exactly one row has the hash of `tx`; every row with another hash is unchanged; a row that
had the hash of `tx` is unchanged when `tx.Time = 0`, and when `tx.Time ≠ 0` it differs only
in `Time`, now `tx.Time`, and `UpdatedAt`. -/
theorem C21_CreateTransaction_upserts (now : Nat) (id : String) (rows : List Transaction)
    (tx : NewTransaction) (hhash : tx.Hash ≠ "")
    (hkey : (rows.map fun r => r.Hash).Nodup) :
    (((Scrapper.CreateTransaction now id rows tx).1.map fun r => r.Hash).Nodup)
      ∧ ((Scrapper.CreateTransaction now id rows tx).1.filter
            fun r => decide (r.Hash = tx.Hash)).length = 1
      ∧ (∀ r ∈ rows, r.Hash ≠ tx.Hash → r ∈ (Scrapper.CreateTransaction now id rows tx).1)
      ∧ (∀ r ∈ rows, r.Hash = tx.Hash →
          (tx.Time = 0 → (Scrapper.CreateTransaction now id rows tx).1 = rows)
          ∧ (tx.Time ≠ 0 →
              ({ r with Time := tx.Time, UpdatedAt := some now } : Transaction)
                ∈ (Scrapper.CreateTransaction now id rows tx).1)) := by
  unfold Scrapper.CreateTransaction
  simp only [NewTransaction.Validate, if_neg hhash]
  unfold Postgres.CreateTransaction
  dsimp only
  by_cases hany : rows.any (fun r => decide (r.Hash = tx.Hash)) = true
  · rw [if_pos hany]
    by_cases ht : tx.Time = 0
    · rw [if_neg (by simpa using ht)]
      dsimp only
      refine ⟨hkey, filter_hash_of_nodup rows tx.Hash hkey hany, fun r hr _ => hr, ?_⟩
      intro r _ _
      exact ⟨fun _ => rfl, fun hc => absurd ht hc⟩
    · rw [if_pos (by simpa using ht)]
      dsimp only
      have hmapHash : (rows.map fun r =>
          if r.Hash = tx.Hash then ({ r with Time := tx.Time, UpdatedAt := some now } : Transaction)
          else r).map (fun r => r.Hash) = rows.map fun r => r.Hash := by
        rw [List.map_map]
        apply List.map_congr_left
        intro r _
        simp only [Function.comp_apply]
        split <;> rfl
      refine ⟨by rw [hmapHash]; exact hkey, ?_, ?_, ?_⟩
      · apply filter_hash_of_nodup _ _ (by rw [hmapHash]; exact hkey)
        rw [List.any_eq_true] at hany ⊢
        obtain ⟨r, hr, hp⟩ := hany
        refine ⟨_, List.mem_map_of_mem _ hr, ?_⟩
        simp only [decide_eq_true_eq] at hp ⊢
        rw [if_pos hp]
        exact hp
      · intro r hr hne
        exact List.mem_map.mpr ⟨r, hr, if_neg hne⟩
      · intro r hr heq
        refine ⟨fun hc => absurd hc ht, fun _ => ?_⟩
        exact List.mem_map.mpr ⟨r, hr, if_pos heq⟩
  · rw [if_neg hany]
    dsimp only
    have hnone : ∀ r ∈ rows, r.Hash ≠ tx.Hash := by
      intro r hr hc
      apply hany
      rw [List.any_eq_true]
      exact ⟨r, hr, by simpa using hc⟩
    refine ⟨?_, ?_, ?_, ?_⟩
    · rw [List.map_append, List.nodup_append]
      refine ⟨hkey, by simp, ?_⟩
      intro a ha hb
      simp only [List.map_cons, List.map_nil, List.mem_singleton] at hb
      obtain ⟨r, hr, rfl⟩ := List.mem_map.mp ha
      exact hnone r hr hb
    · rw [List.filter_append]
      have : rows.filter (fun r => decide (r.Hash = tx.Hash)) = [] := by
        rw [List.filter_eq_nil_iff]
        intro r hr
        simpa using hnone r hr
      rw [this]
      simp
    · intro r hr _
      exact List.mem_append_left _ hr
    · intro r hr heq
      exact absurd heq (hnone r hr)

/-- C21 (witness): the table holds the transaction `0xh1` without a time; the backfill
observes `0xh1` with the block time 1700000000: the row takes the time and nothing else. -/
theorem C21_witness_time_is_filled :
    sampleObserved.Hash ≠ ""
      ∧ ([sampleTransaction].map fun r => r.Hash).Nodup
      ∧ (Scrapper.CreateTransaction 20 "x2" [sampleTransaction] sampleObserved).1
          = [{ sampleTransaction with Time := 1700000000, UpdatedAt := some 20 }]
      ∧ ((Scrapper.CreateTransaction 20 "x2" [sampleTransaction] sampleObserved).1.filter
            fun r => decide (r.Hash = sampleObserved.Hash)).length = 1 :=
  ⟨by decide, by decide, by decide,
   (C21_CreateTransaction_upserts 20 "x2" [sampleTransaction] sampleObserved (by decide)
    (by decide)).2.1⟩

/-! ### `IsWalletExist` -/

/-- C27: the wallets `0xA1` and `0xB2` are in the table and the cache is empty.  A transaction
from `0xA1` to `0xB2` is looked up: the probe returns `0xA1`, the answer is true, and `0xB2`
is cached as false.  After a lookup of two addresses that are no wallets, the lookup of
`0xB2` and `0xC3` is answered from the cache with false, although `0xB2` is a wallet. -/
theorem C27_IsWalletExist_caches_a_wallet_as_unknown :
    isKnownWallet sampleWallets "0xB2" = true
      ∧ Postgres.ExistingWallet sampleWallets "0xA1" "0xB2" = "0xA1"
      ∧ Scrapper.IsWalletExist { items := [] } sampleWallets "0xA1" "0xB2"
          = ({ items := [("0xA1", true), ("0xB2", false)] }, true)
      ∧ Scrapper.IsWalletExist { items := [("0xA1", true), ("0xB2", false)] } sampleWallets
            "0xC3" "0xD4"
          = ({ items := [("0xD4", false), ("0xC3", false), ("0xA1", true), ("0xB2", false)] },
             false)
      ∧ Scrapper.IsWalletExist
            { items := [("0xD4", false), ("0xC3", false), ("0xA1", true), ("0xB2", false)] }
            sampleWallets "0xB2" "0xC3"
          = ({ items := [("0xD4", false), ("0xC3", false), ("0xA1", true), ("0xB2", false)] },
             false)
      ∧ (Scrapper.IsWalletExist { items := [] } sampleWallets "0xB2" "0xC3").2 = true :=
  ⟨by decide, by decide, by decide, by decide, by decide, by decide⟩

/-! ### The notifier -/

/-- While the `write` goroutines of the subscriptions of a client are in their loops, a
notification is received once by each of them, in the order of the map, and the manager
returns to its `select`. -/
theorem sendEachSub_of_writers (message : String) (subs : List Notifier.subscription)
    (m : Notifier.Manager)
    (hw : ∀ s ∈ subs, s.id ∈ m.writers) (hc : ∀ s ∈ subs, s.id ∉ m.closed) :
    Notifier.sendEachSub message m subs
      = { m with received := m.received ++ subs.map fun s => (s.id, message) } := by
  induction subs generalizing m with
  | nil => simp [Notifier.sendEachSub]
  | cons s subs ih =>
    have h1 := hw s (List.mem_cons_self _ _)
    have h2 := hc s (List.mem_cons_self _ _)
    rw [Notifier.sendEachSub, if_neg h2, if_pos h1]
    rw [ih { m with received := m.received ++ [(s.id, message)] }
      (fun s1 hs1 => hw s1 (List.mem_cons_of_mem _ hs1))
      (fun s1 hs1 => hc s1 (List.mem_cons_of_mem _ hs1))]
    simp

/-- A notification for a client without subscriptions is dropped. -/
theorem onNotification_of_no_client (m : Notifier.Manager) (clientID message : String)
    (h : m.subs clientID = none) : Notifier.onNotification m clientID message = m := by
  rw [Notifier.onNotification, h]

/-- An unregistration of a stored subscription deletes it and closes its channel once; the
same unregistration again changes nothing. -/
theorem onUnregister_twice (m : Notifier.Manager) (sub : Notifier.subscription)
    (hopen : sub.id ∉ m.closed) :
    Notifier.onUnregister (Notifier.onUnregister m sub) sub = Notifier.onUnregister m sub := by
  have hfind : ∀ (f : String × List Notifier.subscription → String × List Notifier.subscription)
      (cs : List (String × List Notifier.subscription)), (∀ p, (f p).1 = p.1) →
      (cs.map f).find? (fun p => decide (p.1 = sub.clientID))
        = (cs.find? fun p => decide (p.1 = sub.clientID)).map f := by
    intro f cs hf
    induction cs with
    | nil => rfl
    | cons c cs ih =>
      rw [List.map_cons, List.find?_cons, List.find?_cons, hf c]
      cases decide (c.1 = sub.clientID) with
      | true => rfl
      | false => exact ih
  cases hs : m.subs sub.clientID with
  | none =>
    have h1 : Notifier.onUnregister m sub = m := by rw [Notifier.onUnregister, hs]
    rw [h1, h1]
  | some subs =>
    by_cases hany : (subs.any fun s => decide (s.id = sub.id)) = true
    · have h1 : Notifier.onUnregister m sub
          = { m with
              clients := m.clients.map fun p =>
                if p.1 = sub.clientID then
                  (p.1, p.2.filter fun s => decide (s.id ≠ sub.id)) else p
              closed := m.closed ++ [sub.id]
              writers := m.writers.filter fun id => decide (id ≠ sub.id) } := by
        rw [Notifier.onUnregister, hs]
        simp only [hany, if_true, if_neg hopen]
      rw [h1]
      rw [Notifier.onUnregister]
      have h2 : Notifier.Manager.subs
          { m with
              clients := m.clients.map fun p =>
                if p.1 = sub.clientID then
                  (p.1, p.2.filter fun s => decide (s.id ≠ sub.id)) else p
              closed := m.closed ++ [sub.id]
              writers := m.writers.filter fun id => decide (id ≠ sub.id) } sub.clientID
          = some (subs.filter fun s => decide (s.id ≠ sub.id)) := by
        unfold Notifier.Manager.subs at hs ⊢
        dsimp only
        rw [hfind _ _ (fun p => by split <;> rfl)]
        cases hf : m.clients.find? (fun p => decide (p.1 = sub.clientID)) with
        | none => rw [hf] at hs; cases hs
        | some p =>
          rw [hf] at hs
          have hp := List.find?_some hf
          simp only [decide_eq_true_eq] at hp
          simp only [Option.map_some', Option.some.injEq] at hs ⊢
          rw [if_pos hp, hs]
      rw [h2]
      have h3 : ((subs.filter fun s => decide (s.id ≠ sub.id)).any
          fun s => decide (s.id = sub.id)) = false := by
        rw [List.any_eq_false]
        intro s hs1
        have := (List.mem_filter.mp hs1).2
        simpa using this
      simp only [h3]
      rfl
    · have h1 : Notifier.onUnregister m sub = m := by
        rw [Notifier.onUnregister, hs]
        simp only [hany]
        rfl
      rw [h1, h1]

/-- C23: two clients subscribe, and the connection of the first subscription breaks, so that
its `write` goroutine returns.  The manager then takes the notification `m1` for the first
client: it waits in the send to `s1` for ever.  Nothing is received, `s1` stays registered
and its channel open although its unregistration has been asked for, and the notification
`m2` for the second client, whose subscription is sound, is never received.  Without the
broken connection both notifications are received once. -/
theorem C23_notification_to_a_broken_subscription_blocks_the_manager :
    Notifier.Start Notifier.NewManager sampleBrokenWriterEvents
        = { clients := [("0xa1", [{ id := "s1", clientID := "0xa1" }]),
                        ("0xb2", [{ id := "s2", clientID := "0xb2" }])],
            writers := ["s2"],
            closed := [],
            received := [],
            activity := Notifier.Activity.sending "s1" "m1" }
      ∧ Notifier.Start Notifier.NewManager sampleNotifierEvents
        = { clients := [("0xa1", [{ id := "s1", clientID := "0xa1" }]),
                        ("0xb2", [{ id := "s2", clientID := "0xb2" }])],
            writers := ["s1", "s2"],
            closed := [],
            received := [("s1", "m1"), ("s2", "m2")],
            activity := Notifier.Activity.selecting } := by
  decide

/-! ### `CompleteTransfers` when no queued transfer is linked to the top-up -/

/-- C9 (counterexample): the world in which the confirmation of `t1`, `t2` was sent twice is
reachable; the top-up `e2` is pending and no queued transfer is linked to it.  The recomputed
gas fee is 0, the balance is 100000000 and every broadcast succeeds, yet
`CompleteTransfers("e2")` fails on the empty batch: nothing is broadcast, no row changes, and
the top-up is left pending, not completed. -/
theorem C9_counterexample_no_queued_transfer :
    Reachable sampleConfig "0xBA" sampleResentWorld
      ∧ sampleResentWorld.transfers.map
          (fun r => (r.ID, r.TransferType, r.Status, r.EthTransferID))
        = [("t1", TransferType.TransferToken, TransferStatus.failed, some "e2"),
           ("t2", TransferType.Tax, TransferStatus.failed, some "e2"),
           ("e2", TransferType.EthTopUp, TransferStatus.pending, none)]
      ∧ Postgres.GetQueuedTransfersFor sampleResentWorld.transfers "e2" = []
      ∧ sampleEnv.BalanceAt
          (Manager.lastFromAddress (Postgres.GetQueuedTransfersFor sampleResentWorld.transfers "e2"))
        = .ok 100000000
      ∧ Manager.totalGasFee (Postgres.GetQueuedTransfersFor sampleResentWorld.transfers "e2")
        ≤ 100000000
      ∧ (∀ k rawTx, ∃ txHash, sampleEnv.sendRawTransaction k rawTx = .ok txHash)
      ∧ Manager.CompleteTransfers sampleEnv sampleResentWorld "e2"
        = (sampleResentWorld, .error "empty transfers array received from the db")
      ∧ ¬ ∀ r1 ∈ (Manager.CompleteTransfers sampleEnv sampleResentWorld "e2").1.transfers,
          r1.ID = "e2" → r1.DeletedAt = none → r1.Status = TransferStatus.completed := by
  refine ⟨Reachable.ConfirmTransfer sampleResendEnv sampleRequest sampleConfirmedWorld_reachable
      ⟨by decide, by decide⟩ (fun b hb => (Except.ok.inj hb).symm),
    by decide, by decide, rfl, by decide, fun _ _ => ⟨_, rfl⟩, rfl, ?_⟩
  intro h
  have h1 := h (topUpRow sampleEnv "0xBA" 5 10 "0xtopup") (by decide) (by decide) (by decide)
  revert h1
  decide

end SdrWallets
